import Mathlib

/-! Terminal session output buffering and paginated reads.

A shallow embedding of the line buffer and pagination reader of
`vscode-extension/src/mcp/terminal-manager.ts`.

* JavaScript strings are modelled as lists of characters (`Str`).
* JavaScript numbers that the claims restrict to integers are modelled as `Int`.
* `Array.prototype.slice` is modelled by `jsSlice`, including its treatment of
  negative and out-of-range indices.
* The `updateLastRead` callback of `readFromLineBuffer` is modelled by returning the
  index that the callback is invoked with (`none` when it is not invoked).
-/

namespace TerminalManager

/-- Text: a JavaScript string seen as its sequence of characters. -/
abbrev Str := List Char

/-- The JavaScript call `text.split('\n')`: the pieces of `text` between newlines.
The result always has at least one piece. -/
def splitNewline : Str → List Str
  | [] => [[]]
  | c :: cs =>
    if c = '\n' then [] :: splitNewline cs
    else
      match splitNewline cs with
      | [] => [[c]]
      | l :: ls => (c :: l) :: ls

/-- The JavaScript call `xs.slice(start, stop)` for integer arguments: a negative index
counts from the end (clamped at 0), an index past the end is clamped to the length, and
the result is empty when the start is not before the stop. -/
def jsSlice {α : Type} (xs : List α) (start stop : Int) : List α :=
  let len : Int := xs.length
  let k : Int := if start < 0 then max (len + start) 0 else min start len
  let final : Int := if stop < 0 then max (len + stop) 0 else min stop len
  (xs.drop k.toNat).take (final - k).toNat

/-- The input stream `process.stdin` of a child process: whether it is destroyed, whether
a call of `write` throws, and the texts written to it so far. -/
structure StdinStream where
  destroyed : Bool
  writeThrows : Bool
  written : List Str
  deriving DecidableEq, Repr

/-- The part of a Node `ChildProcess` that the session code uses: its input stream, if
it has one. -/
structure ChildProcess where
  stdin : Option StdinStream
  deriving DecidableEq, Repr

/-- A child process with an open input stream to which nothing has been written. -/
def openProcess : ChildProcess :=
  { stdin := some { destroyed := false, writeThrows := false, written := [] } }

/-- The interface `TerminalSession` of `types.ts`; the process handle is reduced to the
state of its input stream. -/
structure TerminalSession where
  pid : Int
  outputLines : List Str
  lastReadIndex : Int
  isBlocked : Bool
  startTime : Int
  process : ChildProcess := openProcess
  deriving DecidableEq, Repr

/-- The interface `CompletedSession`. -/
structure CompletedSession where
  pid : Int
  outputLines : List Str
  exitCode : Option Int
  startTime : Int
  endTime : Int
  deriving DecidableEq, Repr

/-- The interface `PaginatedOutputResult` of `types.ts`. The optional `exitCode` is
`none` when undefined and `some none` when null. -/
structure PaginatedOutputResult where
  lines : List Str
  totalLines : Int
  readFrom : Int
  readCount : Int
  remaining : Int
  isComplete : Bool
  exitCode : Option (Option Int)
  runtimeMs : Option Int
  deriving DecidableEq, Repr

/-- The session object created by `executeCommand` once the child has a process id. -/
def newSession (pid startTime : Int) : TerminalSession :=
  { pid := pid, outputLines := [], lastReadIndex := 0, isBlocked := false,
    startTime := startTime }

/-- One iteration of the loop of `appendToLineBuffer`, for the piece `line` at index `i`. -/
def appendLine (outputLines : List Str) (i : Nat) (line : Str) : List Str :=
  if outputLines.length = 0 then
    outputLines ++ [line]
  else if i = 0 then
    outputLines.set (outputLines.length - 1)
      (outputLines.getD (outputLines.length - 1) [] ++ line)
  else
    outputLines ++ [line]

/-- The loop `for (let i = 0; i < lines.length; i++)` of `appendToLineBuffer`, started at
index `i` with the pieces still to process. -/
def appendLoop (outputLines : List Str) (i : Nat) : List Str → List Str
  | [] => outputLines
  | line :: rest => appendLoop (appendLine outputLines i line) (i + 1) rest

/-- The method `appendToLineBuffer(session, text)`. -/
def appendToLineBuffer (session : TerminalSession) (text : Str) : TerminalSession :=
  if text = [] then session
  else { session with outputLines := appendLoop session.outputLines 0 (splitNewline text) }

/-- The method `readFromLineBuffer`. The three regimes give the start index, the lines read
and the index passed to the callback `updateLastRead` when it is called; that index is
the second component of the result. -/
def readFromLineBuffer (lines : List Str) (offset length lastReadIndex : Int)
    (isComplete : Bool) (exitCode : Option (Option Int)) (runtimeMs : Option Int) :
    PaginatedOutputResult × Option Int :=
  let totalLines : Int := lines.length
  let branch : Int × List Str × Option Int :=
    if offset < 0 then
      let fromEnd : Int := |offset|
      let startIndex : Int := max 0 (totalLines - fromEnd)
      (startIndex, jsSlice lines startIndex (startIndex + length), none)
    else if offset = 0 then
      let startIndex : Int := lastReadIndex
      let linesToRead : List Str := jsSlice lines startIndex (startIndex + length)
      (startIndex, linesToRead, some (min (startIndex + linesToRead.length) totalLines))
    else
      let startIndex : Int := offset
      (startIndex, jsSlice lines startIndex (startIndex + length), none)
  let startIndex : Int := branch.1
  let linesToRead : List Str := branch.2.1
  let readCount : Int := linesToRead.length
  let endIndex : Int := startIndex + readCount
  let remaining : Int := max 0 (totalLines - endIndex)
  ({ lines := linesToRead, totalLines := totalLines, readFrom := startIndex,
     readCount := readCount, remaining := remaining, isComplete := isComplete,
     exitCode := exitCode, runtimeMs := runtimeMs }, branch.2.2)

/-- The active-session branch of `readOutputPaginated`: the read on a session found in
the `sessions` map, whose callback stores the new `lastReadIndex` in the session. -/
def readActive (session : TerminalSession) (offset length : Int) :
    PaginatedOutputResult × TerminalSession :=
  let r := readFromLineBuffer session.outputLines offset length session.lastReadIndex
    false none none
  (r.1,
    match r.2 with
    | some newIndex => { session with lastReadIndex := newIndex }
    | none => session)

/-- The completed-session branch of `readOutputPaginated`: the cursor is 0 and the
callback does nothing. -/
def readCompleted (c : CompletedSession) (offset length : Int) : PaginatedOutputResult :=
  (readFromLineBuffer c.outputLines offset length 0 true (some c.exitCode)
    (some (c.endTime - c.startTime))).1

/-- The two registry maps of the class `TerminalManager`, in insertion order. -/
structure Registry where
  sessions : List (Int × TerminalSession)
  completedSessions : List (Int × CompletedSession)
  deriving DecidableEq, Repr

/-- Replace the session stored under `pid`, keeping its place in the map. -/
def storeSession (pid : Int) (s : TerminalSession) :
    List (Int × TerminalSession) → List (Int × TerminalSession)
  | [] => []
  | (k, v) :: rest =>
    if k = pid then (k, s) :: rest else (k, v) :: storeSession pid s rest

/-- The default value of the parameter `length` of `readOutputPaginated`. -/
def DEFAULT_LENGTH : Int := 1000

/-- The method `readOutputPaginated(pid, offset, length)`: `none` is the JavaScript `null`. -/
def readOutputPaginated (m : Registry) (pid : Int) (offset length : Int) :
    Option PaginatedOutputResult × Registry :=
  match m.sessions.lookup pid with
  | some session =>
    let r := readActive session offset length
    (some r.1, { m with sessions := storeSession pid r.2 m.sessions })
  | none =>
    match m.completedSessions.lookup pid with
    | some completedSession => (some (readCompleted completedSession offset length), m)
    | none => (none, m)

/-- Joining two split texts: the last piece of the first is continued by the first piece
`p` of the second, and the other pieces `ps` of the second follow. -/
def stitch : List Str → Str → List Str → List Str
  | [], p, ps => p :: ps
  | [x], p, ps => (x ++ p) :: ps
  | x :: y :: xs, p, ps => x :: stitch (y :: xs) p ps

/-- A buffer of three lines. -/
def threeLines : List Str := ["a".toList, "b".toList, "c".toList]

/-- A buffer of ten lines. -/
def tenLines : List Str :=
  ["0".toList, "1".toList, "2".toList, "3".toList, "4".toList, "5".toList, "6".toList,
   "7".toList, "8".toList, "9".toList]

/-- An active session holding `threeLines`, with its cursor at `cursor`. -/
def threeLineSession (cursor : Int) : TerminalSession :=
  { pid := 7, outputLines := threeLines, lastReadIndex := cursor, isBlocked := false,
    startTime := 0 }

/-- A registry whose only session is `threeLineSession 0`. -/
def threeLineRegistry : Registry :=
  { sessions := [(7, threeLineSession 0)], completedSessions := [] }

/-- An event on one active session: an output chunk arrives, or the caller reads. -/
inductive SessionEvent where
  | chunk (text : Str)
  | read (offset length : Int)
  deriving DecidableEq, Repr

/-- The effect of one event on the session. -/
def stepSession (s : TerminalSession) : SessionEvent → TerminalSession
  | .chunk text => appendToLineBuffer s text
  | .read offset length => (readActive s offset length).2

/-- The session after a sequence of events. -/
def runSession (s : TerminalSession) (events : List SessionEvent) : TerminalSession :=
  events.foldl stepSession s

/-- The lines handed back by the reads of a sequence of events, in order. -/
def linesRead (s : TerminalSession) : List SessionEvent → List Str
  | [] => []
  | .chunk text :: rest => linesRead (appendToLineBuffer s text) rest
  | .read offset length :: rest =>
    (readActive s offset length).1.lines ++ linesRead (readActive s offset length).2 rest

/-- Every read of the sequence is a cursor-mode read that leaves `remaining = 0`. -/
def allCursorReadsComplete (s : TerminalSession) : List SessionEvent → Bool
  | [] => true
  | .chunk text :: rest => allCursorReadsComplete (appendToLineBuffer s text) rest
  | .read offset length :: rest =>
    decide (offset = 0) && decide ((readActive s offset length).1.remaining = 0)
      && allCursorReadsComplete (readActive s offset length).2 rest

/-- The buffer after appending the chunks in order to a session. -/
def appendChunks (s : TerminalSession) (chunks : List Str) : TerminalSession :=
  chunks.foldl appendToLineBuffer s

/-- Two chunks without a newline, each followed by a cursor-mode read. -/
def openLineEvents : List SessionEvent :=
  [.chunk "ab".toList, .read 0 DEFAULT_LENGTH, .chunk "cd".toList, .read 0 DEFAULT_LENGTH]

/-! ## The two registry maps and the handlers of `executeCommand` -/

/-- The JavaScript call `map.set(key, value)` on a `Map` kept in insertion order: an
existing key keeps its place and gets the new value, a new key goes to the end. -/
def jsMapSet {β : Type} (key : Int) (value : β) : List (Int × β) → List (Int × β)
  | [] => [(key, value)]
  | (k, v) :: rest =>
    if k = key then (k, value) :: rest else (k, v) :: jsMapSet key value rest

/-- The JavaScript call `map.delete(key)`. -/
def jsMapDelete {β : Type} (key : Int) (m : List (Int × β)) : List (Int × β) :=
  m.filter (fun kv => decide (kv.1 ≠ key))

/-- The cap on the number of completed sessions, the `100` of the exit handler. -/
def MAX_COMPLETED : Nat := 100

/-- The registry of a new `TerminalManager`: both maps are empty. -/
def emptyRegistry : Registry := { sessions := [], completedSessions := [] }

/-- The statement `this.sessions.set(childProcess.pid, session)` of `executeCommand`. -/
def registerSession (m : Registry) (session : TerminalSession) : Registry :=
  { m with sessions := jsMapSet session.pid session m.sessions }

/-- The eviction of the exit handler: when the completed map has more than 100 entries,
its first key is deleted. -/
def evictOldest (completed : List (Int × CompletedSession)) : List (Int × CompletedSession) :=
  if completed.length > MAX_COMPLETED then
    match completed with
    | [] => completed
    | (oldestKey, _) :: _ => jsMapDelete oldestKey completed
  else completed

/-- The registry part of the `exit` handler of `executeCommand` for the session object
`session` of the call (its pid is `childProcess.pid`): the block guarded by
`if (childProcess.pid)`. -/
def completeSession (m : Registry) (session : TerminalSession) (code : Option Int)
    (endTime : Int) : Registry :=
  if session.pid ≠ 0 then
    { sessions := jsMapDelete session.pid m.sessions,
      completedSessions :=
        evictOldest (jsMapSet session.pid
          { pid := session.pid, outputLines := session.outputLines, exitCode := code,
            startTime := session.startTime, endTime := endTime } m.completedSessions) }
  else m

/-- The method `getSession(pid)`. -/
def getSession (m : Registry) (pid : Int) : Option TerminalSession :=
  m.sessions.lookup pid

/-- The method `sendInputToProcess(pid, input)`: the boolean returned and the registry
afterwards (the text written is recorded in the input stream of the session). A `write`
that throws is caught and gives `false`. -/
def sendInputToProcess (m : Registry) (pid : Int) (input : Str) : Bool × Registry :=
  match m.sessions.lookup pid with
  | none => (false, m)
  | some session =>
    match session.process.stdin with
    | none => (false, m)
    | some stdin =>
      if stdin.destroyed then (false, m)
      else if stdin.writeThrows then (false, m)
      else
        let inputWithNewline : Str :=
          if input.getLast? = some '\n' then input else input ++ ['\n']
        let stdinAfter : StdinStream :=
          { stdin with written := stdin.written ++ [inputWithNewline] }
        let sessionAfter : TerminalSession :=
          { session with process := { stdin := some stdinAfter } }
        (true, { m with sessions := storeSession pid sessionAfter m.sessions })

/-- An event on the registry: a spawn that was given the process id `pid` (none when the
operating system gave no id), an output chunk of the session registered under `pid`, a
paginated read, an input sent, and the exit of the process whose session object is
`session`. -/
inductive RegistryEvent where
  | spawn (pid : Option Int) (process : ChildProcess) (startTime : Int)
  | chunk (pid : Int) (text : Str)
  | read (pid offset length : Int)
  | input (pid : Int) (text : Str)
  | exit (session : TerminalSession) (code : Option Int) (endTime : Int)
  deriving DecidableEq, Repr

/-- The test `!childProcess.pid` of `executeCommand`: no process id, or the id 0. -/
def pidMissing : Option Int → Bool
  | none => true
  | some pid => decide (pid = 0)

/-- The effect of one event on the registry. -/
def stepRegistry (m : Registry) : RegistryEvent → Registry
  | .spawn pid process startTime =>
    match pid with
    | none => m
    | some p =>
      if p = 0 then m
      else registerSession m { newSession p startTime with process := process }
  | .chunk pid text =>
    match m.sessions.lookup pid with
    | some session =>
      { m with sessions := storeSession pid (appendToLineBuffer session text) m.sessions }
    | none => m
  | .read pid offset length => (readOutputPaginated m pid offset length).2
  | .input pid text => (sendInputToProcess m pid text).2
  | .exit session code endTime => completeSession m session code endTime

/-- The registry after a sequence of events. -/
def runRegistry (m : Registry) (events : List RegistryEvent) : Registry :=
  events.foldl stepRegistry m

/-- No spawn of the sequence is given a process id that is in the completed map at that
moment. -/
def spawnsAvoidCompleted (m : Registry) : List RegistryEvent → Bool
  | [] => true
  | e :: rest =>
    (match e with
      | .spawn (some p) _ _ => (m.completedSessions.lookup p).isNone
      | _ => true)
      && spawnsAvoidCompleted (stepRegistry m e) rest

/-! ## Text building of the tool adapter (`index.ts`) -/

/-- The text of an integer in a template string, as JavaScript prints the integers that a
process id, a line count or a duration in milliseconds can be. -/
def numberToString (n : Int) : Str := (toString n).toList

/-- The JavaScript call `lines.join('\n')`. -/
def joinLines (lines : List Str) : Str := List.intercalate ['\n'] lines

/-- The text of `result.exitCode` in a template string: undefined, null or a number. -/
def exitCodeToString : Option (Option Int) → Str
  | none => "undefined".toList
  | some none => "null".toList
  | some (some code) => numberToString code

/-- The interface `ProcessState` of `types.ts`. -/
structure ProcessState where
  isWaitingForInput : Bool
  isFinished : Bool
  isRunning : Bool
  detectedPrompt : Option Str
  lastOutput : Str
  deriving DecidableEq, Repr

/-- The status line of the `read_process_output` tool. -/
def readStatusMessage (offset : Int) (result : PaginatedOutputResult) : Str :=
  if offset < 0 then
    "[Reading last ".toList ++ numberToString result.readCount ++ " lines (total: ".toList
      ++ numberToString result.totalLines ++ " lines)]".toList
  else if offset = 0 then
    if result.remaining > 0 then
      "[Reading ".toList ++ numberToString result.readCount ++ " new lines from line ".toList
        ++ numberToString result.readFrom ++ " (total: ".toList
        ++ numberToString result.totalLines ++ " lines, ".toList
        ++ numberToString result.remaining ++ " remaining)]".toList
    else
      "[Reading ".toList ++ numberToString result.readCount ++ " new lines (total: ".toList
        ++ numberToString result.totalLines ++ " lines)]".toList
  else
    "[Reading ".toList ++ numberToString result.readCount ++ " lines from line ".toList
      ++ numberToString result.readFrom ++ " (total: ".toList
      ++ numberToString result.totalLines ++ " lines, ".toList
      ++ numberToString result.remaining ++ " remaining)]".toList

/-- The answer of the `read_process_output` tool for the pid of no session. -/
def noSessionFound (pid : Int) : Str := "No session found for PID ".toList ++ numberToString pid

/-- The `execute` function of the `read_process_output` tool, after its wait for output:
the text returned and the registry afterwards. The functions `analyzeProcessState` and
`formatProcessStateMessage` of the module `process-detection` are parameters, and so is
`formatRuntime`, the text of `(runtimeMs / 1000).toFixed(2)`. -/
def readProcessOutputTool (analyzeProcessState : Str → Int → ProcessState)
    (formatProcessStateMessage : ProcessState → Int → Str) (formatRuntime : Int → Str)
    (m : Registry) (pid offset length : Int) : Str × Registry :=
  let session := getSession m pid
  let read := readOutputPaginated m pid offset length
  match read.1 with
  | none => (noSessionFound pid, read.2)
  | some result =>
    let output : Str := joinLines result.lines
    let statusMessage : Str := readStatusMessage offset result
    let processStateMessage : Str :=
      if result.isComplete then
        let runtimeStr : Str :=
          match result.runtimeMs with
          | some runtimeMs => " (runtime: ".toList ++ formatRuntime runtimeMs ++ "s)".toList
          | none => []
        "\n✅ Process completed with exit code ".toList ++ exitCodeToString result.exitCode
          ++ runtimeStr
      else
        match session with
        | some s =>
          let fullOutput : Str := joinLines s.outputLines
          let processState := analyzeProcessState fullOutput pid
          if processState.isWaitingForInput then
            "\n🔄 ".toList ++ formatProcessStateMessage processState pid
          else []
        | none => []
    let responseText : Str :=
      if output = [] then "(No output in requested range)".toList else output
    (statusMessage ++ "\n\n".toList ++ responseText ++ processStateMessage, read.2)

/-- The interface `TimingInfo` of `types.ts`, without the optional list of output events
(diagnostics that no control flow reads). -/
structure TimingInfo where
  startTime : Int
  endTime : Int
  totalDurationMs : Int
  exitReason : Str
  firstOutputTime : Option Int
  lastOutputTime : Option Int
  timeToFirstOutputMs : Option Int
  deriving DecidableEq, Repr

/-- The value that the promise of `executeCommand` resolves to. -/
structure CommandResult where
  pid : Int
  output : Str
  isBlocked : Bool
  timingInfo : Option TimingInfo
  deriving DecidableEq, Repr

/-- The five values of `TimingInfo['exitReason']` in `types.ts`. -/
def exitReasonEnum : List Str :=
  ["early_exit_quick_pattern".toList, "early_exit_periodic_check".toList,
   "process_exit".toList, "timeout".toList, "no_wait".toList]

/-- The function `formatTimingInfo` of `index.ts`. -/
def formatTimingInfo (timing : TimingInfo) : Str :=
  "\n\n📊 Timing Information:\n".toList
    ++ "  Exit Reason: ".toList ++ timing.exitReason ++ "\n".toList
    ++ "  Total Duration: ".toList ++ numberToString timing.totalDurationMs ++ "ms\n".toList
    ++ (match timing.timeToFirstOutputMs with
        | some t => "  Time to First Output: ".toList ++ numberToString t ++ "ms\n".toList
        | none => [])

/-- The `execute` function of the `start_process` tool, applied to the result of
`executeCommand`; the two functions of the module `process-detection` are parameters. -/
def startProcessTool (analyzeProcessState : Str → Int → ProcessState)
    (formatProcessStateMessage : ProcessState → Int → Str) (result : CommandResult) : Str :=
  if result.pid = -1 then
    "Error: ".toList ++ result.output
  else
    let processState := analyzeProcessState result.output result.pid
    let statusMessage : Str :=
      if processState.isWaitingForInput then
        "\n🔄 ".toList ++ formatProcessStateMessage processState result.pid
      else if processState.isFinished then
        "\n✅ ".toList ++ formatProcessStateMessage processState result.pid
      else if result.isBlocked then
        "\n⏳ Process is running. Use read_process_output to get more output.".toList
      else []
    let timingMessage : Str :=
      match result.timingInfo with
      | some timing => formatTimingInfo timing
      | none => []
    "Process started with PID ".toList ++ numberToString result.pid
      ++ "\nInitial output:\n".toList ++ result.output ++ statusMessage ++ timingMessage

/-- The method `captureOutputSnapshot(pid)`: the length of the joined output and the line
count of an active session. -/
def captureOutputSnapshot (m : Registry) (pid : Int) : Option (Int × Int) :=
  match m.sessions.lookup pid with
  | some session => some ((joinLines session.outputLines).length, session.outputLines.length)
  | none => none

/-- The answer of the `interact_with_process` tool when `sendInputToProcess` gives
`false`. -/
def sendFailedMessage (pid : Int) : Str :=
  "Error: Failed to send input to process ".toList ++ numberToString pid
    ++ ". The process may have exited or doesn't accept input.".toList

/-- The beginning of the `execute` function of the `interact_with_process` tool, up to
the wait for the response: the text returned when the call ends there (the send failed,
or the caller does not wait), and the registry afterwards. -/
def interactWithProcessBegin (m : Registry) (pid : Int) (input : Str)
    (wait_for_prompt verbose_timing : Bool) (startTime endTime : Int) :
    Option Str × Registry :=
  let sent := sendInputToProcess m pid input
  if sent.1 = false then
    (some (sendFailedMessage pid), sent.2)
  else if wait_for_prompt = false then
    let timingMessage : Str :=
      if verbose_timing then
        "\n\n📊 Timing: ".toList ++ numberToString (endTime - startTime) ++ "ms".toList
      else []
    (some ("✅ Input sent to process ".toList ++ numberToString pid
        ++ ". Use read_process_output to get the response.".toList ++ timingMessage), sent.2)
  else (none, sent.2)

/-! ## The promise of `executeCommand` -/

/-- The characters matched by `\s` in a JavaScript regular expression. -/
def isJsWhitespace (c : Char) : Bool :=
  let n := c.toNat
  n = 9 || n = 10 || n = 11 || n = 12 || n = 13 || n = 32 || n = 160 || n = 5760
    || (8192 ≤ n && n ≤ 8202) || n = 8232 || n = 8233 || n = 8239 || n = 8287
    || n = 12288 || n = 65279

/-- One alternative `lit\s*$` of the quick-prompt pattern, tried at the start of `rest`:
the literal, then only whitespace up to the end of the text. -/
def matchesPromptAt (lit : Str) (rest : Str) : Bool :=
  lit.isPrefixOf rest && (rest.drop lit.length).all isJsWhitespace

/-- The test `quickPromptPatterns.test(text)` for the regular expression
`/>>>\s*$|>\s*$|\$\s*$|#\s*$/`: some alternative matches at some position of the text. -/
def quickPromptPatterns (text : Str) : Bool :=
  text.tails.any (fun rest =>
    matchesPromptAt ">>>".toList rest || matchesPromptAt ">".toList rest
      || matchesPromptAt "$".toList rest || matchesPromptAt "#".toList rest)

/-- The variables that the handlers of one call of `executeCommand` share after a
successful spawn: the registry, the session object of the call, the output so far, the
clock reading at the start, the times of the first and last output, the exit reason
variable, the flag `resolved`, and the values passed to `resolve` so far. The session
object is the one stored in the `sessions` map under its pid until the exit handler
deletes it, so a change of the object is a change of the map entry. -/
structure CommandState where
  registry : Registry
  session : TerminalSession
  output : Str
  startTime : Int
  firstOutputTime : Option Int
  lastOutputTime : Option Int
  exitReason : Str
  resolved : Bool
  resolutions : List CommandResult
  deriving DecidableEq, Repr

/-- The result of `executeCommand` when the spawn gives no process id. -/
def failedSpawnResult : CommandResult :=
  { pid := -1,
    output := "Error: Failed to get process ID. The command could not be executed.".toList,
    isBlocked := false, timingInfo := none }

/-- The shared variables of a call right after a successful spawn with process id `pid`
on the registry `m`. -/
def startedCommand (m : Registry) (pid : Int) (process : ChildProcess)
    (sessionStart startTime : Int) : CommandState :=
  { registry := registerSession m { newSession pid sessionStart with process := process },
    session := { newSession pid sessionStart with process := process }, output := [],
    startTime := startTime, firstOutputTime := none, lastOutputTime := none,
    exitReason := "timeout".toList, resolved := false, resolutions := [] }

/-- The listeners that `executeCommand` has attached to the child process, by event: the
`data` listeners of stdout and stderr, and the `error` and `exit` listeners of the child
itself. -/
structure ChildListeners where
  stdoutData : Bool
  stderrData : Bool
  error : Bool
  exit : Bool
  deriving DecidableEq, Repr

/-- What a call of `executeCommand` leaves behind when the spawn gives no process id: the
value returned, the registry, and the listeners on the child. The `return` stands before
every `.on(...)` call of the function, so the child has no listener at all. -/
structure FailedSpawn where
  result : CommandResult
  registry : Registry
  listeners : ChildListeners
  deriving DecidableEq, Repr

/-- The part of `executeCommand` before its promise: with no process id the result is
returned at once, the registry is left as it is and no listener is attached; otherwise the
session is created and registered, and the shared variables get their first values (the
promise executor then attaches the four listeners, which `stepCommand` runs).
`sessionStart` and `startTime` are the two clock readings. -/
def executeCommandSpawn (m : Registry) (childPid : Option Int) (process : ChildProcess)
    (sessionStart startTime : Int) : FailedSpawn ⊕ CommandState :=
  if pidMissing childPid then
    .inl { result := failedSpawnResult, registry := m,
           listeners := { stdoutData := false, stderrData := false, error := false,
                          exit := false } }
  else .inr (startedCommand m (childPid.getD 0) process sessionStart startTime)

/-- The listeners on the child process when `executeCommand` has returned its result or
its promise: none after the early return, all four after the promise executor has run. -/
def attachedListeners : FailedSpawn ⊕ CommandState → ChildListeners
  | .inl failed => failed.listeners
  | .inr _ => { stdoutData := true, stderrData := true, error := true, exit := true }

/-- What becomes of an `error` event of a child process. -/
inductive ErrorDelivery where
  | handled
  | uncaughtException
  deriving DecidableEq, Repr

/-- The call `emit('error', err)` of Node's event emitter on the child process: the
`error` listeners run if there is one; with no `error` listener the error is thrown, and
since the emit comes from the event loop and the module installs no `uncaughtException`
handler, it is an uncaught exception of the server process. -/
def deliverError (listeners : ChildListeners) : ErrorDelivery :=
  if listeners.error then .handled else .uncaughtException

/-- A change of the session object of the call, seen in the map entry of its pid. -/
def updateSession (st : CommandState) (session : TerminalSession) : CommandState :=
  { st with
    session := session,
    registry :=
      { st.registry with sessions := storeSession session.pid session st.registry.sessions } }

/-- The test `!firstOutputTime`: undefined, or 0. -/
def timeUnset : Option Int → Bool
  | none => true
  | some t => decide (t = 0)

/-- The closure `resolveOnce(result)`; `endTime` is the clock reading it takes when
timing is collected. -/
def resolveOnce (collectTiming : Bool) (st : CommandState) (result : CommandResult)
    (endTime : Int) : CommandState :=
  if st.resolved then st
  else
    let timed : CommandResult :=
      if collectTiming then
        { result with
          timingInfo := some
            { startTime := st.startTime, endTime := endTime,
              totalDurationMs := endTime - st.startTime, exitReason := st.exitReason,
              firstOutputTime := st.firstOutputTime, lastOutputTime := st.lastOutputTime,
              timeToFirstOutputMs :=
                if timeUnset st.firstOutputTime then none
                else some (st.firstOutputTime.getD 0 - st.startTime) } }
      else result
    { st with resolved := true, resolutions := st.resolutions ++ [timed] }

/-- The first statements shared by the `data` handlers of stdout and stderr: the output
times, the output text and the line buffer. -/
def recordOutput (st : CommandState) (text : Str) (now : Int) : CommandState :=
  updateSession
    { st with
      firstOutputTime := if timeUnset st.firstOutputTime then some now else st.firstOutputTime,
      lastOutputTime := some now,
      output := st.output ++ text }
    (appendToLineBuffer st.session text)

/-- The `data` handler of stdout. -/
def onStdout (collectTiming : Bool) (st : CommandState) (text : Str) (now endTime : Int) :
    CommandState :=
  let st1 := recordOutput st text now
  if quickPromptPatterns text then
    let st2 := updateSession st1 { st1.session with isBlocked := true }
    let st3 := { st2 with exitReason := "early_exit_quick_pattern".toList }
    resolveOnce collectTiming st3
      { pid := st3.session.pid, output := st3.output, isBlocked := true, timingInfo := none }
      endTime
  else st1

/-- The `data` handler of stderr. -/
def onStderr (st : CommandState) (text : Str) (now : Int) : CommandState :=
  recordOutput st text now

/-- The callback of `setTimeout(..., timeoutMs)`. -/
def onTimeout (collectTiming : Bool) (st : CommandState) (endTime : Int) : CommandState :=
  let st1 := updateSession st { st.session with isBlocked := true }
  let st2 := { st1 with exitReason := "timeout".toList }
  resolveOnce collectTiming st2
    { pid := st2.session.pid, output := st2.output, isBlocked := true, timingInfo := none }
    endTime

/-- The `exit` handler; `exitTime` is the clock reading stored in the completed session. -/
def onExit (collectTiming : Bool) (st : CommandState) (code : Option Int)
    (exitTime endTime : Int) : CommandState :=
  let st1 := { st with registry := completeSession st.registry st.session code exitTime }
  let st2 := { st1 with exitReason := "process_exit".toList }
  resolveOnce collectTiming st2
    { pid := st2.session.pid, output := st2.output, isBlocked := false, timingInfo := none }
    endTime

/-- The `error` handler of the child process; `message` is `error.message`. The pid of
the result is `childProcess.pid || -1`. The handler touches neither the session nor the
registry. -/
def onError (collectTiming : Bool) (st : CommandState) (message : Str) (endTime : Int) :
    CommandState :=
  let st1 := { st with exitReason := "process_exit".toList }
  resolveOnce collectTiming st1
    { pid := if st1.session.pid = 0 then -1 else st1.session.pid,
      output := "Error: Failed to execute command: ".toList ++ message,
      isBlocked := false, timingInfo := none }
    endTime

/-- An event delivered to the handlers of one call of `executeCommand`, with the clock
readings its handler takes. The `error` event of a child that was spawned is the one Node
emits when the process could not be killed or a message to it could not be sent; it
carries the message of the error. -/
inductive CommandEvent where
  | stdout (text : Str) (now endTime : Int)
  | stderr (text : Str) (now : Int)
  | error (message : Str) (endTime : Int)
  | timeout (endTime : Int)
  | exit (code : Option Int) (exitTime endTime : Int)
  deriving DecidableEq, Repr

/-- The handler of one event. -/
def stepCommand (collectTiming : Bool) (st : CommandState) : CommandEvent → CommandState
  | .stdout text now endTime => onStdout collectTiming st text now endTime
  | .stderr text now => onStderr st text now
  | .error message endTime => onError collectTiming st message endTime
  | .timeout endTime => onTimeout collectTiming st endTime
  | .exit code exitTime endTime => onExit collectTiming st code exitTime endTime

/-- The shared variables after a sequence of events. -/
def runCommand (collectTiming : Bool) (st : CommandState) (events : List CommandEvent) :
    CommandState :=
  events.foldl (stepCommand collectTiming) st

/-- Whether the handler of the event calls `resolveOnce`, which four handlers do: the one
of a stdout chunk that matches the quick-prompt pattern, and those of the `error` event,
the timeout and the exit. -/
def isOutcome : CommandEvent → Bool
  | .stdout text _ _ => quickPromptPatterns text
  | .stderr _ _ => false
  | .error _ _ => true
  | .timeout _ => true
  | .exit _ _ _ => true

/-- The value that the handler of an outcome gives to the variable `exitReason`. -/
def outcomeReason : CommandEvent → Str
  | .stdout _ _ _ => "early_exit_quick_pattern".toList
  | .stderr _ _ => []
  | .error _ _ => "process_exit".toList
  | .timeout _ => "timeout".toList
  | .exit _ _ _ => "process_exit".toList

/-- Whether the event is an `error` event of the child. -/
def isErrorEvent : CommandEvent → Bool
  | .error _ _ => true
  | _ => false

/-- The message carried by an `error` event (empty for the other events). -/
def eventMessage : CommandEvent → Str
  | .error message _ => message
  | _ => []

/-- The texts of the output chunks of a sequence of events, concatenated in order. -/
def chunksText : List CommandEvent → Str
  | [] => []
  | .stdout text _ _ :: rest => text ++ chunksText rest
  | .stderr text _ :: rest => text ++ chunksText rest
  | _ :: rest => chunksText rest

/-! ## The wait of `interact_with_process` -/

/-- The variables of the polling loop of `interact_with_process`. -/
structure PollState where
  resolved : Bool
  attempts : Int
  lastOutputLength : Int
  output : Str
  earlyExit : Bool
  exitReason : Str
  deriving DecidableEq, Repr

/-- The variables when the polling starts. -/
def initialPollState : PollState :=
  { resolved := false, attempts := 0, lastOutputLength := 0, output := [],
    earlyExit := false, exitReason := "timeout".toList }

/-- The end of the `setInterval` callback of `waitForResponse`: the attempt is counted,
and the wait ends with the reason `timeout` when the count reaches `maxAttempts`. -/
def countAttempt (maxAttempts : Int) (st : PollState) : PollState :=
  if st.attempts + 1 ≥ maxAttempts then
    { st with attempts := st.attempts + 1, exitReason := "timeout".toList, resolved := true }
  else { st with attempts := st.attempts + 1 }

/-- One run of the `setInterval` callback of `waitForResponse`. `newOutput` is what
`getOutputSinceSnapshot` or `getNewOutput` gives at this tick (none for null), and
`analyzeProcessState` is the function of the module `process-detection`. -/
def pollTick (analyzeProcessState : Str → Int → ProcessState) (pid maxAttempts : Int)
    (st : PollState) (newOutput : Option Str) : PollState :=
  if st.resolved then st
  else
    match newOutput with
    | none => countAttempt maxAttempts st
    | some out =>
      if out ≠ [] ∧ (out.length : Int) > st.lastOutputLength then
        let st1 : PollState := { st with output := out, lastOutputLength := out.length }
        let processState := analyzeProcessState st1.output pid
        if processState.isWaitingForInput then
          { st1 with earlyExit := true, exitReason := "early_exit_periodic_check".toList,
                     resolved := true }
        else if processState.isFinished then
          { st1 with exitReason := "process_finished".toList, resolved := true }
        else countAttempt maxAttempts st1
      else countAttempt maxAttempts st

/-- The timing annotation of the `interact_with_process` response after a wait. -/
def interactTimingMessage (verbose_timing : Bool) (startTime endTime : Int)
    (exitReason : Str) : Str :=
  if verbose_timing then
    "\n\n📊 Timing: ".toList ++ numberToString (endTime - startTime) ++ "ms (".toList
      ++ exitReason ++ ")".toList
  else []

/-- Modelled from the spec: the function `analyzeProcessState` of the module
`process-detection`, which is not among the sources, at the output of a process that has
exited: such an output "is reported as isFinished=true", never as waiting. This stand-in
reports it for every output. -/
def alwaysFinished (out : Str) (_pid : Int) : ProcessState :=
  { isWaitingForInput := false, isFinished := true, isRunning := false,
    detectedPrompt := none, lastOutput := out }

/-- The exits of the processes 1 to `n`, in this order, each with exit code 0. -/
def exitsUpTo (n : Nat) : List RegistryEvent :=
  (List.range n).map (fun i => RegistryEvent.exit (newSession ((i : Int) + 1) 0) (some 0) 1)

/-- A process is spawned with pid 5 and exits, and the next process spawned is given the
pid 5 again. -/
def pidReuseEvents : List RegistryEvent :=
  [.spawn (some 5) openProcess 0, .exit (newSession 5 0) (some 0) 1,
   .spawn (some 5) openProcess 2]

/-- Two processes are spawned and the first one exits. -/
def twoProcessEvents : List RegistryEvent :=
  [.spawn (some 5) openProcess 0, .spawn (some 6) openProcess 1,
   .exit (newSession 5 0) (some 0) 2]

/-- Whether the event is the exit of the process. -/
def isExitEvent : CommandEvent → Bool
  | .exit _ _ _ => true
  | _ => false

/-- Whether the event is the timeout of the call. -/
def isTimeoutEvent : CommandEvent → Bool
  | .timeout _ => true
  | _ => false

/-- Process 7 prints `a`, then a signal to it fails and the child emits `error`. -/
def killFailedEvents : List CommandEvent :=
  [.stdout "a".toList 5 6, .error "kill EPERM".toList 7]

/-- The child emits `error` and nothing else happens before the timeout. -/
def errorThenTimeoutEvents : List CommandEvent :=
  [.error "kill EPERM".toList 7, .timeout 30000]

/-- The events of a call before its prompt: a banner line on stderr. -/
def promptEvents : List CommandEvent := [.stderr "Python 3\n".toList 5]

/-- Events delivered after the prompt resolved the call: the timeout and the exit. -/
def lateEvents : List CommandEvent := [.timeout 30000, .exit (some 0) 40000 40001]

/-- A registry whose only session, of pid 42, has a destroyed input stream. -/
def closedStdinRegistry : Registry :=
  { sessions :=
      [(42, { newSession 42 0 with
                process := { stdin := some { destroyed := true, writeThrows := false,
                                             written := [] } } })],
    completedSessions := [] }

/-- The polling loop of `interact_with_process` over the outputs seen at its ticks. -/
def runPoll (analyzeProcessState : Str → Int → ProcessState) (pid maxAttempts : Int)
    (st : PollState) (outputs : List (Option Str)) : PollState :=
  outputs.foldl (pollTick analyzeProcessState pid maxAttempts) st

/-! ## Input normalisation and snapshot diffing -/

/-- The text that `sendInputToProcess` writes: the local `inputWithNewline`. -/
def inputWithNewline (input : Str) : Str :=
  if input.getLast? = some '\n' then input else input ++ ['\n']

/-- The JavaScript call `s.substring(start)` for an integer start: a negative start counts
as 0 and a start past the end gives the empty string. -/
def jsSubstringFrom (s : Str) (start : Int) : Str :=
  s.drop (min (max start 0) s.length).toNat

/-- The method `getOutputSinceSnapshot(pid, snapshot)`; the snapshot is the pair
`(totalChars, lineCount)` and none is the JavaScript null. -/
def getOutputSinceSnapshot (m : Registry) (pid : Int) (snapshot : Int × Int) : Option Str :=
  match m.sessions.lookup pid with
  | some session =>
    let fullOutput : Str := joinLines session.outputLines
    if (fullOutput.length : Int) ≤ snapshot.1 then some []
    else some (jsSubstringFrom fullOutput snapshot.1)
  | none =>
    match m.completedSessions.lookup pid with
    | some completedSession =>
      let fullOutput : Str := joinLines completedSession.outputLines
      if (fullOutput.length : Int) ≤ snapshot.1 then some []
      else some (jsSubstringFrom fullOutput snapshot.1)
    | none => none

/-- A registry whose only session, of pid 9, holds the open line `ab`. -/
def openLineRegistry : Registry :=
  { sessions := [(9, { newSession 9 0 with outputLines := ["ab".toList] })],
    completedSessions := [] }

/-- Process 5 prints `old` and exits; the next process spawned is given the pid 5 again
and prints the lines `x` and `y`. -/
def reusedPidEvents : List RegistryEvent :=
  [.spawn (some 5) openProcess 0, .chunk 5 "old".toList,
   .exit { newSession 5 0 with outputLines := ["old".toList] } (some 0) 1,
   .spawn (some 5) openProcess 2, .chunk 5 "x\ny".toList]

/-- A registry whose only entry is the completed session 3 with three lines, exit code 0
and a runtime of 40 ms. -/
def completedRegistry : Registry :=
  { sessions := [],
    completedSessions :=
      [(3, { pid := 3, outputLines := threeLines, exitCode := some 0, startTime := 10,
             endTime := 50 })] }

/-! ## Shell resolution and termination -/

/-- The interface `ShellSpawnConfig`; `useShellOption` is none for `false` and the shell
path otherwise. -/
structure ShellSpawnConfig where
  executable : Str
  args : List Str
  useShellOption : Option Str
  deriving DecidableEq, Repr

/-- The JavaScript call `s.includes(sub)`: `sub` starts at some position of `s`. -/
def jsIncludes (s sub : Str) : Bool :=
  s.tails.any (fun rest => sub.isPrefixOf rest)

/-- The function `getShellSpawnArgs(shellPath, command)`. The library functions
`path.basename` and `String.prototype.toLowerCase` are the parameters `basename` and
`toLowerCase`. -/
def getShellSpawnArgs (basename toLowerCase : Str → Str) (shellPath command : Str) :
    ShellSpawnConfig :=
  let shellName : Str := toLowerCase (basename shellPath)
  if jsIncludes shellName "bash".toList || jsIncludes shellName "zsh".toList then
    { executable := shellPath, args := ["-l".toList, "-c".toList, command],
      useShellOption := none }
  else if shellName = "pwsh".toList ∨ shellName = "pwsh.exe".toList then
    { executable := shellPath, args := ["-Login".toList, "-Command".toList, command],
      useShellOption := none }
  else if shellName = "powershell".toList ∨ shellName = "powershell.exe".toList then
    { executable := shellPath, args := ["-Command".toList, command], useShellOption := none }
  else if shellName = "cmd".toList ∨ shellName = "cmd.exe".toList then
    let utf8Command : Str := "chcp 65001 >nul && ".toList ++ command
    { executable := shellPath, args := ["/c".toList, utf8Command], useShellOption := none }
  else if jsIncludes shellName "fish".toList then
    { executable := shellPath, args := ["-l".toList, "-c".toList, command],
      useShellOption := none }
  else
    { executable := command, args := [], useShellOption := some shellPath }

/-- The Node function `path.basename` on a POSIX path: trailing slashes are dropped and
the text after the last remaining slash is kept. -/
def posixBasename (p : Str) : Str :=
  ((p.reverse.dropWhile (fun c => c = '/')).takeWhile (fun c => c ≠ '/')).reverse

/-- The JavaScript call `s.toLowerCase()` on a text of ASCII characters. -/
def asciiLowerCase (s : Str) : Str := s.map Char.toLower

/-- The signals and commands that `forceTerminate` sends: `SIGINT` and `SIGKILL` through
`process.kill`, and on Windows `taskkill /PID pid /T` and `taskkill /F /PID pid /T`. -/
inductive TerminateSignal where
  | SIGINT
  | SIGKILL
  | taskkill
  | taskkillForce
  deriving DecidableEq, Repr

/-- The delay of the `setTimeout` of `forceTerminate`, in milliseconds. -/
def GRACE_PERIOD_MS : Int := 1000

/-- What a call of `forceTerminate` does: the boolean returned, the signals sent during
the call (with the pid they go to: the pid of the session's process for `process.kill`,
the pid argument for `taskkill`), and the timer it sets (its delay in
milliseconds and the pid its callback tests). -/
structure TerminateOutcome where
  result : Bool
  sent : List (Int × TerminateSignal)
  timer : Option (Int × Int)
  deriving DecidableEq, Repr

/-- The method `forceTerminate(pid)` on Windows (`isWindows`) or elsewhere: what the call
does and the registry afterwards. `process.kill` with the signal names `SIGINT` and
`SIGKILL` and `exec` with a callback report failures without throwing, so the `catch`
branch is not taken. -/
def forceTerminate (isWindows : Bool) (m : Registry) (pid : Int) :
    TerminateOutcome × Registry :=
  match m.sessions.lookup pid with
  | none => ({ result := false, sent := [], timer := none }, m)
  | some session =>
    ({ result := true,
       sent := [if isWindows then (pid, .taskkill) else (session.pid, .SIGINT)],
       timer := some (GRACE_PERIOD_MS, pid) }, m)

/-- The callback of the timer of `forceTerminate(pid)` for the session object `session`,
run on the registry `m` of the moment it fires: the signals it sends and the registry
afterwards. -/
def forceTerminateTimer (isWindows : Bool) (session : TerminalSession) (m : Registry)
    (pid : Int) : List (Int × TerminateSignal) × Registry :=
  if (m.sessions.lookup pid).isSome then
    ([if isWindows then (pid, .taskkillForce) else (session.pid, .SIGKILL)], m)
  else ([], m)

/-! ## The quick-prompt pattern read as a text property -/

/-- The text without its trailing whitespace, whitespace being what `\s` matches. -/
def stripTrailingWhitespace (text : Str) : Str :=
  (text.reverse.dropWhile isJsWhitespace).reverse

/-- The characters that end a prompt for the quick-prompt pattern. -/
def promptChars : List Char := ['>', '$', '#']

/-- The quick-prompt pattern without its first alternative: `/>\s*$|\$\s*$|#\s*$/`. -/
def quickPromptSingle (text : Str) : Bool :=
  text.tails.any (fun rest =>
    matchesPromptAt ">".toList rest || matchesPromptAt "$".toList rest
      || matchesPromptAt "#".toList rest)

/-- A text ends with a prompt character followed by whitespace only. -/
def endsWithPrompt (text : Str) : Prop :=
  ∃ (pre : Str) (c : Char) (r : Str),
    text = pre ++ c :: r ∧ c ∈ promptChars ∧ ∀ x ∈ r, isJsWhitespace x = true


/-! ## The wait of `interact_with_process` as a whole -/

/-- The constant `pollIntervalMs` of `waitForResponse`: the period passed to
`setInterval`, whatever the output. -/
def POLL_INTERVAL_MS : Int := 50

/-- The value `Math.ceil(timeout_ms / pollIntervalMs)` for an integer `timeout_ms`. -/
def maxAttemptsFor (timeout_ms : Int) : Int :=
  (timeout_ms + (POLL_INTERVAL_MS - 1)) / POLL_INTERVAL_MS

/-- The promise of `waitForResponse`: the variables of the polling loop, whether the
interval timer is still set, the number of calls of `resolve`, and the number of runs of
the interval callback so far. -/
structure WaitState where
  poll : PollState
  intervalActive : Bool
  resolveCalls : Nat
  ticks : Nat
  deriving DecidableEq, Repr

/-- The promise right after `setInterval`. -/
def startWait : WaitState :=
  { poll := initialPollState, intervalActive := true, resolveCalls := 0, ticks := 0 }

/-- One period of the interval timer. While the timer is set its callback runs; the run
in which `resolved` becomes true is the one that executes `resolveOnce`, which clears the
timer and calls `resolve`. Once the timer is cleared no callback runs. -/
def waitTick (analyzeProcessState : Str → Int → ProcessState) (pid timeout_ms : Int)
    (st : WaitState) (newOutput : Option Str) : WaitState :=
  if st.intervalActive then
    let next : PollState :=
      pollTick analyzeProcessState pid (maxAttemptsFor timeout_ms) st.poll newOutput
    if next.resolved && !st.poll.resolved then
      { poll := next, intervalActive := false, resolveCalls := st.resolveCalls + 1,
        ticks := st.ticks + 1 }
    else { st with poll := next, ticks := st.ticks + 1 }
  else st

/-- The promise after the periods in which the outputs `outputs` are seen. -/
def runWait (analyzeProcessState : Str → Int → ProcessState) (pid timeout_ms : Int)
    (st : WaitState) (outputs : List (Option Str)) : WaitState :=
  outputs.foldl (waitTick analyzeProcessState pid timeout_ms) st

/-- The detector reports neither a wait for input nor a finished process for any of the
outputs. -/
def noStateSeen (analyzeProcessState : Str → Int → ProcessState) (pid : Int)
    (outputs : List (Option Str)) : Prop :=
  ∀ o ∈ outputs, ∀ out, o = some out →
    (analyzeProcessState out pid).isWaitingForInput = false ∧
      (analyzeProcessState out pid).isFinished = false

/-- Modelled from the spec: the function `analyzeProcessState` of the module
`process-detection`, which is not among the sources, at the output of a process that is
still running: neither waiting for input nor finished. This stand-in reports it for every
output. -/
def stillRunning (out : Str) (_pid : Int) : ProcessState :=
  { isWaitingForInput := false, isFinished := false, isRunning := true,
    detectedPrompt := none, lastOutput := out }

/-- The promise is consistent: the timer is set exactly while the wait is unresolved, and
`resolve` has been called once if the wait is resolved and never otherwise. -/
def waitConsistent (st : WaitState) : Prop :=
  st.intervalActive = !st.poll.resolved ∧
    st.resolveCalls = if st.poll.resolved then 1 else 0


/-! ## The response of `interact_with_process` -/

/-- The JavaScript call `s.trim()`: the text without its leading and trailing white space
and line ends. -/
def jsTrim (s : Str) : Str :=
  ((s.dropWhile isJsWhitespace).reverse.dropWhile isJsWhitespace).reverse

/-- The constant `maxOutputLines` of `interact_with_process`. -/
def MAX_OUTPUT_LINES : Nat := 1000

/-- The truncation of `interact_with_process`: the output kept and the truncation
message (empty when the output has at most 1000 lines). -/
def truncateOutput (cleanOutput : Str) : Str × Str :=
  let outputLines : List Str := splitNewline cleanOutput
  if outputLines.length > MAX_OUTPUT_LINES then
    let truncatedLines : List Str := jsSlice outputLines 0 MAX_OUTPUT_LINES
    (joinLines truncatedLines,
      "\n\n⚠️ Output truncated: showing ".toList ++ numberToString MAX_OUTPUT_LINES
        ++ " of ".toList ++ numberToString outputLines.length ++ " lines.".toList)
  else (cleanOutput, [])

/-- The end of the `execute` function of `interact_with_process`, after the wait: the
response built from the cleaned output, the process state that `analyzeProcessState` gave
for the output, and the variables of the wait. `formatProcessStateMessage` is the function
of the module `process-detection`. -/
def interactResponse (formatProcessStateMessage : ProcessState → Int → Str) (pid : Int)
    (cleanOutput : Str) (processState : ProcessState) (earlyExit verbose_timing : Bool)
    (startTime endTime : Int) (exitReason : Str) : Str :=
  let timeoutReached : Bool :=
    !earlyExit && !processState.isFinished && !processState.isWaitingForInput
  let truncated := truncateOutput cleanOutput
  let cleanOutput : Str := truncated.1
  let truncationMessage : Str := truncated.2
  let statusMessage : Str :=
    if processState.isWaitingForInput then
      "\n🔄 ".toList ++ formatProcessStateMessage processState pid
    else if processState.isFinished then
      "\n✅ ".toList ++ formatProcessStateMessage processState pid
    else if timeoutReached then
      "\n⏱️ Response may be incomplete (timeout reached)".toList
    else []
  let timingMessage : Str := interactTimingMessage verbose_timing startTime endTime exitReason
  if (jsTrim cleanOutput).length = 0 ∧ timeoutReached = false then
    "✅ Input executed in process ".toList ++ numberToString pid
      ++ ".\n📭 (No output produced)".toList ++ statusMessage ++ timingMessage
  else
    let responseText : Str := "✅ Input executed in process ".toList ++ numberToString pid
    let responseText : Str :=
      if cleanOutput ≠ [] ∧ (jsTrim cleanOutput).length > 0 then
        responseText ++ ":\n\n📤 Output:\n".toList ++ cleanOutput
      else responseText ++ ".\n📭 (No output produced)".toList
    let responseText : Str :=
      if statusMessage ≠ [] then responseText ++ "\n\n".toList ++ statusMessage
      else responseText
    let responseText : Str :=
      if truncationMessage ≠ [] then responseText ++ truncationMessage else responseText
    if timingMessage ≠ [] then responseText ++ timingMessage else responseText

/-- The `execute` function of the `interact_with_process` tool as a whole: the text it
returns. `ticks` are the outputs that the interval callback sees at its runs (none for
null). The function awaits the promise of `waitForResponse`, so after an accepted input
with `wait_for_prompt` it answers only once the wait has resolved: with too few ticks for
that there is no answer yet. The three functions of the module `process-detection` are
parameters; `endTime` is the clock reading of the timing message. -/
def interactWithProcess (analyzeProcessState : Str → Int → ProcessState)
    (cleanProcessOutput : Str → Str → Str)
    (formatProcessStateMessage : ProcessState → Int → Str)
    (m : Registry) (pid : Int) (input : Str) (timeout_ms : Int)
    (wait_for_prompt verbose_timing : Bool) (startTime endTime : Int)
    (ticks : List (Option Str)) : Option Str :=
  match (interactWithProcessBegin m pid input wait_for_prompt verbose_timing startTime
      endTime).1 with
  | some text => some text
  | none =>
    let wait := runWait analyzeProcessState pid timeout_ms startWait ticks
    if wait.poll.resolved then
      let output : Str := wait.poll.output
      let cleanOutput : Str := cleanProcessOutput output input
      let processState := analyzeProcessState output pid
      some (interactResponse formatProcessStateMessage pid cleanOutput processState
        wait.poll.earlyExit verbose_timing startTime endTime wait.poll.exitReason)
    else none

/-- A cleaned output of 1001 lines: 1000 empty lines and then a prompt. -/
def blankLinesThenPrompt : Str := List.replicate 1000 '\n' ++ ">>> ".toList

/-- The state of a process that waits for input at a prompt. -/
def waitingAtPrompt : ProcessState :=
  { isWaitingForInput := true, isFinished := false, isRunning := true,
    detectedPrompt := some ">>> ".toList, lastOutput := ">>> ".toList }

/-! ## The file bridge (`local_file_bridge.js`) -/

/-- The test `if (oldContentEnd)`: neither null nor the empty string. -/
def isTruthy : Option Str → Bool
  | some text => decide (text ≠ [])
  | none => false

/-- The value that `findContentPosition` returns: the line range `[start, endLine)` (the
fields `start` and `end`) and the lines found, joined. -/
structure ContentPosition where
  start : Nat
  endLine : Nat
  foundContent : Str
  deriving DecidableEq, Repr

/-- The inner loops of `findContentPosition`: every line of `pattern` is the line of
`lines` at the same place counted from `i` (a missing line is different from any line). -/
def linesEqualAt (lines pattern : List Str) (i : Nat) : Bool :=
  (List.range pattern.length).all (fun j => lines[i + j]? == pattern[j]?)

/-- The method `FileUtils.findContentPosition(fileContent, oldContentStart,
oldContentEnd)`: the first start line `i` that is not skipped; none is null. -/
def findContentPosition (fileContent oldContentStart : Str) (oldContentEnd : Option Str) :
    Option ContentPosition :=
  let lines : List Str := splitNewline fileContent
  let startLines : List Str := splitNewline oldContentStart
  (List.range (lines.length + 1 - startLines.length)).findSome? (fun i =>
    if linesEqualAt lines startLines i then
      if isTruthy oldContentEnd then
        let remainingLines : List Str := jsSlice lines (i + startLines.length) lines.length
        let endLines : List Str := splitNewline (oldContentEnd.getD [])
        if remainingLines.length < endLines.length then none
        else if linesEqualAt remainingLines endLines 0 then
          some { start := i, endLine := i + startLines.length + endLines.length,
                 foundContent :=
                   joinLines (jsSlice lines i (i + startLines.length + endLines.length)) }
        else none
      else
        some { start := i, endLine := i + startLines.length,
               foundContent := joinLines (jsSlice lines i (i + startLines.length)) }
    else none)

/-- The method `FileUtils.updateFileSection` as a function of the content read from the
file: the content handed to `safeWriteFile`, or none when an error is thrown. -/
def updateFileSection (originalContent oldContentStart : Str) (oldContentEnd : Option Str)
    (newContent : Str) : Option Str :=
  match findContentPosition originalContent oldContentStart oldContentEnd with
  | none => none
  | some position =>
    if !jsIncludes position.foundContent oldContentStart
        || (isTruthy oldContentEnd
            && !jsIncludes position.foundContent (oldContentEnd.getD [])) then none
    else
      let lines : List Str := splitNewline originalContent
      let before : Str := joinLines (jsSlice lines 0 position.start)
      let after : Str := joinLines (jsSlice lines position.endLine lines.length)
      let rest : Str := if after ≠ [] then "\n".toList ++ after else []
      if before ≠ [] then some (before ++ "\n".toList ++ newContent ++ rest)
      else some (newContent ++ rest)

/-! ## Lemmas on `jsSlice` -/

/-- With a start inside `0 .. ∞` and a non-negative count, `slice(a, a + n)` is
"drop `a`, then take `n`". -/
theorem jsSlice_nonneg {α : Type} (xs : List α) (a n : Int) (ha : 0 ≤ a) (hn : 0 ≤ n) :
    jsSlice xs a (a + n) = (xs.drop a.toNat).take n.toNat := by
  obtain ⟨a, rfl⟩ := Int.eq_ofNat_of_zero_le ha
  obtain ⟨n, rfl⟩ := Int.eq_ofNat_of_zero_le hn
  have h1 : ¬ ((a : Int) < 0) := by omega
  have h2 : ¬ ((a : Int) + (n : Int) < 0) := by omega
  simp only [jsSlice, h1, h2, if_false, Int.toNat_ofNat]
  by_cases hlen : xs.length ≤ a
  · have hk : (min (a : Int) (xs.length : Int)).toNat = xs.length := by omega
    rw [hk, List.drop_of_length_le (le_refl _), List.drop_of_length_le hlen]
    simp
  · have hk : (min (a : Int) (xs.length : Int)).toNat = a := by omega
    rw [hk, List.take_eq_take]
    simp only [List.length_drop]
    omega

/-- A slice starting at or after the end of the list is empty. -/
theorem jsSlice_start_ge_length {α : Type} (xs : List α) (a b : Int)
    (ha : (xs.length : Int) ≤ a) : jsSlice xs a b = [] := by
  have h1 : ¬ (a < 0) := by omega
  simp only [jsSlice, h1, if_false]
  have hk : (min a (xs.length : Int)).toNat = xs.length := by omega
  rw [hk, List.drop_of_length_le (le_refl _)]
  simp

/-! ## Lemmas on `readFromLineBuffer` -/

/-- The lines returned by a tail read with a non-negative length. -/
theorem readFromLineBuffer_tail_lines (lines : List Str) (N length lastReadIndex : Int)
    (isComplete : Bool) (exitCode : Option (Option Int)) (runtimeMs : Option Int)
    (hN : 1 ≤ N) (hlen : 0 ≤ length) :
    (readFromLineBuffer lines (-N) length lastReadIndex isComplete exitCode runtimeMs).1.lines
      = (lines.drop (lines.length - N.toNat)).take length.toNat := by
  have h1 : -N < 0 := by omega
  simp only [readFromLineBuffer, h1, if_true, abs_neg]
  have habs : |N| = N := abs_of_nonneg (by omega)
  rw [habs, jsSlice_nonneg _ _ _ (le_max_left _ _) hlen]
  congr 2
  omega

/-- The lines returned by a cursor-mode or absolute read that starts at a non-negative
index, with a non-negative length. -/
theorem readFromLineBuffer_forward_lines (lines : List Str) (offset length lastReadIndex : Int)
    (isComplete : Bool) (exitCode : Option (Option Int)) (runtimeMs : Option Int)
    (hoff : 0 ≤ offset) (hc : 0 ≤ lastReadIndex) (hlen : 0 ≤ length) :
    (readFromLineBuffer lines offset length lastReadIndex isComplete exitCode runtimeMs).1.lines
      = (lines.drop (if offset = 0 then lastReadIndex else offset).toNat).take length.toNat := by
  have h1 : ¬ (offset < 0) := by omega
  simp only [readFromLineBuffer, h1, if_false]
  by_cases h0 : offset = 0
  · simp only [h0, if_true]
    exact jsSlice_nonneg _ _ _ hc hlen
  · simp only [h0, if_false]
    exact jsSlice_nonneg _ _ _ hoff hlen

/-- The callback `updateLastRead` is called in cursor mode only. -/
theorem readFromLineBuffer_update_none (lines : List Str) (offset length lastReadIndex : Int)
    (isComplete : Bool) (exitCode : Option (Option Int)) (runtimeMs : Option Int)
    (hoff : offset ≠ 0) :
    (readFromLineBuffer lines offset length lastReadIndex isComplete exitCode runtimeMs).2
      = none := by
  simp only [readFromLineBuffer, hoff, if_false]
  split <;> rfl

/-- In cursor mode the callback receives `min (c + readCount) totalLines`. -/
theorem readFromLineBuffer_update_cursor (lines : List Str) (length lastReadIndex : Int)
    (isComplete : Bool) (exitCode : Option (Option Int)) (runtimeMs : Option Int) :
    (readFromLineBuffer lines 0 length lastReadIndex isComplete exitCode runtimeMs).2
      = some (min (lastReadIndex +
          ((readFromLineBuffer lines 0 length lastReadIndex isComplete exitCode
            runtimeMs).1.lines.length : Int)) lines.length) := by
  simp [readFromLineBuffer]

/-- A read that is not in cursor mode returns the session as it was. -/
theorem readActive_session_of_ne_zero (s : TerminalSession) (offset length : Int)
    (hoff : offset ≠ 0) : (readActive s offset length).2 = s := by
  simp only [readActive, readFromLineBuffer_update_none _ _ _ _ _ _ _ hoff]

/-- A read never changes the buffered lines of the session. -/
theorem readActive_outputLines (s : TerminalSession) (offset length : Int) :
    (readActive s offset length).2.outputLines = s.outputLines := by
  simp only [readActive]
  cases (readFromLineBuffer s.outputLines offset length s.lastReadIndex false none none).2 <;> rfl

/-- The cursor after a cursor-mode read. -/
theorem readActive_cursor (s : TerminalSession) (length : Int) :
    (readActive s 0 length).2.lastReadIndex
      = min (s.lastReadIndex + ((readActive s 0 length).1.lines.length : Int))
          s.outputLines.length := by
  simp only [readActive, readFromLineBuffer_update_cursor]

/-! ## Lemmas on `splitNewline` and `appendToLineBuffer` -/

theorem splitNewline_ne_nil (text : Str) : splitNewline text ≠ [] := by
  cases text with
  | nil => simp [splitNewline]
  | cons c cs =>
    simp only [splitNewline]
    split
    · simp
    · split <;> simp

theorem stitch_concat (ys : List Str) (y p : Str) (ps : List Str) :
    stitch (ys ++ [y]) p ps = ys ++ [y ++ p] ++ ps := by
  induction ys with
  | nil => simp [stitch]
  | cons x xs ih =>
    cases xs with
    | nil => simp [stitch]
    | cons x' xs' =>
      have : (x :: x' :: xs') ++ [y] = x :: x' :: (xs' ++ [y]) := rfl
      rw [this, stitch]
      have h2 : x' :: (xs' ++ [y]) = (x' :: xs') ++ [y] := rfl
      rw [h2, ih]
      simp

/-- Splitting a concatenation: the split of the first text stitched to the split of the
second. -/
theorem splitNewline_append (a b : Str) (p : Str) (ps : List Str)
    (hb : splitNewline b = p :: ps) :
    splitNewline (a ++ b) = stitch (splitNewline a) p ps := by
  induction a with
  | nil => simp [splitNewline, stitch, hb]
  | cons c cs ih =>
    by_cases hc : c = '\n'
    · have h1 : splitNewline ((c :: cs) ++ b) = [] :: splitNewline (cs ++ b) := by
        simp [splitNewline, hc]
      have h2 : splitNewline (c :: cs) = [] :: splitNewline cs := by
        simp [splitNewline, hc]
      rw [h1, h2, ih]
      cases hs : splitNewline cs with
      | nil => exact absurd hs (splitNewline_ne_nil cs)
      | cons l ls => simp [stitch]
    · cases hs : splitNewline cs with
      | nil => exact absurd hs (splitNewline_ne_nil cs)
      | cons l ls =>
        have h2 : splitNewline (c :: cs) = (c :: l) :: ls := by
          simp [splitNewline, hc, hs]
        rw [hs] at ih
        have h1 : splitNewline ((c :: cs) ++ b)
            = match stitch (l :: ls) p ps with
              | [] => [[c]]
              | h :: t => (c :: h) :: t := by
          simp [splitNewline, hc, ih]
        rw [h1, h2]
        cases ls with
        | nil => simp [stitch]
        | cons x xs => simp [stitch]

/-- The first piece of a split is the text before the first newline. -/
theorem splitNewline_head (text : Str) :
    (splitNewline text).head? = some (text.takeWhile (fun c => c != '\n')) := by
  induction text with
  | nil => simp [splitNewline]
  | cons c cs ih =>
    by_cases hc : c = '\n'
    · simp [splitNewline, hc]
    · cases hs : splitNewline cs with
      | nil => exact absurd hs (splitNewline_ne_nil cs)
      | cons l ls =>
        rw [hs] at ih
        simp only [List.head?_cons, Option.some.injEq] at ih
        simp [splitNewline, hc, hs, ih, List.takeWhile_cons]

theorem appendLine_of_ne_zero (buf : List Str) (i : Nat) (line : Str) (hi : i ≠ 0) :
    appendLine buf i line = buf ++ [line] := by
  simp [appendLine, hi]

theorem appendLoop_of_ne_zero (buf : List Str) (i : Nat) (pieces : List Str) (hi : i ≠ 0) :
    appendLoop buf i pieces = buf ++ pieces := by
  induction pieces generalizing buf i with
  | nil => simp [appendLoop]
  | cons line rest ih =>
    rw [appendLoop, appendLine_of_ne_zero _ _ _ hi, ih _ _ (Nat.succ_ne_zero i)]
    simp

theorem appendLine_zero_concat (ys : List Str) (y line : Str) :
    appendLine (ys ++ [y]) 0 line = ys ++ [y ++ line] := by
  simp [appendLine]

/-- The loop of `appendToLineBuffer` on an empty buffer pushes every piece. -/
theorem appendLoop_nil (pieces : List Str) : appendLoop [] 0 pieces = pieces := by
  cases pieces with
  | nil => rfl
  | cons p ps =>
    rw [appendLoop, appendLoop_of_ne_zero _ _ _ (by decide)]
    simp [appendLine]

/-- The loop of `appendToLineBuffer` on a non-empty buffer continues its last line with
the first piece and pushes the others. -/
theorem appendLoop_concat (ys : List Str) (y p : Str) (ps : List Str) :
    appendLoop (ys ++ [y]) 0 (p :: ps) = ys ++ [y ++ p] ++ ps := by
  rw [appendLoop, appendLoop_of_ne_zero _ _ _ (by decide), appendLine_zero_concat]

/-- Appending a chunk keeps the buffer equal to the split of the text received so far
(no lines while that text is empty). -/
theorem appendToLineBuffer_split (s : TerminalSession) (t text : Str)
    (hs : s.outputLines = if t = [] then [] else splitNewline t) :
    (appendToLineBuffer s text).outputLines
      = if t ++ text = [] then [] else splitNewline (t ++ text) := by
  by_cases htext : text = []
  · subst htext
    simp only [appendToLineBuffer, if_true, List.append_nil]
    exact hs
  · have hne : t ++ text ≠ [] := by simp [htext]
    simp only [appendToLineBuffer, htext, hne, if_false]
    obtain ⟨p, ps, hp⟩ : ∃ p ps, splitNewline text = p :: ps := by
      cases h : splitNewline text with
      | nil => exact absurd h (splitNewline_ne_nil text)
      | cons p ps => exact ⟨p, ps, rfl⟩
    by_cases ht : t = []
    · subst ht
      simp only [if_true] at hs
      simp only [hs, appendLoop_nil, List.nil_append]
    · simp only [ht, if_false] at hs
      obtain ⟨ys, y, hy⟩ : ∃ ys y, splitNewline t = ys ++ [y] := by
        rcases List.eq_nil_or_concat (splitNewline t) with h | ⟨ys, y, h⟩
        · exact absurd h (splitNewline_ne_nil t)
        · exact ⟨ys, y, by simpa using h⟩
      rw [splitNewline_append t text p ps hp, hs, hy, hp, appendLoop_concat, stitch_concat]

theorem appendChunks_split (chunks : List Str) (s : TerminalSession) (t : Str)
    (hs : s.outputLines = if t = [] then [] else splitNewline t) :
    (appendChunks s chunks).outputLines
      = if t ++ chunks.flatten = [] then [] else splitNewline (t ++ chunks.flatten) := by
  induction chunks generalizing s t with
  | nil => simpa [appendChunks] using hs
  | cons c cs ih =>
    have h := ih (appendToLineBuffer s c) (t ++ c) (appendToLineBuffer_split s t c hs)
    simpa [appendChunks, List.append_assoc] using h

theorem flatten_map_singleton (text : Str) : (text.map (fun c => [c])).flatten = text := by
  induction text with
  | nil => rfl
  | cons c cs ih => simp [ih]

/-- The buffer after a chunk, when it had no lines. -/
theorem appendToLineBuffer_of_nil (s : TerminalSession) (text : Str)
    (hs : s.outputLines = []) (htext : text ≠ []) :
    (appendToLineBuffer s text).outputLines = splitNewline text := by
  simp [appendToLineBuffer, htext, hs, appendLoop_nil]

/-- The buffer after a chunk, when it had a last line `y`: that line is continued by the
chunk text before its first newline, and the other pieces follow. -/
theorem appendToLineBuffer_of_concat (s : TerminalSession) (text : Str) (ys : List Str)
    (y : Str) (hs : s.outputLines = ys ++ [y]) (htext : text ≠ []) :
    (appendToLineBuffer s text).outputLines
      = ys ++ [y ++ text.takeWhile (fun c => c != '\n')] ++ (splitNewline text).tail := by
  have hhead := splitNewline_head text
  cases hp : splitNewline text with
  | nil => exact absurd hp (splitNewline_ne_nil text)
  | cons p ps =>
    rw [hp] at hhead
    simp only [List.head?_cons, Option.some.injEq] at hhead
    simp only [appendToLineBuffer, htext, if_false, hs, hp, appendLoop_concat, hhead,
      List.tail_cons]

/-- A chunk never lowers the line count. -/
theorem appendToLineBuffer_length_le (s : TerminalSession) (text : Str) :
    s.outputLines.length ≤ (appendToLineBuffer s text).outputLines.length := by
  by_cases htext : text = []
  · simp [appendToLineBuffer, htext]
  · rcases List.eq_nil_or_concat s.outputLines with h | ⟨ys, y, h⟩
    · simp [h]
    · have h2 : s.outputLines = ys ++ [y] := by simpa using h
      rw [appendToLineBuffer_of_concat s text ys y h2 htext, h2]
      simp

theorem appendToLineBuffer_lastReadIndex (s : TerminalSession) (text : Str) :
    (appendToLineBuffer s text).lastReadIndex = s.lastReadIndex := by
  unfold appendToLineBuffer
  split <;> rfl

/-- One event keeps the cursor between 0 and the line count. -/
theorem stepSession_cursor_bounds (s : TerminalSession) (e : SessionEvent)
    (h0 : 0 ≤ s.lastReadIndex) (h1 : s.lastReadIndex ≤ s.outputLines.length) :
    0 ≤ (stepSession s e).lastReadIndex ∧
      (stepSession s e).lastReadIndex ≤ (stepSession s e).outputLines.length := by
  cases e with
  | chunk text =>
    simp only [stepSession, appendToLineBuffer_lastReadIndex]
    have := appendToLineBuffer_length_le s text
    omega
  | read offset length =>
    simp only [stepSession, readActive_outputLines]
    by_cases hoff : offset = 0
    · subst hoff
      rw [readActive_cursor]
      omega
    · rw [readActive_session_of_ne_zero s offset length hoff]
      exact ⟨h0, h1⟩

/-- Every sequence of events keeps the cursor between 0 and the line count. -/
theorem runSession_cursor_bounds (events : List SessionEvent) (s : TerminalSession)
    (h0 : 0 ≤ s.lastReadIndex) (h1 : s.lastReadIndex ≤ s.outputLines.length) :
    0 ≤ (runSession s events).lastReadIndex ∧
      (runSession s events).lastReadIndex ≤ (runSession s events).outputLines.length := by
  induction events generalizing s with
  | nil => exact ⟨h0, h1⟩
  | cons e es ih =>
    have h := stepSession_cursor_bounds s e h0 h1
    exact ih (stepSession s e) h.1 h.2

/-- A cursor-mode read on a session whose cursor is at the end of the buffer returns no
lines and leaves the session as it is. -/
theorem readActive_at_end (s : TerminalSession) (length : Int)
    (hc : s.lastReadIndex = s.outputLines.length) :
    (readActive s 0 length).1.lines = [] ∧ (readActive s 0 length).2 = s := by
  have hl : (readActive s 0 length).1.lines = [] := by
    simp only [readActive, readFromLineBuffer, lt_irrefl, if_false, if_true]
    exact jsSlice_start_ge_length _ _ _ (by omega)
  refine ⟨hl, ?_⟩
  have hcur := readActive_cursor s length
  rw [hl] at hcur
  simp only [List.length_nil, Int.Nat.cast_ofNat_Int, add_zero] at hcur
  have hcur2 : (readActive s 0 length).2.lastReadIndex = s.lastReadIndex := by omega
  simp only [readActive, readFromLineBuffer_update_cursor] at hcur2 ⊢
  rw [hcur2]

/-! ## `readOutputPaginated` on the registry -/

theorem lookup_storeSession (pid : Int) (s v : TerminalSession)
    (l : List (Int × TerminalSession)) (h : l.lookup pid = some v) :
    (storeSession pid s l).lookup pid = some s := by
  induction l with
  | nil => simp at h
  | cons kv rest ih =>
    obtain ⟨k, w⟩ := kv
    by_cases hk : k = pid
    · subst hk
      simp [storeSession, List.lookup]
    · have hb : (pid == k) = false := by
        simp only [beq_eq_false_iff_ne, ne_eq]
        exact fun h2 => hk h2.symm
      simp only [List.lookup, hb] at h
      simp only [storeSession, hk, if_false, List.lookup, hb]
      exact ih h

/-- For a pid of the active map, `readOutputPaginated` answers with the result of
`readActive` and stores the session that `readActive` leaves; the completed map is
untouched. -/
theorem readOutputPaginated_active (m : Registry) (pid : Int) (s : TerminalSession)
    (offset length : Int) (h : m.sessions.lookup pid = some s) :
    (readOutputPaginated m pid offset length).1 = some (readActive s offset length).1 ∧
      (readOutputPaginated m pid offset length).2.sessions.lookup pid
        = some (readActive s offset length).2 ∧
      (readOutputPaginated m pid offset length).2.completedSessions
        = m.completedSessions := by
  simp only [readOutputPaginated, h, true_and, and_true]
  exact lookup_storeSession pid _ s m.sessions h

/-- For a pid of the completed map only, `readOutputPaginated` answers with the result of
`readCompleted` and changes nothing. -/
theorem readOutputPaginated_completed (m : Registry) (pid : Int) (c : CompletedSession)
    (offset length : Int) (h : m.sessions.lookup pid = none)
    (hc : m.completedSessions.lookup pid = some c) :
    readOutputPaginated m pid offset length = (some (readCompleted c offset length), m) := by
  simp only [readOutputPaginated, h, hc]

/-! ## The claims -/

/-- C1 (as stated, refuted): with no chunk at all (or only empty chunks) the buffer has no
lines, while the split of the empty text has one (empty) line. -/
theorem chunking_empty_text_counterexample :
    (appendChunks (newSession 1 0) []).outputLines = [] ∧
      (appendChunks (newSession 1 0) [[]]).outputLines = [] ∧
      splitNewline (List.flatten ([] : List Str)) = [[]] ∧
      (appendChunks (newSession 1 0) []).outputLines
        ≠ splitNewline (List.flatten ([] : List Str)) := by
  decide

/-- C1 (amended): for every sequence of chunks appended in order to the empty buffer of a
new session, the buffer has no lines when the concatenated text is empty and otherwise
equals the concatenated text split on newlines; so the buffer depends on the concatenated
text only, and feeding the text one character at a time gives the same lines as feeding
it in one chunk. -/
theorem chunking_invariance (pid startTime : Int) (chunks : List Str) :
    (appendChunks (newSession pid startTime) chunks).outputLines
        = (if chunks.flatten = [] then [] else splitNewline chunks.flatten) ∧
      (∀ chunks2 : List Str, chunks2.flatten = chunks.flatten →
        (appendChunks (newSession pid startTime) chunks2).outputLines
          = (appendChunks (newSession pid startTime) chunks).outputLines) ∧
      (appendChunks (newSession pid startTime) (chunks.flatten.map (fun c => [c]))).outputLines
        = (appendChunks (newSession pid startTime) [chunks.flatten]).outputLines := by
  have key : ∀ cs : List Str, (appendChunks (newSession pid startTime) cs).outputLines
      = (if cs.flatten = [] then [] else splitNewline cs.flatten) := by
    intro cs
    have h := appendChunks_split cs (newSession pid startTime) [] (by simp [newSession])
    simpa using h
  refine ⟨key chunks, ?_, ?_⟩
  · intro chunks2 h2
    rw [key chunks2, key chunks, h2]
  · rw [key, key, flatten_map_singleton]
    simp

/-- C2 (the code at the failing input): a chunk `ab`, a cursor-mode read, a chunk `cd`
and a second cursor-mode read; every read leaves `remaining = 0`, the reads return the
single line `ab`, and the buffer holds the single line `abcd`: the text `cd` was appended
and is in no read. -/
theorem cursor_reads_miss_continued_line :
    allCursorReadsComplete (newSession 1 0) openLineEvents = true ∧
      linesRead (newSession 1 0) openLineEvents = ["ab".toList] ∧
      (runSession (newSession 1 0) openLineEvents).outputLines = ["abcd".toList] ∧
      linesRead (newSession 1 0) openLineEvents
        ≠ (runSession (newSession 1 0) openLineEvents).outputLines := by
  decide

/-- C3 (as stated, refuted): on a buffer of three lines, a tail read with offset -3 and
length 1 returns one line (the first of the three), not the last three. -/
theorem tail_read_length_counterexample :
    (readOutputPaginated threeLineRegistry 7 (-3) 1).1.map (fun r => r.lines)
        = some ["a".toList] ∧
      (readOutputPaginated threeLineRegistry 7 (-3) 1).1.map (fun r => r.lines)
        ≠ some (threeLines.drop (threeLines.length - 3)) := by
  decide

/-- C3 (amended): for every buffer, every N >= 1 and every length >= 0, a tail read with
offset -N returns the first `length` lines of the last min(N, totalLines) lines of the
buffer, in order; when length >= min(N, totalLines) these are exactly the last
min(N, totalLines) lines. The callback that moves the cursor is not called. -/
theorem tail_read_content (lines : List Str) (N length lastReadIndex : Int)
    (isComplete : Bool) (exitCode : Option (Option Int)) (runtimeMs : Option Int)
    (hN : 1 ≤ N) (hlen : 0 ≤ length) :
    (readFromLineBuffer lines (-N) length lastReadIndex isComplete exitCode runtimeMs).1.lines
        = (lines.drop (lines.length - N.toNat)).take length.toNat ∧
      (min N lines.length ≤ length →
        (readFromLineBuffer lines (-N) length lastReadIndex isComplete exitCode
            runtimeMs).1.lines = lines.drop (lines.length - N.toNat) ∧
          ((readFromLineBuffer lines (-N) length lastReadIndex isComplete exitCode
            runtimeMs).1.lines.length : Int) = min N lines.length) ∧
      (readFromLineBuffer lines (-N) length lastReadIndex isComplete exitCode runtimeMs).2
        = none := by
  have hl := readFromLineBuffer_tail_lines lines N length lastReadIndex isComplete exitCode
    runtimeMs hN hlen
  refine ⟨hl, ?_, readFromLineBuffer_update_none _ _ _ _ _ _ _ (by omega)⟩
  intro hge
  have htake : (lines.drop (lines.length - N.toNat)).take length.toNat
      = lines.drop (lines.length - N.toNat) := by
    apply List.take_of_length_le
    simp only [List.length_drop]
    omega
  rw [hl, htake]
  refine ⟨rfl, ?_⟩
  simp only [List.length_drop]
  omega

/-- C3 (witness): the last two of three lines, with length 5. -/
theorem tail_read_content_witness :
    (readFromLineBuffer threeLines (-2) 5 0 false none none).1.lines
        = (threeLines.drop (threeLines.length - (2 : Int).toNat)).take (5 : Int).toNat ∧
      (min (2 : Int) threeLines.length ≤ 5 →
        (readFromLineBuffer threeLines (-2) 5 0 false none none).1.lines
            = threeLines.drop (threeLines.length - (2 : Int).toNat) ∧
          ((readFromLineBuffer threeLines (-2) 5 0 false none none).1.lines.length : Int)
            = min 2 threeLines.length) ∧
      (readFromLineBuffer threeLines (-2) 5 0 false none none).2 = none :=
  tail_read_content threeLines 2 5 0 false none none (by decide) (by decide)

/-- C4: for an active session whose cursor c satisfies 0 <= c <= totalLines and every
length >= 0, a read with offset 0 returns the lines at indices
c .. min(c + length, totalLines) - 1, reports readFrom = c, and sets lastReadIndex to
min(c + length, totalLines); the buffer is unchanged. -/
theorem cursor_mode_read (s : TerminalSession) (length : Int)
    (hc0 : 0 ≤ s.lastReadIndex) (hc : s.lastReadIndex ≤ s.outputLines.length)
    (hlen : 0 ≤ length) :
    (readActive s 0 length).1.lines
        = (s.outputLines.drop s.lastReadIndex.toNat).take length.toNat ∧
      ((readActive s 0 length).1.lines.length : Int)
        = min (s.lastReadIndex + length) s.outputLines.length - s.lastReadIndex ∧
      (∀ i : Nat, i < (readActive s 0 length).1.lines.length →
        (readActive s 0 length).1.lines[i]? = s.outputLines[s.lastReadIndex.toNat + i]?) ∧
      (readActive s 0 length).1.readFrom = s.lastReadIndex ∧
      (readActive s 0 length).2.lastReadIndex
        = min (s.lastReadIndex + length) s.outputLines.length ∧
      (readActive s 0 length).2.outputLines = s.outputLines := by
  have hl : (readActive s 0 length).1.lines
      = (s.outputLines.drop s.lastReadIndex.toNat).take length.toNat := by
    have := readFromLineBuffer_forward_lines s.outputLines 0 length s.lastReadIndex false
      none none (le_refl 0) hc0 hlen
    simpa [readActive] using this
  have hlenEq : ((readActive s 0 length).1.lines.length : Int)
      = min (s.lastReadIndex + length) s.outputLines.length - s.lastReadIndex := by
    rw [hl]
    simp only [List.length_take, List.length_drop]
    omega
  refine ⟨hl, hlenEq, ?_, ?_, ?_, readActive_outputLines s 0 length⟩
  · intro i hi
    rw [hl] at hi ⊢
    simp only [List.length_take, List.length_drop] at hi
    rw [List.getElem?_take, if_pos (by omega), List.getElem?_drop]
  · simp [readActive, readFromLineBuffer]
  · rw [readActive_cursor, hlenEq]
    omega

/-- C4 (witness): three lines, cursor at 1, length 1. -/
theorem cursor_mode_read_witness :
    (0 ≤ (threeLineSession 1).lastReadIndex ∧
        (threeLineSession 1).lastReadIndex ≤ (threeLineSession 1).outputLines.length) ∧
      (readActive (threeLineSession 1) 0 1).1.lines = ["b".toList] ∧
      (readActive (threeLineSession 1) 0 1).2.lastReadIndex = 2 := by
  have h := cursor_mode_read (threeLineSession 1) 1 (by decide) (by decide) (by decide)
  exact ⟨by decide, by rw [h.1]; decide, by rw [h.2.2.2.2.1]; decide⟩

/-- C5 (as stated, refuted): on a session of three lines, a cursor-mode read of length 1
returns the first line, and a second one, with nothing appended in between, returns the
second line instead of no line. -/
theorem repeated_cursor_read_counterexample :
    (readActive (threeLineSession 0) 0 1).1.lines = ["a".toList] ∧
      (readActive (readActive (threeLineSession 0) 0 1).2 0 1).1.lines = ["b".toList] ∧
      (readActive (readActive (threeLineSession 0) 0 1).2 0 1).1.lines ≠ [] := by
  decide

/-- C5 (amended): in every state of an active session reached from its creation by chunks
and reads, after one cursor-mode read that leaves `remaining = 0`, every further
cursor-mode read (of any lengths, nothing appended in between) returns zero lines; and no
cursor-mode read decreases lastReadIndex. -/
theorem cursor_read_idempotent_advancing (pid startTime : Int) (events : List SessionEvent)
    (length : Int) :
    ((readActive (runSession (newSession pid startTime) events) 0 length).1.remaining = 0 →
      ∀ (further : List Int) (length2 : Int),
        (readActive
          (runSession (readActive (runSession (newSession pid startTime) events) 0 length).2
            (further.map (fun l => SessionEvent.read 0 l))) 0 length2).1.lines = []) ∧
      (runSession (newSession pid startTime) events).lastReadIndex
        ≤ (readActive (runSession (newSession pid startTime) events) 0 length).2.lastReadIndex := by
  have hinv := runSession_cursor_bounds events (newSession pid startTime)
    (by simp [newSession]) (by simp [newSession])
  generalize runSession (newSession pid startTime) events = s at hinv ⊢
  constructor
  · intro hrem further length2
    have hend : (readActive s 0 length).2.lastReadIndex
        = (readActive s 0 length).2.outputLines.length := by
      rw [readActive_outputLines, readActive_cursor]
      have hr : (readActive s 0 length).1.remaining
          = max 0 ((s.outputLines.length : Int)
              - (s.lastReadIndex + ((readActive s 0 length).1.lines.length : Int))) := by
        simp [readActive, readFromLineBuffer]
      rw [hr] at hrem
      omega
    generalize (readActive s 0 length).2 = s2 at hend
    have hstay : runSession s2 (further.map (fun l => SessionEvent.read 0 l)) = s2 := by
      induction further with
      | nil => rfl
      | cons l ls ih =>
        simp only [List.map_cons, runSession, List.foldl_cons, stepSession]
        rw [(readActive_at_end s2 l hend).2]
        exact ih
    rw [hstay]
    exact (readActive_at_end s2 length2 hend).1
  · rw [readActive_cursor]
    omega

/-- C5 (witness): three lines read whole by a first cursor-mode read; three further reads
return nothing. -/
theorem cursor_read_idempotent_advancing_witness :
    (readActive (runSession (newSession 1 0) [.chunk "a\nb\nc".toList]) 0 5).1.remaining = 0 ∧
      (readActive
        (runSession (readActive (runSession (newSession 1 0) [.chunk "a\nb\nc".toList]) 0 5).2
          ([1, 0].map (fun l => SessionEvent.read 0 l))) 0 7).1.lines = [] :=
  ⟨by decide,
    (cursor_read_idempotent_advancing 1 0 [.chunk "a\nb\nc".toList] 5).1 (by decide) [1, 0] 7⟩

/-- C6: in every state reached from a freshly registered session (no lines, lastReadIndex
0) by any sequence of chunk appends and paginated reads with arbitrary integer offset and
length, 0 <= lastReadIndex <= number of buffered lines. -/
theorem session_cursor_invariant (pid startTime : Int) (events : List SessionEvent) :
    0 ≤ (runSession (newSession pid startTime) events).lastReadIndex ∧
      (runSession (newSession pid startTime) events).lastReadIndex
        ≤ (runSession (newSession pid startTime) events).outputLines.length :=
  runSession_cursor_bounds events (newSession pid startTime)
    (by simp [newSession]) (by simp [newSession])

/-- C7: for every buffer state and every chunk, appendToLineBuffer does not lower the line
count, leaves every line other than the previous last line unchanged at its index, and
turns the previous last line into that line followed by the chunk text before its first
newline (so the previous last line is a prefix of the line now at its index). -/
theorem append_only_buffer (s : TerminalSession) (text : Str) :
    s.outputLines.length ≤ (appendToLineBuffer s text).outputLines.length ∧
      (∀ i : Nat, i + 1 < s.outputLines.length →
        (appendToLineBuffer s text).outputLines[i]? = s.outputLines[i]?) ∧
      (∀ last : Str, s.outputLines.getLast? = some last →
        (appendToLineBuffer s text).outputLines[s.outputLines.length - 1]?
            = some (last ++ text.takeWhile (fun c => c != '\n')) ∧
          last <+: last ++ text.takeWhile (fun c => c != '\n')) := by
  refine ⟨appendToLineBuffer_length_le s text, ?_, ?_⟩
  · intro i hi
    by_cases htext : text = []
    · simp [appendToLineBuffer, htext]
    · rcases List.eq_nil_or_concat s.outputLines with h | ⟨ys, y, h⟩
      · simp [h] at hi
      · have h2 : s.outputLines = ys ++ [y] := by simpa using h
        rw [appendToLineBuffer_of_concat s text ys y h2 htext, h2]
        rw [h2] at hi
        simp only [List.length_append, List.length_singleton] at hi
        rw [List.append_assoc, List.getElem?_append_left (by omega),
          List.getElem?_append_left (by omega)]
  · intro last hlast
    refine ⟨?_, List.prefix_append _ _⟩
    rcases List.eq_nil_or_concat s.outputLines with h | ⟨ys, y, h⟩
    · simp [h] at hlast
    · have h2 : s.outputLines = ys ++ [y] := by simpa using h
      have hy : y = last := by simpa [h2] using hlast
      subst hy
      by_cases htext : text = []
      · simp [appendToLineBuffer, htext, h2]
      · rw [appendToLineBuffer_of_concat s text ys y h2 htext, h2]
        simp only [List.length_append, List.length_singleton, Nat.add_sub_cancel]
        rw [List.append_assoc, List.getElem?_append_right (le_refl _)]
        simp

/-- C7 (witness): the open last line `b` of a two-line buffer is continued by `cd`. -/
theorem append_only_buffer_witness :
    (appendToLineBuffer
      { pid := 1, outputLines := ["a".toList, "b".toList], lastReadIndex := 0,
        isBlocked := false, startTime := 0 } "cd\ne".toList).outputLines[1]?
      = some ("b".toList ++ "cd\ne".toList.takeWhile (fun c => c != '\n')) :=
  ((append_only_buffer
      { pid := 1, outputLines := ["a".toList, "b".toList], lastReadIndex := 0,
        isBlocked := false, startTime := 0 } "cd\ne".toList).2.2 "b".toList (by decide)).1

/-- C8: for an active session, a read with offset != 0 (tail or absolute) leaves the
session, hence lastReadIndex and the line buffer, unchanged, so a second read with the
same offset and length returns the identical result; only a read with offset = 0 can
change lastReadIndex. -/
theorem only_cursor_mode_mutates (s : TerminalSession) (offset length : Int)
    (hoff : offset ≠ 0) :
    (readActive s offset length).2 = s ∧
      (readActive s offset length).2.lastReadIndex = s.lastReadIndex ∧
      (readActive s offset length).2.outputLines = s.outputLines ∧
      (readActive (readActive s offset length).2 offset length).1
        = (readActive s offset length).1 := by
  have h := readActive_session_of_ne_zero s offset length hoff
  refine ⟨h, ?_, ?_, ?_⟩ <;> rw [h]

/-- C8 (witness): an absolute read at offset 1 on three lines with the cursor at 2. -/
theorem only_cursor_mode_mutates_witness :
    (1 : Int) ≠ 0 ∧ (readActive (threeLineSession 2) 1 1).2 = threeLineSession 2 :=
  ⟨by decide, (only_cursor_mode_mutates (threeLineSession 2) 1 1 (by decide)).1⟩

/-- C9: for every buffer, every offset K > 0 and every length >= 0, the read returns the
lines at indices K .. min(K + length, totalLines) - 1 (no lines when K >= totalLines),
reports readFrom = K, and does not call the callback that moves the cursor. -/
theorem absolute_read (lines : List Str) (K length lastReadIndex : Int)
    (isComplete : Bool) (exitCode : Option (Option Int)) (runtimeMs : Option Int)
    (hK : 0 < K) (hlen : 0 ≤ length) :
    (readFromLineBuffer lines K length lastReadIndex isComplete exitCode runtimeMs).1.lines
        = (lines.drop K.toNat).take length.toNat ∧
      ((readFromLineBuffer lines K length lastReadIndex isComplete exitCode
          runtimeMs).1.lines.length : Int)
        = max 0 (min (K + length) lines.length - K) ∧
      (∀ i : Nat,
        i < (readFromLineBuffer lines K length lastReadIndex isComplete exitCode
          runtimeMs).1.lines.length →
        (readFromLineBuffer lines K length lastReadIndex isComplete exitCode
          runtimeMs).1.lines[i]? = lines[K.toNat + i]?) ∧
      ((lines.length : Int) ≤ K →
        (readFromLineBuffer lines K length lastReadIndex isComplete exitCode
          runtimeMs).1.lines = []) ∧
      (readFromLineBuffer lines K length lastReadIndex isComplete exitCode
        runtimeMs).1.readFrom = K ∧
      (readFromLineBuffer lines K length lastReadIndex isComplete exitCode runtimeMs).2
        = none := by
  have hne : K ≠ 0 := by omega
  have hnlt : ¬ (K < 0) := by omega
  have hl : (readFromLineBuffer lines K length lastReadIndex isComplete exitCode
      runtimeMs).1.lines = (lines.drop K.toNat).take length.toNat := by
    simp only [readFromLineBuffer, hnlt, hne, if_false]
    exact jsSlice_nonneg _ _ _ (by omega) hlen
  refine ⟨hl, ?_, ?_, ?_, ?_, readFromLineBuffer_update_none _ _ _ _ _ _ _ hne⟩
  · rw [hl]
    simp only [List.length_take, List.length_drop]
    omega
  · intro i hi
    rw [hl] at hi ⊢
    simp only [List.length_take, List.length_drop] at hi
    rw [List.getElem?_take, if_pos (by omega), List.getElem?_drop]
  · intro hge
    rw [hl, List.drop_of_length_le (by omega)]
    exact List.take_nil
  · simp [readFromLineBuffer, hnlt, hne]

/-- C9 (witness): offset 5, length 2 on ten lines returns lines 5 and 6. -/
theorem absolute_read_witness :
    (readFromLineBuffer tenLines 5 2 0 false none none).1.lines = ["5".toList, "6".toList] ∧
      (readFromLineBuffer tenLines 5 2 0 false none none).1.readFrom = 5 := by
  have h := absolute_read tenLines 5 2 0 false none none (by decide) (by decide)
  exact ⟨by rw [h.1]; decide, h.2.2.2.2.1⟩

/-- C10 (the code at the failing input): on a buffer of ten lines, an absolute read at
offset 1 with length -2 returns the eight lines 1 .. 8, more than max(0, -2) = 0 lines;
the cursor-mode and tail reads at the same start do the same. -/
theorem negative_length_returns_lines :
    (readFromLineBuffer tenLines 1 (-2) 0 false none none).1.lines
        = ["1".toList, "2".toList, "3".toList, "4".toList, "5".toList, "6".toList,
           "7".toList, "8".toList] ∧
      ¬ (((readFromLineBuffer tenLines 1 (-2) 0 false none none).1.lines.length : Int)
        ≤ max 0 (-2)) ∧
      (readFromLineBuffer tenLines 0 (-2) 1 false none none).1.lines.length = 8 ∧
      (readFromLineBuffer tenLines (-9) (-2) 0 false none none).1.lines.length = 8 := by
  decide

/-! ## Lemmas on the result record -/

/-- The lines of a slice and the clamped start fit in the list. -/
theorem jsSlice_length_le {α : Type} (xs : List α) (a b : Int) :
    ((jsSlice xs a b).length : Int) + (if a < 0 then max ((xs.length : Int) + a) 0
      else min a xs.length) ≤ xs.length := by
  simp only [jsSlice, List.length_take, List.length_drop]
  split <;> omega

/-- C11: for every read in any regime, totalLines is the line count of the buffer,
readCount is the number of lines returned, and
remaining = max(0, totalLines - (readFrom + readCount)); whenever readFrom <= totalLines,
readFrom + readCount + remaining = totalLines. -/
theorem read_result_bookkeeping (lines : List Str) (offset length lastReadIndex : Int)
    (isComplete : Bool) (exitCode : Option (Option Int)) (runtimeMs : Option Int) :
    (readFromLineBuffer lines offset length lastReadIndex isComplete exitCode
        runtimeMs).1.totalLines = lines.length ∧
      (readFromLineBuffer lines offset length lastReadIndex isComplete exitCode
        runtimeMs).1.readCount
        = (readFromLineBuffer lines offset length lastReadIndex isComplete exitCode
            runtimeMs).1.lines.length ∧
      (readFromLineBuffer lines offset length lastReadIndex isComplete exitCode
        runtimeMs).1.remaining
        = max 0 ((readFromLineBuffer lines offset length lastReadIndex isComplete exitCode
            runtimeMs).1.totalLines
          - ((readFromLineBuffer lines offset length lastReadIndex isComplete exitCode
              runtimeMs).1.readFrom
            + (readFromLineBuffer lines offset length lastReadIndex isComplete exitCode
              runtimeMs).1.readCount)) ∧
      ((readFromLineBuffer lines offset length lastReadIndex isComplete exitCode
          runtimeMs).1.readFrom
          ≤ (readFromLineBuffer lines offset length lastReadIndex isComplete exitCode
            runtimeMs).1.totalLines →
        (readFromLineBuffer lines offset length lastReadIndex isComplete exitCode
            runtimeMs).1.readFrom
          + (readFromLineBuffer lines offset length lastReadIndex isComplete exitCode
              runtimeMs).1.readCount
          + (readFromLineBuffer lines offset length lastReadIndex isComplete exitCode
              runtimeMs).1.remaining
          = (readFromLineBuffer lines offset length lastReadIndex isComplete exitCode
              runtimeMs).1.totalLines) := by
  refine ⟨rfl, rfl, rfl, ?_⟩
  by_cases hneg : offset < 0
  · simp only [readFromLineBuffer, hneg, if_true]
    intro hfrom
    have h := jsSlice_length_le lines (max 0 ((lines.length : Int) - |offset|))
      (max 0 ((lines.length : Int) - |offset|) + length)
    split at h <;> omega
  · by_cases hzero : offset = 0
    · subst hzero
      simp only [readFromLineBuffer, lt_irrefl, if_true, if_false]
      intro hfrom
      have h := jsSlice_length_le lines lastReadIndex (lastReadIndex + length)
      split at h <;> omega
    · simp only [readFromLineBuffer, hneg, hzero, if_false]
      intro hfrom
      have h := jsSlice_length_le lines offset (offset + length)
      split at h <;> omega

/-- C11 (witness): a cursor-mode read of one line from index 1 of three lines reports
readFrom 1, readCount 1 and remaining 1. -/
theorem read_result_bookkeeping_witness :
    (readFromLineBuffer threeLines 0 1 1 false none none).1.readFrom
        + (readFromLineBuffer threeLines 0 1 1 false none none).1.readCount
        + (readFromLineBuffer threeLines 0 1 1 false none none).1.remaining
      = (readFromLineBuffer threeLines 0 1 1 false none none).1.totalLines :=
  (read_result_bookkeeping threeLines 0 1 1 false none none).2.2.2 (by decide)

/-! ## Lemmas on the JavaScript maps -/

theorem lookup_none_iff_keys {β : Type} (l : List (Int × β)) (k : Int) :
    l.lookup k = none ↔ k ∉ l.map Prod.fst := by
  induction l with
  | nil => simp
  | cons kv rest ih =>
    obtain ⟨k2, v⟩ := kv
    by_cases h : k = k2
    · subst h
      simp
    · have hb : (k == k2) = false := by simpa using h
      simp only [List.lookup_cons, hb, List.map_cons, List.mem_cons, h, false_or]
      exact ih

theorem keys_storeSession (pid : Int) (s : TerminalSession) (l : List (Int × TerminalSession)) :
    (storeSession pid s l).map Prod.fst = l.map Prod.fst := by
  induction l with
  | nil => rfl
  | cons kv rest ih =>
    obtain ⟨k, v⟩ := kv
    by_cases h : k = pid
    · simp [storeSession, h]
    · simp [storeSession, h, ih]

theorem mem_keys_jsMapSet {β : Type} (k : Int) (v : β) (l : List (Int × β)) (x : Int) :
    x ∈ (jsMapSet k v l).map Prod.fst ↔ x = k ∨ x ∈ l.map Prod.fst := by
  induction l with
  | nil => simp [jsMapSet]
  | cons kv rest ih =>
    obtain ⟨k2, v2⟩ := kv
    by_cases h : k2 = k
    · subst h
      simp [jsMapSet]
    · simp only [jsMapSet, h, if_false, List.map_cons, List.mem_cons, ih]
      tauto

theorem mem_keys_jsMapDelete {β : Type} (k : Int) (l : List (Int × β)) (x : Int) :
    x ∈ (jsMapDelete k l).map Prod.fst ↔ x ≠ k ∧ x ∈ l.map Prod.fst := by
  simp only [jsMapDelete, List.mem_map, List.mem_filter, decide_eq_true_eq]
  constructor
  · rintro ⟨p, ⟨hp, hne⟩, rfl⟩
    exact ⟨hne, p, hp, rfl⟩
  · rintro ⟨hne, p, hp, rfl⟩
    exact ⟨p, ⟨hp, hne⟩, rfl⟩

theorem lookup_jsMapSet_self {β : Type} (k : Int) (v : β) (l : List (Int × β)) :
    (jsMapSet k v l).lookup k = some v := by
  induction l with
  | nil => simp [jsMapSet]
  | cons kv rest ih =>
    obtain ⟨k2, v2⟩ := kv
    by_cases h : k2 = k
    · subst h
      simp [jsMapSet]
    · have hb : (k == k2) = false := by simpa using fun h2 : k = k2 => h h2.symm
      simp only [jsMapSet, h, if_false, List.lookup_cons, hb]
      exact ih

theorem lookup_jsMapSet_ne {β : Type} (k : Int) (v : β) (l : List (Int × β)) (x : Int)
    (hx : x ≠ k) : (jsMapSet k v l).lookup x = l.lookup x := by
  induction l with
  | nil =>
    have hb : (x == k) = false := by simpa using hx
    simp [jsMapSet, List.lookup_cons, hb]
  | cons kv rest ih =>
    obtain ⟨k2, v2⟩ := kv
    by_cases h : k2 = k
    · subst h
      have hb : (x == k2) = false := by simpa using hx
      simp [jsMapSet, List.lookup_cons, hb]
    · simp only [jsMapSet, h, if_false, List.lookup_cons, ih]

theorem lookup_jsMapDelete_ne {β : Type} (k : Int) (l : List (Int × β)) (x : Int)
    (hx : x ≠ k) : (jsMapDelete k l).lookup x = l.lookup x := by
  induction l with
  | nil => rfl
  | cons kv rest ih =>
    obtain ⟨k2, v2⟩ := kv
    by_cases h : k2 = k
    · subst h
      have hb : (x == k2) = false := by simpa using hx
      have hd : jsMapDelete k2 ((k2, v2) :: rest) = jsMapDelete k2 rest := by
        simp [jsMapDelete]
      rw [hd, ih, List.lookup_cons, hb]
    · have hd : jsMapDelete k ((k2, v2) :: rest) = (k2, v2) :: jsMapDelete k rest := by
        simp [jsMapDelete, h]
      rw [hd, List.lookup_cons, List.lookup_cons, ih]

theorem lookup_jsMapDelete_self {β : Type} (k : Int) (l : List (Int × β)) :
    (jsMapDelete k l).lookup k = none := by
  rw [lookup_none_iff_keys, mem_keys_jsMapDelete]
  exact fun h => h.1 rfl

theorem jsMapSet_of_not_mem {β : Type} (k : Int) (v : β) (l : List (Int × β))
    (h : k ∉ l.map Prod.fst) : jsMapSet k v l = l ++ [(k, v)] := by
  induction l with
  | nil => rfl
  | cons kv rest ih =>
    obtain ⟨k2, v2⟩ := kv
    simp only [List.map_cons, List.mem_cons, not_or] at h
    have hne : ¬ k2 = k := fun h2 => h.1 h2.symm
    simp [jsMapSet, hne, ih h.2]

theorem jsMapSet_length_of_mem {β : Type} (k : Int) (v : β) (l : List (Int × β))
    (h : k ∈ l.map Prod.fst) : (jsMapSet k v l).length = l.length := by
  induction l with
  | nil => simp at h
  | cons kv rest ih =>
    obtain ⟨k2, v2⟩ := kv
    by_cases hk : k2 = k
    · simp [jsMapSet, hk]
    · simp only [List.map_cons, List.mem_cons] at h
      have hmem : k ∈ rest.map Prod.fst := by
        rcases h with h | h
        · exact absurd h.symm hk
        · exact h
      simp [jsMapSet, hk, ih hmem]

theorem jsMapSet_length_le {β : Type} (k : Int) (v : β) (l : List (Int × β)) :
    (jsMapSet k v l).length ≤ l.length + 1 := by
  by_cases h : k ∈ l.map Prod.fst
  · rw [jsMapSet_length_of_mem k v l h]
    omega
  · rw [jsMapSet_of_not_mem k v l h]
    simp

theorem keys_nodup_jsMapSet {β : Type} (k : Int) (v : β) (l : List (Int × β))
    (h : (l.map Prod.fst).Nodup) : ((jsMapSet k v l).map Prod.fst).Nodup := by
  induction l with
  | nil => simp [jsMapSet]
  | cons kv rest ih =>
    obtain ⟨k2, v2⟩ := kv
    simp only [List.map_cons, List.nodup_cons] at h
    by_cases hk : k2 = k
    · subst hk
      simpa [jsMapSet] using h
    · simp only [jsMapSet, hk, if_false, List.map_cons, List.nodup_cons]
      refine ⟨?_, ih h.2⟩
      rw [mem_keys_jsMapSet]
      rintro (h2 | h2)
      · exact hk h2
      · exact h.1 h2

theorem keys_nodup_jsMapDelete {β : Type} (k : Int) (l : List (Int × β))
    (h : (l.map Prod.fst).Nodup) : ((jsMapDelete k l).map Prod.fst).Nodup := by
  unfold jsMapDelete
  exact h.sublist ((List.filter_sublist l).map Prod.fst)

/-- Deleting the first key of a map without repeated keys removes the first entry and
nothing else. -/
theorem jsMapDelete_head {β : Type} (k : Int) (v : β) (rest : List (Int × β))
    (h : (((k, v) :: rest).map Prod.fst).Nodup) :
    jsMapDelete k ((k, v) :: rest) = rest := by
  simp only [List.map_cons, List.nodup_cons] at h
  have hd : jsMapDelete k ((k, v) :: rest) = jsMapDelete k rest := by
    simp [jsMapDelete]
  rw [hd]
  unfold jsMapDelete
  rw [List.filter_eq_self]
  intro p hp
  simp only [decide_eq_true_eq]
  intro hpk
  exact h.1 (List.mem_map.mpr ⟨p, hp, hpk⟩)

/-! ## The `read_process_output` tool -/

theorem readStatusMessage_head (offset : Int) (result : PaginatedOutputResult) :
    (readStatusMessage offset result).head? = some '[' := by
  unfold readStatusMessage
  split
  · rfl
  · split
    · split <;> rfl
    · rfl

/-- The registry part that `readOutputPaginated` never touches. -/
theorem readOutputPaginated_completedSessions (m : Registry) (pid offset length : Int) :
    (readOutputPaginated m pid offset length).2.completedSessions = m.completedSessions := by
  unfold readOutputPaginated
  split
  · rfl
  · split <;> rfl

theorem keys_readOutputPaginated (m : Registry) (pid offset length : Int) :
    (readOutputPaginated m pid offset length).2.sessions.map Prod.fst
      = m.sessions.map Prod.fst := by
  unfold readOutputPaginated
  split
  · exact keys_storeSession _ _ _
  · split <;> rfl

/-- C12: readOutputPaginated returns null exactly when the pid is in neither the active
nor the completed map; for a known pid whose requested range is empty (an absolute offset
at or past the end of the buffer) it returns a result with zero lines, not null; and the
read_process_output tool answers 'No session found for PID <pid>' exactly when
readOutputPaginated returns null. -/
theorem unknown_pid_distinguishable (analyzeProcessState : Str → Int → ProcessState)
    (formatProcessStateMessage : ProcessState → Int → Str) (formatRuntime : Int → Str)
    (m : Registry) (pid offset length : Int) :
    ((readOutputPaginated m pid offset length).1 = none ↔
        (m.sessions.lookup pid = none ∧ m.completedSessions.lookup pid = none)) ∧
      (∀ s : TerminalSession, m.sessions.lookup pid = some s →
        (s.outputLines.length : Int) ≤ offset → 0 < offset →
        ∃ r, (readOutputPaginated m pid offset length).1 = some r ∧ r.lines = []) ∧
      (∀ c : CompletedSession, m.sessions.lookup pid = none →
        m.completedSessions.lookup pid = some c →
        (c.outputLines.length : Int) ≤ offset → 0 < offset →
        ∃ r, (readOutputPaginated m pid offset length).1 = some r ∧ r.lines = []) ∧
      ((readProcessOutputTool analyzeProcessState formatProcessStateMessage formatRuntime
          m pid offset length).1 = noSessionFound pid ↔
        (readOutputPaginated m pid offset length).1 = none) := by
  refine ⟨?_, ?_, ?_, ?_⟩
  · unfold readOutputPaginated
    cases h1 : m.sessions.lookup pid with
    | some s => simp
    | none =>
      cases h2 : m.completedSessions.lookup pid with
      | some c => simp
      | none => simp
  · intro s hs hge hpos
    refine ⟨(readActive s offset length).1, (readOutputPaginated_active m pid s offset length hs).1, ?_⟩
    have hne : offset ≠ 0 := by omega
    have hnlt : ¬ (offset < 0) := by omega
    simp only [readActive, readFromLineBuffer, hne, hnlt, if_false]
    exact jsSlice_start_ge_length _ _ _ hge
  · intro c hs hc hge hpos
    refine ⟨readCompleted c offset length, ?_, ?_⟩
    · rw [readOutputPaginated_completed m pid c offset length hs hc]
    · have hne : offset ≠ 0 := by omega
      have hnlt : ¬ (offset < 0) := by omega
      simp only [readCompleted, readFromLineBuffer, hne, hnlt, if_false]
      exact jsSlice_start_ge_length _ _ _ hge
  · cases h : (readOutputPaginated m pid offset length).1 with
    | none => simp only [readProcessOutputTool, h]
    | some r =>
      simp only [readProcessOutputTool, h, reduceCtorEq, iff_false]
      intro heq
      have hhead := congrArg List.head? heq
      simp only [List.append_assoc] at hhead
      rw [List.head?_append_of_ne_nil] at hhead
      · rw [readStatusMessage_head] at hhead
        have : (noSessionFound pid).head? = some 'N' := rfl
        rw [this] at hhead
        exact absurd hhead (by decide)
      · intro hnil
        have := readStatusMessage_head offset r
        rw [hnil] at this
        simp at this

/-- C12 (witness): an absolute read past the end of the three lines of the session 7. -/
theorem unknown_pid_distinguishable_witness :
    ∃ r, (readOutputPaginated threeLineRegistry 7 5 10).1 = some r ∧ r.lines = [] :=
  (unknown_pid_distinguishable alwaysFinished (fun _ _ => []) (fun _ => [])
    threeLineRegistry 7 5 10).2.1 (threeLineSession 0) (by decide) (by decide) (by decide)

/-! ## The completed cache -/

theorem evictOldest_length_le (l : List (Int × CompletedSession))
    (h : l.length ≤ MAX_COMPLETED + 1) : (evictOldest l).length ≤ MAX_COMPLETED := by
  unfold evictOldest
  split
  · cases l with
    | nil => simp
    | cons kv rest =>
      obtain ⟨k, v⟩ := kv
      have hd : jsMapDelete k ((k, v) :: rest) = jsMapDelete k rest := by
        simp [jsMapDelete]
      simp only [hd]
      have hle : (jsMapDelete k rest).length ≤ rest.length := by
        unfold jsMapDelete
        exact List.length_filter_le _ _
      simp only [List.length_cons] at h
      omega
  · omega

theorem evictOldest_of_le (l : List (Int × CompletedSession))
    (h : l.length ≤ MAX_COMPLETED) : evictOldest l = l := by
  unfold evictOldest
  rw [if_neg (by omega)]

theorem evictOldest_cons (k : Int) (v : CompletedSession) (rest : List (Int × CompletedSession))
    (h : ((k, v) :: rest).length > MAX_COMPLETED) :
    evictOldest ((k, v) :: rest) = jsMapDelete k ((k, v) :: rest) := by
  unfold evictOldest
  rw [if_pos h]

theorem keys_nodup_evictOldest (l : List (Int × CompletedSession))
    (h : (l.map Prod.fst).Nodup) : ((evictOldest l).map Prod.fst).Nodup := by
  unfold evictOldest
  split
  · cases l with
    | nil => exact h
    | cons kv rest => exact keys_nodup_jsMapDelete _ _ h
  · exact h

theorem lookup_evictOldest_none (l : List (Int × CompletedSession)) (x : Int)
    (h : l.lookup x = none) : (evictOldest l).lookup x = none := by
  unfold evictOldest
  split
  · cases l with
    | nil => exact h
    | cons kv rest =>
      rw [lookup_none_iff_keys] at h ⊢
      simp only [mem_keys_jsMapDelete]
      exact fun h2 => h h2.2
  · exact h

/-- The completed map after one event: unchanged unless the event is an exit. -/
theorem stepRegistry_completedSessions (m : Registry) (e : RegistryEvent) :
    (stepRegistry m e).completedSessions = m.completedSessions ∨
      ∃ session code endTime, e = .exit session code endTime ∧ session.pid ≠ 0 ∧
        (stepRegistry m e).completedSessions
          = evictOldest (jsMapSet session.pid
              { pid := session.pid, outputLines := session.outputLines, exitCode := code,
                startTime := session.startTime, endTime := endTime } m.completedSessions) := by
  cases e with
  | spawn pid process startTime =>
    left
    cases pid with
    | none => rfl
    | some p =>
      simp only [stepRegistry]
      split <;> rfl
  | chunk pid text =>
    left
    simp only [stepRegistry]
    split <;> rfl
  | read pid offset length => exact Or.inl (readOutputPaginated_completedSessions m pid offset length)
  | input pid text =>
    left
    simp only [stepRegistry, sendInputToProcess]
    split
    · rfl
    · split
      · rfl
      · split
        · rfl
        · split <;> rfl
  | exit session code endTime =>
    by_cases hp : session.pid = 0
    · left
      simp [stepRegistry, completeSession, hp]
    · right
      exact ⟨session, code, endTime, rfl, hp, by simp [stepRegistry, completeSession, hp]⟩

/-- Every sequence of events from the empty registry keeps the completed map within the
cap and without repeated keys. -/
theorem runRegistry_completed_invariant (events : List RegistryEvent) (m : Registry)
    (hlen : m.completedSessions.length ≤ MAX_COMPLETED)
    (hnd : (m.completedSessions.map Prod.fst).Nodup) :
    (runRegistry m events).completedSessions.length ≤ MAX_COMPLETED ∧
      ((runRegistry m events).completedSessions.map Prod.fst).Nodup := by
  induction events generalizing m with
  | nil => exact ⟨hlen, hnd⟩
  | cons e es ih =>
    have hstep : (stepRegistry m e).completedSessions.length ≤ MAX_COMPLETED ∧
        ((stepRegistry m e).completedSessions.map Prod.fst).Nodup := by
      rcases stepRegistry_completedSessions m e with h | ⟨session, code, endTime, _, _, h⟩
      · rw [h]
        exact ⟨hlen, hnd⟩
      · rw [h]
        refine ⟨evictOldest_length_le _ ?_, keys_nodup_evictOldest _ (keys_nodup_jsMapSet _ _ _ hnd)⟩
        have := jsMapSet_length_le session.pid
          ({ pid := session.pid, outputLines := session.outputLines, exitCode := code,
             startTime := session.startTime, endTime := endTime } : CompletedSession)
          m.completedSessions
        omega
    exact ih (stepRegistry m e) hstep.1 hstep.2

/-- C13: across any sequence of events from the empty registry, the completed map holds
at most 100 entries after each handler; when it holds 100 entries and a process whose pid
is not among them exits, the first (earliest inserted) entry is evicted and the other 99
entries followed by the new one remain; and a read changes nothing in the completed
map. -/
theorem completed_cache_fifo (events : List RegistryEvent) :
    (runRegistry emptyRegistry events).completedSessions.length ≤ 100 ∧
      (∀ (session : TerminalSession) (code : Option Int) (endTime : Int),
        session.pid ≠ 0 →
        (runRegistry emptyRegistry events).completedSessions.length = 100 →
        (runRegistry emptyRegistry events).completedSessions.lookup session.pid = none →
        (completeSession (runRegistry emptyRegistry events) session code
            endTime).completedSessions
          = (runRegistry emptyRegistry events).completedSessions.tail
            ++ [(session.pid,
                { pid := session.pid, outputLines := session.outputLines, exitCode := code,
                  startTime := session.startTime, endTime := endTime })]) ∧
      (∀ pid offset length : Int,
        (readOutputPaginated (runRegistry emptyRegistry events) pid offset
            length).2.completedSessions
          = (runRegistry emptyRegistry events).completedSessions) := by
  have hinv := runRegistry_completed_invariant events emptyRegistry
    (by simp [emptyRegistry]) (by simp [emptyRegistry])
  generalize runRegistry emptyRegistry events = m at hinv ⊢
  refine ⟨hinv.1, ?_, fun pid offset length =>
    readOutputPaginated_completedSessions m pid offset length⟩
  intro session code endTime hpid hfull hnew
  rw [lookup_none_iff_keys] at hnew
  simp only [completeSession, hpid, ne_eq, not_false_eq_true, if_true]
  rw [jsMapSet_of_not_mem _ _ _ hnew]
  cases hm : m.completedSessions with
  | nil => simp [hm] at hfull
  | cons kv rest =>
    obtain ⟨k, v⟩ := kv
    rw [hm] at hfull hnew
    have hnd : ((((k, v) :: rest) ++ [(session.pid,
        ({ pid := session.pid, outputLines := session.outputLines, exitCode := code,
           startTime := session.startTime, endTime := endTime } : CompletedSession))]).map
        Prod.fst).Nodup := by
      have h2 := hinv.2
      rw [hm] at h2
      rw [List.map_append, List.nodup_append]
      refine ⟨h2, by simp, ?_⟩
      intro x hx1 hx2
      simp only [List.map_cons, List.map_nil, List.mem_singleton] at hx2
      subst hx2
      exact hnew hx1
    have hlen : (((k, v) :: rest) ++ [(session.pid,
        ({ pid := session.pid, outputLines := session.outputLines, exitCode := code,
           startTime := session.startTime, endTime := endTime } : CompletedSession))]).length
        > MAX_COMPLETED := by
      simp only [List.length_append, List.length_singleton, MAX_COMPLETED]
      omega
    rw [List.cons_append] at hlen hnd ⊢
    rw [evictOldest_cons k v _ hlen, List.tail_cons]
    exact jsMapDelete_head k v _ hnd

set_option maxRecDepth 100000 in
/-- C13 (witness): after the exits of the processes 1 to 100 the completed map is full;
the exit of process 101 evicts the entry of process 1. -/
theorem completed_cache_fifo_witness :
    (completeSession (runRegistry emptyRegistry (exitsUpTo 100)) (newSession 101 0) (some 0)
        1).completedSessions
      = (runRegistry emptyRegistry (exitsUpTo 100)).completedSessions.tail
        ++ [(101, { pid := 101, outputLines := [], exitCode := some 0, startTime := 0,
                    endTime := 1 })] :=
  (completed_cache_fifo (exitsUpTo 100)).2.1 (newSession 101 0) (some 0) 1
    (by decide) (by decide) (by decide)

/-! ## The two maps together -/

theorem keys_sendInputToProcess (m : Registry) (pid : Int) (input : Str) :
    (sendInputToProcess m pid input).2.sessions.map Prod.fst = m.sessions.map Prod.fst ∧
      (sendInputToProcess m pid input).2.completedSessions = m.completedSessions := by
  unfold sendInputToProcess
  split
  · exact ⟨rfl, rfl⟩
  · split
    · exact ⟨rfl, rfl⟩
    · split
      · exact ⟨rfl, rfl⟩
      · split
        · exact ⟨rfl, rfl⟩
        · exact ⟨keys_storeSession _ _ _, rfl⟩

/-- One event keeps the two maps disjoint, unless it is a spawn whose pid is in the
completed map. -/
theorem stepRegistry_exclusive (m : Registry) (e : RegistryEvent)
    (hex : ∀ pid : Int, m.sessions.lookup pid = none ∨ m.completedSessions.lookup pid = none)
    (hav : spawnsAvoidCompleted m [e] = true) (pid : Int) :
    (stepRegistry m e).sessions.lookup pid = none ∨
      (stepRegistry m e).completedSessions.lookup pid = none := by
  cases e with
  | spawn childPid process startTime =>
    cases childPid with
    | none => exact hex pid
    | some p =>
      by_cases hp : p = 0
      · simp only [stepRegistry, hp, if_true]
        exact hex pid
      · simp only [spawnsAvoidCompleted, Bool.and_true, Option.isNone_iff_eq_none] at hav
        simp only [stepRegistry, hp, if_false, registerSession, newSession]
        by_cases hpid : pid = p
        · subst hpid
          exact Or.inr hav
        · rw [lookup_jsMapSet_ne _ _ _ _ hpid]
          exact hex pid
  | chunk p text =>
    simp only [stepRegistry]
    split
    · simp only [lookup_none_iff_keys, keys_storeSession]
      simpa only [lookup_none_iff_keys] using hex pid
    · exact hex pid
  | read p offset length =>
    simp only [stepRegistry, readOutputPaginated_completedSessions]
    rw [lookup_none_iff_keys, keys_readOutputPaginated, ← lookup_none_iff_keys]
    exact hex pid
  | input p text =>
    simp only [stepRegistry]
    rw [(keys_sendInputToProcess m p text).2, lookup_none_iff_keys,
      (keys_sendInputToProcess m p text).1, ← lookup_none_iff_keys]
    exact hex pid
  | exit session code endTime =>
    by_cases hp : session.pid = 0
    · simp only [stepRegistry, completeSession, hp, ne_eq, not_true_eq_false, if_false]
      exact hex pid
    · simp only [stepRegistry, completeSession, hp, ne_eq, not_false_eq_true, if_true]
      by_cases hpid : pid = session.pid
      · left
        rw [hpid]
        exact lookup_jsMapDelete_self _ _
      · rcases hex pid with h | h
        · left
          rw [lookup_jsMapDelete_ne _ _ _ hpid]
          exact h
        · right
          apply lookup_evictOldest_none
          rw [lookup_jsMapSet_ne _ _ _ _ hpid]
          exact h

theorem runRegistry_exclusive (events : List RegistryEvent) (m : Registry)
    (hex : ∀ pid : Int, m.sessions.lookup pid = none ∨ m.completedSessions.lookup pid = none)
    (hav : spawnsAvoidCompleted m events = true) (pid : Int) :
    (runRegistry m events).sessions.lookup pid = none ∨
      (runRegistry m events).completedSessions.lookup pid = none := by
  induction events generalizing m with
  | nil => exact hex pid
  | cons e es ih =>
    have hsplit : spawnsAvoidCompleted m [e] = true ∧
        spawnsAvoidCompleted (stepRegistry m e) es = true := by
      simp only [spawnsAvoidCompleted, Bool.and_eq_true] at hav ⊢
      exact ⟨⟨hav.1, trivial⟩, hav.2⟩
    exact ih (stepRegistry m e) (fun q => stepRegistry_exclusive m e hex hsplit.1 q) hsplit.2

/-- C14 (as stated, refuted): process 5 is spawned and exits, and the next process is
given the pid 5 again; after the second spawn the pid 5 is in the active map and in the
completed map. -/
theorem pid_reuse_counterexample :
    ((runRegistry emptyRegistry pidReuseEvents).sessions.lookup 5).isSome = true ∧
      ((runRegistry emptyRegistry pidReuseEvents).completedSessions.lookup 5).isSome = true := by
  decide

/-- C14 (amended): for every sequence of spawn, output, read, input and exit events from
the empty registry in which no spawn is given a pid that is in the completed map at that
moment, after each event no pid is in both the active map and the completed map. -/
theorem registry_exclusive (events : List RegistryEvent)
    (hav : spawnsAvoidCompleted emptyRegistry events = true) (pid : Int) :
    ¬ (((runRegistry emptyRegistry events).sessions.lookup pid).isSome = true ∧
        ((runRegistry emptyRegistry events).completedSessions.lookup pid).isSome = true) := by
  rcases runRegistry_exclusive events emptyRegistry (fun _ => Or.inl rfl) hav pid with h | h
  · rw [h]
    simp
  · rw [h]
    simp

/-- C14 (witness): two spawns and the exit of the first process; the pid 5 is in the
completed map only. -/
theorem registry_exclusive_witness :
    spawnsAvoidCompleted emptyRegistry twoProcessEvents = true ∧
      ¬ (((runRegistry emptyRegistry twoProcessEvents).sessions.lookup 5).isSome = true ∧
        ((runRegistry emptyRegistry twoProcessEvents).completedSessions.lookup 5).isSome
          = true) :=
  ⟨by decide, registry_exclusive twoProcessEvents (by decide) 5⟩

/-! ## The handlers of `executeCommand` -/

theorem appendToLineBuffer_pid (s : TerminalSession) (text : Str) :
    (appendToLineBuffer s text).pid = s.pid := by
  unfold appendToLineBuffer
  split <;> rfl

/-- What the shared statements of the two `data` handlers change. -/
theorem recordOutput_spec (st : CommandState) (text : Str) (now : Int) :
    (recordOutput st text now).resolved = st.resolved ∧
      (recordOutput st text now).resolutions = st.resolutions ∧
      (recordOutput st text now).output = st.output ++ text ∧
      (recordOutput st text now).session = appendToLineBuffer st.session text ∧
      (recordOutput st text now).registry.sessions
        = storeSession st.session.pid (appendToLineBuffer st.session text)
            st.registry.sessions ∧
      (recordOutput st text now).registry.completedSessions = st.registry.completedSessions ∧
      (recordOutput st text now).exitReason = st.exitReason ∧
      (recordOutput st text now).startTime = st.startTime := by
  simp [recordOutput, updateSession, appendToLineBuffer_pid]

/-- An event that is not an outcome leaves the call unresolved and adds its text to the
output; the session object stays the map entry of its pid. -/
theorem stepCommand_quiet (collectTiming : Bool) (st : CommandState) (e : CommandEvent)
    (hq : isOutcome e = false)
    (hreg : st.registry.sessions.lookup st.session.pid = some st.session) :
    (stepCommand collectTiming st e).resolved = st.resolved ∧
      (stepCommand collectTiming st e).resolutions = st.resolutions ∧
      (stepCommand collectTiming st e).output = st.output ++ chunksText [e] ∧
      (stepCommand collectTiming st e).session.pid = st.session.pid ∧
      (stepCommand collectTiming st e).registry.sessions.lookup st.session.pid
        = some (stepCommand collectTiming st e).session ∧
      (stepCommand collectTiming st e).registry.completedSessions
        = st.registry.completedSessions := by
  have key : ∀ text now,
      (recordOutput st text now).resolved = st.resolved ∧
      (recordOutput st text now).resolutions = st.resolutions ∧
      (recordOutput st text now).output = st.output ++ text ∧
      (recordOutput st text now).session.pid = st.session.pid ∧
      (recordOutput st text now).registry.sessions.lookup st.session.pid
        = some (recordOutput st text now).session ∧
      (recordOutput st text now).registry.completedSessions
        = st.registry.completedSessions := by
    intro text now
    have h := recordOutput_spec st text now
    refine ⟨h.1, h.2.1, h.2.2.1, ?_, ?_, h.2.2.2.2.2.1⟩
    · rw [h.2.2.2.1, appendToLineBuffer_pid]
    · rw [h.2.2.2.2.1, h.2.2.2.1]
      exact lookup_storeSession _ _ _ _ hreg
  cases e with
  | stdout text now endTime =>
    simp only [isOutcome] at hq
    simp only [stepCommand, onStdout, hq, Bool.false_eq_true, if_false, chunksText,
      List.append_nil]
    exact key text now
  | stderr text now =>
    simp only [stepCommand, onStderr, chunksText, List.append_nil]
    exact key text now
  | error message endTime => simp [isOutcome] at hq
  | timeout endTime => simp [isOutcome] at hq
  | exit code exitTime endTime => simp [isOutcome] at hq

theorem chunksText_append (xs ys : List CommandEvent) :
    chunksText (xs ++ ys) = chunksText xs ++ chunksText ys := by
  induction xs with
  | nil => rfl
  | cons x rest ih =>
    cases x <;> simp [chunksText, ih]

theorem runCommand_append (collectTiming : Bool) (st : CommandState)
    (xs ys : List CommandEvent) :
    runCommand collectTiming st (xs ++ ys)
      = runCommand collectTiming (runCommand collectTiming st xs) ys := by
  simp [runCommand, List.foldl_append]

/-- A sequence of events without an outcome leaves the call unresolved. -/
theorem runCommand_quiet (collectTiming : Bool) (events : List CommandEvent)
    (st : CommandState) (hq : ∀ x ∈ events, isOutcome x = false)
    (hreg : st.registry.sessions.lookup st.session.pid = some st.session) :
    (runCommand collectTiming st events).resolved = st.resolved ∧
      (runCommand collectTiming st events).resolutions = st.resolutions ∧
      (runCommand collectTiming st events).output = st.output ++ chunksText events ∧
      (runCommand collectTiming st events).session.pid = st.session.pid ∧
      (runCommand collectTiming st events).registry.sessions.lookup st.session.pid
        = some (runCommand collectTiming st events).session ∧
      (runCommand collectTiming st events).registry.completedSessions
        = st.registry.completedSessions := by
  induction events generalizing st with
  | nil => simp [runCommand, chunksText, hreg]
  | cons e es ih =>
    have h1 := stepCommand_quiet collectTiming st e (hq e (List.mem_cons_self _ _)) hreg
    have hreg2 : (stepCommand collectTiming st e).registry.sessions.lookup
        (stepCommand collectTiming st e).session.pid
        = some (stepCommand collectTiming st e).session := by
      rw [h1.2.2.2.1]
      exact h1.2.2.2.2.1
    have h2 := ih (stepCommand collectTiming st e)
      (fun x hx => hq x (List.mem_cons_of_mem _ hx)) hreg2
    have hrun : runCommand collectTiming st (e :: es)
        = runCommand collectTiming (stepCommand collectTiming st e) es := rfl
    have htext : chunksText (e :: es) = chunksText [e] ++ chunksText es :=
      chunksText_append [e] es
    rw [hrun, htext]
    refine ⟨h2.1.trans h1.1, h2.2.1.trans h1.2.1, ?_, h2.2.2.2.1.trans h1.2.2.2.1, ?_,
      h2.2.2.2.2.2.trans h1.2.2.2.2.2⟩
    · rw [h2.2.2.1, h1.2.2.1, List.append_assoc]
    · rw [← h1.2.2.2.1]
      exact h2.2.2.2.2.1

/-- Once the call is resolved, no event resolves it again. -/
theorem stepCommand_resolved (collectTiming : Bool) (st : CommandState) (e : CommandEvent)
    (h : st.resolved = true) :
    (stepCommand collectTiming st e).resolved = true ∧
      (stepCommand collectTiming st e).resolutions = st.resolutions := by
  cases e with
  | stdout text now endTime =>
    have hr := recordOutput_spec st text now
    simp only [stepCommand, onStdout]
    split
    · simp [resolveOnce, updateSession, hr.1, hr.2.1, h]
    · exact ⟨hr.1.trans h, hr.2.1⟩
  | stderr text now =>
    have hr := recordOutput_spec st text now
    exact ⟨hr.1.trans h, hr.2.1⟩
  | error message endTime => simp [stepCommand, onError, resolveOnce, h]
  | timeout endTime => simp [stepCommand, onTimeout, resolveOnce, updateSession, h]
  | exit code exitTime endTime => simp [stepCommand, onExit, resolveOnce, h]

theorem runCommand_resolved (collectTiming : Bool) (events : List CommandEvent)
    (st : CommandState) (h : st.resolved = true) :
    (runCommand collectTiming st events).resolutions = st.resolutions := by
  induction events generalizing st with
  | nil => rfl
  | cons e es ih =>
    have h1 := stepCommand_resolved collectTiming st e h
    have hrun : runCommand collectTiming st (e :: es)
        = runCommand collectTiming (stepCommand collectTiming st e) es := rfl
    rw [hrun, ih _ h1.1, h1.2]

/-- After the registry part of the exit handler, a session with a non-zero pid is out of
the active map and its record is in the completed map (the map being within its cap
before). -/
theorem completeSession_lookup (m : Registry) (session : TerminalSession) (code : Option Int)
    (endTime : Int) (hpid : session.pid ≠ 0)
    (hcap : m.completedSessions.length ≤ MAX_COMPLETED) :
    (completeSession m session code endTime).sessions.lookup session.pid = none ∧
      (completeSession m session code endTime).completedSessions.lookup session.pid
        = some { pid := session.pid, outputLines := session.outputLines, exitCode := code,
                 startTime := session.startTime, endTime := endTime } := by
  simp only [completeSession, hpid, ne_eq, not_false_eq_true, if_true]
  refine ⟨lookup_jsMapDelete_self _ _, ?_⟩
  by_cases hmem : session.pid ∈ m.completedSessions.map Prod.fst
  · rw [evictOldest_of_le _ (by rw [jsMapSet_length_of_mem _ _ _ hmem]; exact hcap)]
    exact lookup_jsMapSet_self _ _ _
  · by_cases hlen : (jsMapSet session.pid
        ({ pid := session.pid, outputLines := session.outputLines, exitCode := code,
           startTime := session.startTime, endTime := endTime } : CompletedSession)
        m.completedSessions).length ≤ MAX_COMPLETED
    · rw [evictOldest_of_le _ hlen]
      exact lookup_jsMapSet_self _ _ _
    · cases hm : m.completedSessions with
      | nil =>
        rw [hm] at hlen
        simp [jsMapSet, MAX_COMPLETED] at hlen
      | cons kv rest =>
        obtain ⟨k, v⟩ := kv
        rw [hm] at hmem hlen
        have hk : session.pid ≠ k := by
          intro h
          apply hmem
          simp [h]
        have hne : ¬ k = session.pid := fun h => hk h.symm
        have hset : jsMapSet session.pid
            ({ pid := session.pid, outputLines := session.outputLines, exitCode := code,
               startTime := session.startTime, endTime := endTime } : CompletedSession)
            ((k, v) :: rest)
            = (k, v) :: jsMapSet session.pid
                ({ pid := session.pid, outputLines := session.outputLines, exitCode := code,
                   startTime := session.startTime, endTime := endTime } : CompletedSession)
                rest := by
          simp [jsMapSet, hne]
        rw [hset] at hlen ⊢
        rw [evictOldest_cons _ _ _ (by omega), lookup_jsMapDelete_ne _ _ _ hk, ← hset]
        exact lookup_jsMapSet_self _ _ _

/-- The first outcome resolves an unresolved call, with the result of that outcome: the
output so far and the blocked flag for a prompt, the timeout and the exit, and the error
text with `isBlocked = false` and an untouched registry for an `error` event. -/
theorem stepCommand_outcome (collectTiming : Bool) (st : CommandState) (e : CommandEvent)
    (hres : st.resolved = false) (hnone : st.resolutions = [])
    (he : isOutcome e = true)
    (hreg : st.registry.sessions.lookup st.session.pid = some st.session)
    (hpid : st.session.pid ≠ 0)
    (hcap : st.registry.completedSessions.length ≤ MAX_COMPLETED) :
    (∃ r : CommandResult, (stepCommand collectTiming st e).resolutions = [r]) ∧
      (stepCommand collectTiming st e).resolved = true ∧
      (∀ r ∈ (stepCommand collectTiming st e).resolutions,
        r.pid = st.session.pid ∧
        r.output
          = (if isErrorEvent e then
              "Error: Failed to execute command: ".toList ++ eventMessage e
            else st.output ++ chunksText [e]) ∧
        r.isBlocked = (!isExitEvent e && !isErrorEvent e) ∧
        r.timingInfo.map (fun t => t.exitReason)
          = (if collectTiming then some (outcomeReason e) else none)) ∧
      (isExitEvent e = false → isErrorEvent e = false →
        ∃ s, (stepCommand collectTiming st e).registry.sessions.lookup st.session.pid = some s
          ∧ s.isBlocked = true) ∧
      (isExitEvent e = true →
        (stepCommand collectTiming st e).registry.sessions.lookup st.session.pid = none ∧
        ∃ c, (stepCommand collectTiming st e).registry.completedSessions.lookup
            st.session.pid = some c ∧ c.outputLines = st.session.outputLines) ∧
      (isErrorEvent e = true →
        (stepCommand collectTiming st e).registry = st.registry ∧
        (stepCommand collectTiming st e).session = st.session) := by
  cases e with
  | stdout text now endTime =>
    simp only [isOutcome] at he
    have hr := recordOutput_spec st text now
    have hreg1 : (recordOutput st text now).registry.sessions.lookup st.session.pid
        = some (recordOutput st text now).session := by
      rw [hr.2.2.2.2.1, hr.2.2.2.1]
      exact lookup_storeSession _ _ _ _ hreg
    have hpid1 : (recordOutput st text now).session.pid = st.session.pid := by
      rw [hr.2.2.2.1, appendToLineBuffer_pid]
    simp only [stepCommand, onStdout, he, if_true, resolveOnce, updateSession, hr.1, hres,
      hr.2.1, hnone, Bool.false_eq_true, if_false, List.nil_append, hpid1]
    refine ⟨⟨_, rfl⟩, trivial, ?_, ?_, ?_, ?_⟩
    · intro r hmem
      rw [List.mem_singleton] at hmem
      subst hmem
      cases collectTiming <;>
        simp [hr.2.2.1, chunksText, isExitEvent, isErrorEvent, outcomeReason]
    · intro _ _
      exact ⟨_, lookup_storeSession _ _ _ _ hreg1, rfl⟩
    · intro h
      simp [isExitEvent] at h
    · intro h
      simp [isErrorEvent] at h
  | stderr text now => simp [isOutcome] at he
  | error message endTime =>
    simp only [stepCommand, onError, resolveOnce, hres, hnone, hpid, Bool.false_eq_true,
      if_false, List.nil_append]
    refine ⟨⟨_, rfl⟩, trivial, ?_, ?_, ?_, ?_⟩
    · intro r hmem
      rw [List.mem_singleton] at hmem
      subst hmem
      cases collectTiming <;>
        simp [isExitEvent, isErrorEvent, outcomeReason, eventMessage]
    · intro _ h
      simp [isErrorEvent] at h
    · intro h
      simp [isExitEvent] at h
    · intro _
      constructor <;> first | rfl | trivial
  | timeout endTime =>
    simp only [stepCommand, onTimeout, resolveOnce, updateSession, hres, hnone,
      Bool.false_eq_true, if_false, List.nil_append]
    refine ⟨⟨_, rfl⟩, trivial, ?_, ?_, ?_, ?_⟩
    · intro r hmem
      rw [List.mem_singleton] at hmem
      subst hmem
      cases collectTiming <;>
        simp [chunksText, isExitEvent, isErrorEvent, outcomeReason]
    · intro _ _
      exact ⟨_, lookup_storeSession _ _ _ _ hreg, rfl⟩
    · intro h
      simp [isExitEvent] at h
    · intro h
      simp [isErrorEvent] at h
  | exit code exitTime endTime =>
    have hc := completeSession_lookup st.registry st.session code exitTime hpid hcap
    simp only [stepCommand, onExit, resolveOnce, hres, hnone, Bool.false_eq_true, if_false,
      List.nil_append]
    refine ⟨⟨_, rfl⟩, trivial, ?_, ?_, ?_, ?_⟩
    · intro r hmem
      rw [List.mem_singleton] at hmem
      subst hmem
      cases collectTiming <;>
        simp [chunksText, isExitEvent, isErrorEvent, outcomeReason]
    · intro h
      simp [isExitEvent] at h
    · intro _
      exact ⟨hc.1, _, hc.2, rfl⟩
    · intro h
      simp [isErrorEvent] at h

/-- A successful spawn: the process id is there and not 0, and the shared variables are
those of `startedCommand`. -/
theorem executeCommandSpawn_inr (m : Registry) (childPid : Option Int) (process : ChildProcess)
    (sessionStart startTime : Int) (st0 : CommandState)
    (h : executeCommandSpawn m childPid process sessionStart startTime = Sum.inr st0) :
    ∃ pid, childPid = some pid ∧ pid ≠ 0 ∧
      st0 = startedCommand m pid process sessionStart startTime := by
  cases childPid with
  | none => simp [executeCommandSpawn, pidMissing] at h
  | some pid =>
    by_cases hp : pid = 0
    · simp [executeCommandSpawn, pidMissing, hp] at h
    · simp only [executeCommandSpawn, pidMissing, hp, decide_False, Bool.false_eq_true,
        if_false, Option.getD_some, Sum.inr.injEq] at h
      exact ⟨pid, rfl, hp, h.symm⟩

/-- The whole course of a call: no resolution before the first outcome, one resolution at
the first outcome, and the same one after any later events. -/
theorem runCommand_first_outcome (collectTiming : Bool) (st0 : CommandState)
    (before after : List CommandEvent) (e : CommandEvent)
    (hres : st0.resolved = false) (hnone : st0.resolutions = []) (hout : st0.output = [])
    (hreg : st0.registry.sessions.lookup st0.session.pid = some st0.session)
    (hpid : st0.session.pid ≠ 0)
    (hcap : st0.registry.completedSessions.length ≤ MAX_COMPLETED)
    (hbefore : ∀ x ∈ before, isOutcome x = false) (he : isOutcome e = true) :
    (runCommand collectTiming st0 before).resolutions = [] ∧
      (∃ r : CommandResult,
        (runCommand collectTiming st0 (before ++ [e])).resolutions = [r] ∧
        (runCommand collectTiming st0 (before ++ e :: after)).resolutions = [r] ∧
        r.pid = st0.session.pid ∧
        r.output
          = (if isErrorEvent e then
              "Error: Failed to execute command: ".toList ++ eventMessage e
            else chunksText (before ++ [e])) ∧
        r.isBlocked = (!isExitEvent e && !isErrorEvent e) ∧
        r.timingInfo.map (fun t => t.exitReason)
          = (if collectTiming then some (outcomeReason e) else none)) ∧
      (isExitEvent e = false → isErrorEvent e = false →
        ∃ s, (runCommand collectTiming st0 (before ++ [e])).registry.sessions.lookup
            st0.session.pid = some s ∧ s.isBlocked = true) ∧
      (isExitEvent e = true →
        (runCommand collectTiming st0 (before ++ [e])).registry.sessions.lookup
            st0.session.pid = none ∧
        ∃ c, (runCommand collectTiming st0 (before ++ [e])).registry.completedSessions.lookup
            st0.session.pid = some c ∧
          c.outputLines = (runCommand collectTiming st0 before).session.outputLines) ∧
      (isErrorEvent e = true →
        (runCommand collectTiming st0 (before ++ [e])).registry
          = (runCommand collectTiming st0 before).registry ∧
        (runCommand collectTiming st0 (before ++ [e])).registry.sessions.lookup
            st0.session.pid = some (runCommand collectTiming st0 before).session ∧
        (runCommand collectTiming st0 (before ++ [e])).registry.completedSessions
          = st0.registry.completedSessions) := by
  have hq := runCommand_quiet collectTiming before st0 hbefore hreg
  have hreg1 : (runCommand collectTiming st0 before).registry.sessions.lookup
      (runCommand collectTiming st0 before).session.pid
      = some (runCommand collectTiming st0 before).session := by
    rw [hq.2.2.2.1]
    exact hq.2.2.2.2.1
  have hstep := stepCommand_outcome collectTiming (runCommand collectTiming st0 before) e
    (hq.1.trans hres) (hq.2.1.trans hnone) he hreg1 (by rw [hq.2.2.2.1]; exact hpid)
    (by rw [hq.2.2.2.2.2]; exact hcap)
  have hrun1 : runCommand collectTiming st0 (before ++ [e])
      = stepCommand collectTiming (runCommand collectTiming st0 before) e := by
    rw [runCommand_append]
    rfl
  have hrun2 : runCommand collectTiming st0 (before ++ e :: after)
      = runCommand collectTiming
          (stepCommand collectTiming (runCommand collectTiming st0 before) e) after := by
    rw [runCommand_append]
    rfl
  rw [hq.2.2.2.1] at hstep
  obtain ⟨⟨r, hr⟩, hresolved, hprops, hactive, hdone, herr⟩ := hstep
  refine ⟨hq.2.1.trans hnone, ⟨r, ?_, ?_, ?_⟩, ?_, ?_, ?_⟩
  · rw [hrun1]
    exact hr
  · rw [hrun2, runCommand_resolved _ _ _ hresolved]
    exact hr
  · have hp := hprops r (by rw [hr]; exact List.mem_singleton.mpr rfl)
    refine ⟨hp.1, ?_, hp.2.2.1, hp.2.2.2⟩
    rw [hp.2.1, hq.2.2.1, hout, chunksText_append]
    rfl
  · rw [hrun1]
    exact hactive
  · rw [hrun1]
    exact hdone
  · intro h
    rw [hrun1]
    have h2 := herr h
    refine ⟨h2.1, ?_, ?_⟩
    · rw [h2.1]
      exact hq.2.2.2.2.1
    · rw [h2.1]
      exact hq.2.2.2.2.2

/-- The shared variables right after a successful spawn on a registry reached from the
empty one meet what `runCommand_first_outcome` asks for. -/
theorem startedCommand_ready (history : List RegistryEvent) (pid : Int)
    (process : ChildProcess) (sessionStart startTime : Int) :
    (startedCommand (runRegistry emptyRegistry history) pid process sessionStart
        startTime).resolved = false ∧
      (startedCommand (runRegistry emptyRegistry history) pid process sessionStart
        startTime).resolutions = [] ∧
      (startedCommand (runRegistry emptyRegistry history) pid process sessionStart
        startTime).output = [] ∧
      (startedCommand (runRegistry emptyRegistry history) pid process sessionStart
        startTime).session.pid = pid ∧
      (startedCommand (runRegistry emptyRegistry history) pid process sessionStart
        startTime).registry.sessions.lookup pid
        = some (startedCommand (runRegistry emptyRegistry history) pid process sessionStart
            startTime).session ∧
      (startedCommand (runRegistry emptyRegistry history) pid process sessionStart
        startTime).registry.completedSessions.length ≤ MAX_COMPLETED := by
  refine ⟨rfl, rfl, rfl, rfl, ?_, ?_⟩
  · simp only [startedCommand, registerSession, newSession]
    exact lookup_jsMapSet_self _ _ _
  · exact (runRegistry_completed_invariant history emptyRegistry (by simp [emptyRegistry])
      (by simp [emptyRegistry])).1

/-- C15 (as stated, refuted): process 7 is spawned and prints `a`; then the child emits
`error`. The promise resolves at that event, which is no quick-prompt match, no exit and no
timeout; the result has isBlocked = false although the session is still in the active map
and not in the completed one, and its output is the error text, not the chunk `a`
received so far. The timeout, the first to arrive of quick-prompt match, exit and
timeout, comes later and adds no resolution. -/
theorem start_error_outcome_counterexample :
    executeCommandSpawn emptyRegistry (some 7) openProcess 0 0
        = Sum.inr (startedCommand emptyRegistry 7 openProcess 0 0) ∧
      quickPromptPatterns "a".toList = false ∧
      killFailedEvents.any isExitEvent = false ∧
      killFailedEvents.any isTimeoutEvent = false ∧
      (runCommand false (startedCommand emptyRegistry 7 openProcess 0 0)
          killFailedEvents).resolutions
        = [{ pid := 7, output := "Error: Failed to execute command: kill EPERM".toList,
             isBlocked := false, timingInfo := none }] ∧
      (runCommand false (startedCommand emptyRegistry 7 openProcess 0 0)
          (killFailedEvents ++ [.timeout 30000])).resolutions
        = [{ pid := 7, output := "Error: Failed to execute command: kill EPERM".toList,
             isBlocked := false, timingInfo := none }] ∧
      chunksText killFailedEvents = "a".toList ∧
      ((runCommand false (startedCommand emptyRegistry 7 openProcess 0 0)
          killFailedEvents).registry.sessions.lookup 7).map (fun s => s.outputLines)
        = some ["a".toList] ∧
      (runCommand false (startedCommand emptyRegistry 7 openProcess 0 0)
          killFailedEvents).registry.completedSessions.lookup 7 = none := by
  decide

/-- C15 (amended): after a successful spawn, for every order of stdout and stderr chunks,
`error` events of the child, timeout and exit, the promise of executeCommand is not
resolved before the first outcome (a stdout chunk matching the quick-prompt pattern, an
`error` event, the exit, the timeout), is resolved exactly once at it, and later events
add no resolution. For a quick-prompt match or the timeout the result has isBlocked = true
and the session is in the active map with isBlocked = true; for the exit the result has
isBlocked = false and the session is out of the active map and in the completed map; in
these three cases the output returned is the concatenation, in arrival order, of the
chunks received up to that event. For an `error` event the result has isBlocked = false
and the output 'Error: Failed to execute command: ' followed by the message of the error,
and the registry is not changed: the session stays in the active map and the completed
map is as at the spawn. -/
theorem start_resolves_once (collectTiming : Bool) (history : List RegistryEvent)
    (childPid : Option Int) (process : ChildProcess) (sessionStart startTime : Int)
    (st0 : CommandState)
    (hspawn : executeCommandSpawn (runRegistry emptyRegistry history) childPid process
      sessionStart startTime = Sum.inr st0)
    (before after : List CommandEvent) (e : CommandEvent)
    (hbefore : ∀ x ∈ before, isOutcome x = false) (he : isOutcome e = true) :
    (runCommand collectTiming st0 before).resolutions = [] ∧
      (∃ r : CommandResult,
        (runCommand collectTiming st0 (before ++ [e])).resolutions = [r] ∧
        (runCommand collectTiming st0 (before ++ e :: after)).resolutions = [r] ∧
        some r.pid = childPid ∧
        r.output
          = (if isErrorEvent e then
              "Error: Failed to execute command: ".toList ++ eventMessage e
            else chunksText (before ++ [e])) ∧
        r.isBlocked = (!isExitEvent e && !isErrorEvent e)) ∧
      (isExitEvent e = false → isErrorEvent e = false →
        ∃ s, (runCommand collectTiming st0 (before ++ [e])).registry.sessions.lookup
            st0.session.pid = some s ∧ s.isBlocked = true) ∧
      (isExitEvent e = true →
        (runCommand collectTiming st0 (before ++ [e])).registry.sessions.lookup
            st0.session.pid = none ∧
        ∃ c, (runCommand collectTiming st0 (before ++ [e])).registry.completedSessions.lookup
            st0.session.pid = some c ∧
          c.outputLines = (runCommand collectTiming st0 before).session.outputLines) ∧
      (isErrorEvent e = true →
        (runCommand collectTiming st0 (before ++ [e])).registry
          = (runCommand collectTiming st0 before).registry ∧
        (runCommand collectTiming st0 (before ++ [e])).registry.sessions.lookup
            st0.session.pid = some (runCommand collectTiming st0 before).session ∧
        (runCommand collectTiming st0 (before ++ [e])).registry.completedSessions
          = (runRegistry emptyRegistry history).completedSessions) := by
  obtain ⟨pid, hchild, hpid, hst0⟩ := executeCommandSpawn_inr _ _ _ _ _ _ hspawn
  have hready := startedCommand_ready history pid process sessionStart startTime
  rw [← hst0] at hready
  obtain ⟨h1, h2, h3, h4, h5, h6⟩ := hready
  rw [← h4] at h5 hpid
  have hcompleted : st0.registry.completedSessions
      = (runRegistry emptyRegistry history).completedSessions := by
    rw [hst0]
    rfl
  obtain ⟨hb, ⟨r, hr1, hr2, hr3, hr4, hr5, _⟩, hactive, hdone, herr⟩ :=
    runCommand_first_outcome collectTiming st0 before after e h1 h2 h3 h5 hpid h6 hbefore he
  refine ⟨hb, ⟨r, hr1, hr2, by rw [hr3, h4, hchild], hr4, hr5⟩, hactive, hdone, ?_⟩
  intro h
  obtain ⟨e1, e2, e3⟩ := herr h
  exact ⟨e1, e2, e3.trans hcompleted⟩

/-- C15 (witness): process 7 prints a banner on stderr and a prompt on stdout; the call
resolves at the prompt with the two chunks as output, and the timeout and the exit that
come later add nothing. -/
theorem start_resolves_once_witness :
    ∃ r : CommandResult,
      (runCommand false (startedCommand emptyRegistry 7 openProcess 0 0)
        (promptEvents ++ [.stdout ">>> ".toList 9 10])).resolutions = [r] ∧
      (runCommand false (startedCommand emptyRegistry 7 openProcess 0 0)
        (promptEvents ++ .stdout ">>> ".toList 9 10 :: lateEvents)).resolutions = [r] ∧
      some r.pid = some 7 ∧
      r.output = chunksText (promptEvents ++ [.stdout ">>> ".toList 9 10]) ∧
      r.isBlocked = true :=
  (start_resolves_once false [] (some 7) openProcess 0 0
    (startedCommand emptyRegistry 7 openProcess 0 0) (by decide) promptEvents lateEvents
    (.stdout ">>> ".toList 9 10) (by decide) (by decide)).2.1

/-- C16 (as stated, refuted): with timing collection on, the child of process 7 emits
`error` before anything else. The call resolves there with the exit reason
`process_exit`, although the process has not exited: no exit event was delivered, the
session is in the active map and the completed map is empty. The quick-prompt match, the
exit and the timeout are not what resolved the call; the timeout that follows does not
change the reason. -/
theorem start_exit_reason_counterexample :
    errorThenTimeoutEvents.any isExitEvent = false ∧
      (runCommand true (startedCommand emptyRegistry 7 openProcess 0 0)
          [.error "kill EPERM".toList 7]).resolutions
        = (runCommand true (startedCommand emptyRegistry 7 openProcess 0 0)
          errorThenTimeoutEvents).resolutions ∧
      (runCommand true (startedCommand emptyRegistry 7 openProcess 0 0)
          errorThenTimeoutEvents).resolutions.map
          (fun r => r.timingInfo.map (fun t => t.exitReason))
        = [some "process_exit".toList] ∧
      ((runCommand true (startedCommand emptyRegistry 7 openProcess 0 0)
          errorThenTimeoutEvents).registry.sessions.lookup 7).isSome = true ∧
      (runCommand true (startedCommand emptyRegistry 7 openProcess 0 0)
          errorThenTimeoutEvents).registry.completedSessions = [] := by
  decide

/-- C16 (amended): with timing collection on, the exit reason in the timing information
returned by executeCommand is that of the handler that resolved the call first:
early_exit_quick_pattern for a quick-prompt match, timeout for the timeout, and
process_exit for the exit of the process and also for an `error` event of the child;
events that arrive after the resolution do not change it. -/
theorem start_exit_reason (history : List RegistryEvent)
    (childPid : Option Int) (process : ChildProcess) (sessionStart startTime : Int)
    (st0 : CommandState)
    (hspawn : executeCommandSpawn (runRegistry emptyRegistry history) childPid process
      sessionStart startTime = Sum.inr st0)
    (before after : List CommandEvent) (e : CommandEvent)
    (hbefore : ∀ x ∈ before, isOutcome x = false) (he : isOutcome e = true) :
    ∃ (r : CommandResult) (t : TimingInfo),
      (runCommand true st0 (before ++ [e])).resolutions = [r] ∧
      (runCommand true st0 (before ++ e :: after)).resolutions = [r] ∧
      r.timingInfo = some t ∧
      t.exitReason = outcomeReason e ∧
      (outcomeReason e
        = match e with
          | .exit _ _ _ => "process_exit".toList
          | .error _ _ => "process_exit".toList
          | .timeout _ => "timeout".toList
          | _ => "early_exit_quick_pattern".toList) := by
  obtain ⟨pid, hchild, hpid, hst0⟩ := executeCommandSpawn_inr _ _ _ _ _ _ hspawn
  have hready := startedCommand_ready history pid process sessionStart startTime
  rw [← hst0] at hready
  obtain ⟨h1, h2, h3, h4, h5, h6⟩ := hready
  rw [← h4] at h5 hpid
  obtain ⟨_, ⟨r, hr1, hr2, _, _, _, hr6⟩, _, _⟩ :=
    runCommand_first_outcome true st0 before after e h1 h2 h3 h5 hpid h6 hbefore he
  simp only [if_true, Option.map_eq_some'] at hr6
  obtain ⟨t, ht1, ht2⟩ := hr6
  refine ⟨r, t, hr1, hr2, ht1, ht2, ?_⟩
  cases e with
  | stdout text now endTime => rfl
  | stderr text now => simp [isOutcome] at he
  | error message endTime => rfl
  | timeout endTime => rfl
  | exit code exitTime endTime => rfl

/-- C16 (witness): the call of process 7 resolves at the prompt; the reason is
early_exit_quick_pattern although the timeout and the exit follow. -/
theorem start_exit_reason_witness :
    ∃ (r : CommandResult) (t : TimingInfo),
      (runCommand true (startedCommand emptyRegistry 7 openProcess 0 0)
        (promptEvents ++ .stdout ">>> ".toList 9 10 :: lateEvents)).resolutions = [r] ∧
      r.timingInfo = some t ∧ t.exitReason = "early_exit_quick_pattern".toList := by
  obtain ⟨r, t, _, h2, h3, h4, _⟩ := start_exit_reason [] (some 7) openProcess 0 0
    (startedCommand emptyRegistry 7 openProcess 0 0) (by decide) promptEvents lateEvents
    (.stdout ">>> ".toList 9 10) (by decide) (by decide)
  exact ⟨r, t, h2, h3, h4⟩

/-- A tick of the polling loop that sees new output for which the detector reports a
finished process, and no wait for input, ends the wait with the reason
`process_finished`. -/
theorem pollTick_finished (analyzeProcessState : Str → Int → ProcessState)
    (pid maxAttempts : Int) (out : Str) (hout : out ≠ [])
    (hwait : (analyzeProcessState out pid).isWaitingForInput = false)
    (hfin : (analyzeProcessState out pid).isFinished = true) :
    pollTick analyzeProcessState pid maxAttempts initialPollState (some out)
      = { initialPollState with output := out, lastOutputLength := out.length,
                                exitReason := "process_finished".toList, resolved := true } := by
  have hlen : (out.length : Int) > 0 := by
    cases out with
    | nil => exact absurd rfl hout
    | cons c cs =>
      simp only [List.length_cons, Nat.cast_add, Nat.cast_one]
      omega
  simp only [pollTick, initialPollState, Bool.false_eq_true, if_false, ne_eq, hout,
    not_false_eq_true, hlen, and_self, if_true, hwait, hfin]

theorem countAttempt_exitReason (maxAttempts : Int) (st : PollState) :
    (countAttempt maxAttempts st).exitReason = st.exitReason ∨
      (countAttempt maxAttempts st).exitReason = "timeout".toList := by
  unfold countAttempt
  split
  · exact Or.inr rfl
  · exact Or.inl rfl

/-- One tick keeps the exit reason or sets one of three texts. -/
theorem pollTick_exitReason (analyzeProcessState : Str → Int → ProcessState)
    (pid maxAttempts : Int) (st : PollState) (newOutput : Option Str) :
    (pollTick analyzeProcessState pid maxAttempts st newOutput).exitReason = st.exitReason ∨
      (pollTick analyzeProcessState pid maxAttempts st newOutput).exitReason
        ∈ ["early_exit_periodic_check".toList, "process_finished".toList, "timeout".toList] := by
  have hmem : ∀ x : Str, x = "timeout".toList →
      x ∈ ["early_exit_periodic_check".toList, "process_finished".toList, "timeout".toList] := by
    intro x hx
    rw [hx]
    decide
  unfold pollTick
  split
  · exact Or.inl rfl
  · split
    · rcases countAttempt_exitReason maxAttempts st with h | h
      · exact Or.inl h
      · exact Or.inr (hmem _ h)
    · split
      · simp only
        split
        · right
          show "early_exit_periodic_check".toList ∈ _
          decide
        · split
          · right
            show "process_finished".toList ∈ _
            decide
          · rcases countAttempt_exitReason maxAttempts
              { st with output := _, lastOutputLength := _ } with h | h
            · exact Or.inl h
            · exact Or.inr (hmem _ h)
      · rcases countAttempt_exitReason maxAttempts st with h | h
        · exact Or.inl h
        · exact Or.inr (hmem _ h)

theorem runPoll_exitReason (analyzeProcessState : Str → Int → ProcessState)
    (pid maxAttempts : Int) (outputs : List (Option Str)) (st : PollState)
    (h : st.exitReason
      ∈ ["early_exit_periodic_check".toList, "process_finished".toList, "timeout".toList]) :
    (runPoll analyzeProcessState pid maxAttempts st outputs).exitReason
      ∈ ["early_exit_periodic_check".toList, "process_finished".toList, "timeout".toList] := by
  induction outputs generalizing st with
  | nil => exact h
  | cons o os ih =>
    apply ih
    rcases pollTick_exitReason analyzeProcessState pid maxAttempts st o with h2 | h2
    · rw [h2]
      exact h
    · exact h2

/-- Every sequence of events has no outcome, or a first one. -/
theorem exists_first_outcome (events : List CommandEvent) :
    (∀ x ∈ events, isOutcome x = false) ∨
      ∃ before e after, events = before ++ e :: after ∧
        (∀ x ∈ before, isOutcome x = false) ∧ isOutcome e = true := by
  induction events with
  | nil => exact Or.inl (fun x hx => absurd hx (List.not_mem_nil x))
  | cons e es ih =>
    by_cases he : isOutcome e = true
    · exact Or.inr ⟨[], e, es, rfl, fun x hx => absurd hx (List.not_mem_nil x), he⟩
    · have he2 : isOutcome e = false := by simpa using he
      rcases ih with h | ⟨before, e2, after, heq, hb, he3⟩
      · left
        intro x hx
        rcases List.mem_cons.mp hx with h2 | h2
        · rw [h2]
          exact he2
        · exact h x h2
      · right
        refine ⟨e :: before, e2, after, by rw [heq]; rfl, ?_, he3⟩
        intro x hx
        rcases List.mem_cons.mp hx with h2 | h2
        · rw [h2]
          exact he2
        · exact hb x h2

theorem outcomeReason_mem (e : CommandEvent) (he : isOutcome e = true) :
    outcomeReason e
      ∈ ["early_exit_quick_pattern".toList, "process_exit".toList, "timeout".toList] := by
  cases e with
  | stdout text now endTime =>
    show "early_exit_quick_pattern".toList ∈ _
    decide
  | stderr text now => simp [isOutcome] at he
  | error message endTime =>
    show "process_exit".toList ∈ _
    decide
  | timeout endTime =>
    show "timeout".toList ∈ _
    decide
  | exit code exitTime endTime =>
    show "process_exit".toList ∈ _
    decide

/-- C17 (as stated, refuted): in the polling loop of interact_with_process, a tick that
sees the new output `done` of a finished process ends the wait with the exit reason
`process_finished`, which the timing annotation shows; this text is not one of the five
values of the enum. -/
theorem interact_exit_reason_counterexample :
    (pollTick alwaysFinished 7 160 initialPollState (some "done".toList)).exitReason
        = "process_finished".toList ∧
      "process_finished".toList ∉ exitReasonEnum ∧
      interactTimingMessage true 0 12
          (pollTick alwaysFinished 7 160 initialPollState (some "done".toList)).exitReason
        = "\n\n📊 Timing: 12ms (process_finished)".toList := by
  decide

/-- C17 (amended): every exit reason recorded by start in its timing information is one of
early_exit_quick_pattern, process_exit, timeout, all three in the enum of five values;
the reason that interact_with_process holds after any number of polling ticks, and shows
in its timing annotation, is one of early_exit_periodic_check, process_finished,
timeout. -/
theorem exit_reasons_of_start_and_interact (collectTiming : Bool)
    (history : List RegistryEvent) (childPid : Option Int) (process : ChildProcess)
    (sessionStart startTime : Int) (st0 : CommandState)
    (hspawn : executeCommandSpawn (runRegistry emptyRegistry history) childPid process
      sessionStart startTime = Sum.inr st0)
    (events : List CommandEvent)
    (analyzeProcessState : Str → Int → ProcessState) (pid maxAttempts : Int)
    (outputs : List (Option Str)) :
    (∀ r ∈ (runCommand collectTiming st0 events).resolutions, ∀ t : TimingInfo,
        r.timingInfo = some t →
        t.exitReason
            ∈ ["early_exit_quick_pattern".toList, "process_exit".toList, "timeout".toList] ∧
          t.exitReason ∈ exitReasonEnum) ∧
      (runPoll analyzeProcessState pid maxAttempts initialPollState outputs).exitReason
        ∈ ["early_exit_periodic_check".toList, "process_finished".toList, "timeout".toList] := by
  refine ⟨?_, runPoll_exitReason _ _ _ _ _ (by decide)⟩
  obtain ⟨p, hchild, hpid, hst0⟩ := executeCommandSpawn_inr _ _ _ _ _ _ hspawn
  have hready := startedCommand_ready history p process sessionStart startTime
  rw [← hst0] at hready
  obtain ⟨h1, h2, h3, h4, h5, h6⟩ := hready
  rw [← h4] at h5 hpid
  intro r hr t ht
  have hthree : t.exitReason
      ∈ ["early_exit_quick_pattern".toList, "process_exit".toList, "timeout".toList] := by
    rcases exists_first_outcome events with hq | ⟨before, e, after, heq, hb, he⟩
    · have := (runCommand_quiet collectTiming events st0 hq h5).2.1
      rw [this, h2] at hr
      exact absurd hr (List.not_mem_nil r)
    · obtain ⟨_, ⟨r2, _, hr2, _, _, _, hreason⟩, _, _⟩ :=
        runCommand_first_outcome collectTiming st0 before after e h1 h2 h3 h5 hpid h6 hb he
      rw [heq, hr2, List.mem_singleton] at hr
      subst hr
      rw [ht] at hreason
      cases collectTiming with
      | false => simp at hreason
      | true =>
        simp only [Option.map_some', if_true, Option.some.injEq] at hreason
        rw [hreason]
        exact outcomeReason_mem e he
  refine ⟨hthree, ?_⟩
  simp only [List.mem_cons, List.mem_singleton, List.not_mem_nil, or_false] at hthree
  rcases hthree with h | h | h <;> rw [h] <;> decide

/-- C17 (witness): the call of process 7 that resolves at its prompt, and a wait of two
ticks that sees no output and then `done`. -/
theorem exit_reasons_of_start_and_interact_witness :
    (∀ r ∈ (runCommand true (startedCommand emptyRegistry 7 openProcess 0 0)
          (promptEvents ++ .stdout ">>> ".toList 9 10 :: lateEvents)).resolutions,
        ∀ t : TimingInfo, r.timingInfo = some t →
          t.exitReason
              ∈ ["early_exit_quick_pattern".toList, "process_exit".toList,
                 "timeout".toList] ∧
            t.exitReason ∈ exitReasonEnum) ∧
      (runPoll alwaysFinished 7 160 initialPollState [none, some "done".toList]).exitReason
        ∈ ["early_exit_periodic_check".toList, "process_finished".toList, "timeout".toList] :=
  exit_reasons_of_start_and_interact true [] (some 7) openProcess 0 0
    (startedCommand emptyRegistry 7 openProcess 0 0) (by decide)
    (promptEvents ++ .stdout ">>> ".toList 9 10 :: lateEvents) alwaysFinished 7 160
    [none, some "done".toList]

/-- C18 (the code at the failing input): a spawn that yields no process id, as for a
shell path that does not exist. executeCommand returns pid -1 with isBlocked = false and
the error message, both maps are as before, and start_process would answer 'Error: '
followed by that message. But the return stands before the `error` listener is attached:
the child has no listener, so the `error` event that the child of a failed spawn emits is
an uncaught exception of the server, where after a successful spawn it is handled. -/
theorem failed_spawn_error_unhandled :
    (∀ (m : Registry) (process : ChildProcess) (sessionStart startTime : Int),
        executeCommandSpawn m none process sessionStart startTime
          = Sum.inl { result := failedSpawnResult, registry := m,
                      listeners := { stdoutData := false, stderrData := false,
                                     error := false, exit := false } }) ∧
      (∀ (m : Registry) (process : ChildProcess) (sessionStart : Int),
        stepRegistry m (.spawn none process sessionStart) = m) ∧
      failedSpawnResult.pid = -1 ∧
      failedSpawnResult.isBlocked = false ∧
      startProcessTool alwaysFinished (fun _ _ => []) failedSpawnResult
        = "Error: Error: Failed to get process ID. The command could not be executed.".toList ∧
      (attachedListeners
          (executeCommandSpawn threeLineRegistry none openProcess 0 0)).error = false ∧
      deliverError (attachedListeners
          (executeCommandSpawn threeLineRegistry none openProcess 0 0))
        = ErrorDelivery.uncaughtException ∧
      deliverError (attachedListeners
          (executeCommandSpawn threeLineRegistry (some 7) openProcess 0 0))
        = ErrorDelivery.handled :=
  ⟨fun _ _ _ _ => rfl, fun _ _ _ => rfl, by decide, by decide, by decide, by decide,
    by decide, by decide⟩

/-- C19: for every pid with no active session (never started, or already completed),
sendInputToProcess returns false, writes nothing and leaves both maps unchanged; it
returns true only when the pid has an active session whose input stream exists and is not
destroyed; the completed map is never changed. -/
theorem send_input_inactive_noop (m : Registry) (pid : Int) (input : Str) :
    (m.sessions.lookup pid = none → sendInputToProcess m pid input = (false, m)) ∧
      ((sendInputToProcess m pid input).1 = true →
        ∃ (session : TerminalSession) (stdin : StdinStream),
          m.sessions.lookup pid = some session ∧ session.process.stdin = some stdin ∧
          stdin.destroyed = false) ∧
      ((sendInputToProcess m pid input).1 = false → (sendInputToProcess m pid input).2 = m) ∧
      (sendInputToProcess m pid input).2.completedSessions = m.completedSessions := by
  refine ⟨?_, ?_, ?_, (keys_sendInputToProcess m pid input).2⟩
  · intro h
    simp only [sendInputToProcess, h]
  · intro h
    cases hs : m.sessions.lookup pid with
    | none => simp [sendInputToProcess, hs] at h
    | some session =>
      cases hin : session.process.stdin with
      | none => simp [sendInputToProcess, hs, hin] at h
      | some stdin =>
        cases hd : stdin.destroyed with
        | true => simp [sendInputToProcess, hs, hin, hd] at h
        | false => exact ⟨session, stdin, rfl, hin, hd⟩
  · intro h
    cases hs : m.sessions.lookup pid with
    | none => simp only [sendInputToProcess, hs]
    | some session =>
      cases hin : session.process.stdin with
      | none => simp only [sendInputToProcess, hs, hin]
      | some stdin =>
        cases hd : stdin.destroyed with
        | true => simp [sendInputToProcess, hs, hin, hd]
        | false =>
          cases hw : stdin.writeThrows with
          | true => simp [sendInputToProcess, hs, hin, hd, hw]
          | false => simp [sendInputToProcess, hs, hin, hd, hw] at h

/-- C19 (witness): input sent to the pid 8, which the registry of the three-line session
does not hold. -/
theorem send_input_inactive_noop_witness :
    threeLineRegistry.sessions.lookup 8 = none ∧
      sendInputToProcess threeLineRegistry 8 "ls".toList = (false, threeLineRegistry) :=
  ⟨by decide, (send_input_inactive_noop threeLineRegistry 8 "ls".toList).1 (by decide)⟩

/-- C20 (as stated, refuted): interact_with_process answers a pid that is in
neither map and a pid whose active session has a destroyed input stream with the same
text, 'Error: Failed to send input to process 42. ...'; it is not a 'no session found'
message. -/
theorem interact_same_answer_counterexample :
    emptyRegistry.sessions.lookup 42 = none ∧
      emptyRegistry.completedSessions.lookup 42 = none ∧
      (closedStdinRegistry.sessions.lookup 42).isSome = true ∧
      (interactWithProcessBegin emptyRegistry 42 "ls".toList true false 0 0).1
        = some (sendFailedMessage 42) ∧
      (interactWithProcessBegin closedStdinRegistry 42 "ls".toList true false 0 0).1
        = some (sendFailedMessage 42) ∧
      (interactWithProcessBegin emptyRegistry 42 "ls".toList true false 0 0).1
        = (interactWithProcessBegin closedStdinRegistry 42 "ls".toList true false 0 0).1 ∧
      sendFailedMessage 42
        = ("Error: Failed to send input to process 42. The process may have exited or "
            ++ "doesn't accept input.").toList := by
  decide

/-! ## Input normalisation -/

theorem inputWithNewline_getLast (input : Str) :
    (inputWithNewline input).getLast? = some '\n' := by
  unfold inputWithNewline
  split
  · assumption
  · simp

/-- What an accepted input leaves in the input stream of the session. -/
theorem sendInputToProcess_written (m : Registry) (pid : Int) (input : Str)
    (session : TerminalSession) (stdin : StdinStream)
    (hs : m.sessions.lookup pid = some session) (hin : session.process.stdin = some stdin)
    (hd : stdin.destroyed = false) (hw : stdin.writeThrows = false) :
    (sendInputToProcess m pid input).1 = true ∧
      (sendInputToProcess m pid input).2.sessions.lookup pid
        = some { session with
                 process :=
                   { stdin := some { stdin with
                                     written := stdin.written ++ [inputWithNewline input] } } } := by
  simp only [sendInputToProcess, hs, hin, hd, hw, Bool.false_eq_true, if_false, true_and]
  exact lookup_storeSession _ _ _ _ hs

/-- C21: for every input string, the text sendInputToProcess writes to the child's stdin
is the input itself when it already ends with a newline and the input followed by a
newline otherwise; the written text always ends with a newline, has the input as a
prefix, and normalising twice equals normalising once. -/
theorem trailing_newline_normalisation (input : Str) :
    (input.getLast? = some '\n' → inputWithNewline input = input) ∧
      (input.getLast? ≠ some '\n' → inputWithNewline input = input ++ ['\n']) ∧
      (inputWithNewline input).getLast? = some '\n' ∧
      input <+: inputWithNewline input ∧
      inputWithNewline (inputWithNewline input) = inputWithNewline input ∧
      (∀ (m : Registry) (pid : Int) (session : TerminalSession) (stdin : StdinStream),
        m.sessions.lookup pid = some session → session.process.stdin = some stdin →
        stdin.destroyed = false → stdin.writeThrows = false →
        ∃ after : TerminalSession,
          (sendInputToProcess m pid input).2.sessions.lookup pid = some after ∧
          after.process.stdin
            = some { stdin with written := stdin.written ++ [inputWithNewline input] }) := by
  refine ⟨?_, ?_, inputWithNewline_getLast input, ?_, ?_, ?_⟩
  · intro h
    simp [inputWithNewline, h]
  · intro h
    simp [inputWithNewline, h]
  · unfold inputWithNewline
    split
    · exact List.prefix_refl _
    · exact List.prefix_append _ _
  · have h := inputWithNewline_getLast input
    generalize inputWithNewline input = t at h
    simp [inputWithNewline, h]
  · intro m pid session stdin hs hin hd hw
    exact ⟨_, (sendInputToProcess_written m pid input session stdin hs hin hd hw).2, rfl⟩

/-- C21 (witness): the input `ls` gets a newline, the input `ls` with a newline is written
as it is. -/
theorem trailing_newline_normalisation_witness :
    inputWithNewline "ls".toList = "ls\n".toList ∧
      inputWithNewline "ls\n".toList = "ls\n".toList :=
  ⟨by rw [(trailing_newline_normalisation "ls".toList).2.1 (by decide)]; decide,
    (trailing_newline_normalisation "ls\n".toList).1 (by decide)⟩

/-! ## Snapshot diffing -/

theorem joinLines_nil : joinLines [] = [] := rfl

theorem joinLines_singleton (x : Str) : joinLines [x] = x := by
  simp [joinLines, List.intercalate]

theorem joinLines_cons_cons (x y : Str) (rest : List Str) :
    joinLines (x :: y :: rest) = x ++ '\n' :: joinLines (y :: rest) := by
  simp [joinLines, List.intercalate]

/-- Joining the split of a text gives the text back. -/
theorem joinLines_splitNewline (text : Str) : joinLines (splitNewline text) = text := by
  induction text with
  | nil => simp [splitNewline, joinLines_singleton]
  | cons c cs ih =>
    cases hs : splitNewline cs with
    | nil => exact absurd hs (splitNewline_ne_nil cs)
    | cons l ls =>
      rw [hs] at ih
      by_cases hc : c = '\n'
      · simp only [splitNewline, hc, if_true, hs, joinLines_cons_cons, ih, List.nil_append]
      · simp only [splitNewline, hc, if_false, hs]
        cases ls with
        | nil =>
          rw [joinLines_singleton] at ih
          rw [joinLines_singleton, ih]
        | cons x xs =>
          rw [joinLines_cons_cons] at ih
          rw [joinLines_cons_cons, List.cons_append, ih]

theorem joinLines_continue (ys : List Str) (y p : Str) (ps : List Str) :
    joinLines (ys ++ [y ++ p] ++ ps) = joinLines (ys ++ [y]) ++ joinLines (p :: ps) := by
  induction ys with
  | nil =>
    cases ps with
    | nil => simp [joinLines_singleton]
    | cons q r => simp [joinLines_singleton, joinLines_cons_cons]
  | cons x xs ih =>
    cases xs with
    | nil =>
      cases ps with
      | nil =>
        simp only [List.singleton_append, List.append_nil, List.nil_append,
          joinLines_cons_cons, joinLines_singleton] at ih ⊢
        simp
      | cons q r =>
        simp only [List.singleton_append, List.nil_append, List.cons_append,
          joinLines_cons_cons, joinLines_singleton] at ih ⊢
        simp
    | cons x2 xs2 =>
      simp only [List.cons_append, joinLines_cons_cons] at ih ⊢
      rw [ih]
      simp

/-- A chunk appends its text to the joined output, whatever the buffer holds. -/
theorem joinLines_appendToLineBuffer (s : TerminalSession) (text : Str) :
    joinLines (appendToLineBuffer s text).outputLines = joinLines s.outputLines ++ text := by
  by_cases htext : text = []
  · simp [appendToLineBuffer, htext]
  · cases hp : splitNewline text with
    | nil => exact absurd hp (splitNewline_ne_nil text)
    | cons p ps =>
      have hjoin : joinLines (p :: ps) = text := by
        rw [← hp]
        exact joinLines_splitNewline text
      rcases List.eq_nil_or_concat s.outputLines with h | ⟨ys, y, h⟩
      · simp only [appendToLineBuffer, htext, if_false, h, hp, appendLoop_nil, hjoin,
          joinLines_nil, List.nil_append]
      · have h2 : s.outputLines = ys ++ [y] := by simpa using h
        simp only [appendToLineBuffer, htext, if_false, h2, hp, appendLoop_concat,
          joinLines_continue, hjoin]

theorem joinLines_appendChunks (chunks : List Str) (s : TerminalSession) :
    joinLines (appendChunks s chunks).outputLines = joinLines s.outputLines ++ chunks.flatten := by
  induction chunks generalizing s with
  | nil => simp [appendChunks]
  | cons c cs ih =>
    have h := ih (appendToLineBuffer s c)
    simp only [appendChunks, List.foldl_cons, List.flatten_cons] at h ⊢
    rw [h, joinLines_appendToLineBuffer, List.append_assoc]

/-- The chunks of one session, delivered through the registry, are the chunks appended to
its buffer. -/
theorem runRegistry_chunks (chunks : List Str) (m : Registry) (pid : Int)
    (session : TerminalSession) (hs : m.sessions.lookup pid = some session) :
    (runRegistry m (chunks.map (fun c => RegistryEvent.chunk pid c))).sessions.lookup pid
      = some (appendChunks session chunks) := by
  induction chunks generalizing m session with
  | nil => simpa [runRegistry, appendChunks] using hs
  | cons c cs ih =>
    have hstep : (stepRegistry m (.chunk pid c)).sessions.lookup pid
        = some (appendToLineBuffer session c) := by
      simp only [stepRegistry, hs]
      exact lookup_storeSession _ _ _ _ hs
    have h := ih (stepRegistry m (.chunk pid c)) (appendToLineBuffer session c) hstep
    simpa [runRegistry, appendChunks] using h

/-- C22: for every active session, whatever its buffer holds, if captureOutputSnapshot is
taken and then chunks c1..cn are appended to the buffer, getOutputSinceSnapshot returns
exactly the concatenation c1 + ... + cn (the empty string when nothing was appended),
however the new output was chunked. -/
theorem snapshot_diff_exact (m : Registry) (pid : Int) (session : TerminalSession)
    (chunks : List Str) (hs : m.sessions.lookup pid = some session) :
    ∃ snapshot : Int × Int,
      captureOutputSnapshot m pid = some snapshot ∧
      getOutputSinceSnapshot
          (runRegistry m (chunks.map (fun c => RegistryEvent.chunk pid c))) pid snapshot
        = some chunks.flatten := by
  refine ⟨((joinLines session.outputLines).length, session.outputLines.length), ?_, ?_⟩
  · simp only [captureOutputSnapshot, hs]
  · simp only [getOutputSinceSnapshot, runRegistry_chunks chunks m pid session hs,
      joinLines_appendChunks, List.length_append, Nat.cast_add]
    by_cases hc : chunks.flatten = []
    · simp [hc]
    · have hpos : 0 < chunks.flatten.length := List.length_pos.mpr hc
      have hnle : ¬ ((((joinLines session.outputLines).length : Int)
          + (chunks.flatten.length : Int)) ≤ ((joinLines session.outputLines).length : Int)) := by
        omega
      simp only [hnle, if_false, jsSubstringFrom, List.length_append, Nat.cast_add,
        Option.some.injEq]
      have hk : (min (max ((joinLines session.outputLines).length : Int) 0)
          (((joinLines session.outputLines).length : Int) + (chunks.flatten.length : Int))).toNat
          = (joinLines session.outputLines).length := by omega
      rw [hk, List.drop_left]

/-- C22 (witness): the open line `ab` is in the buffer; the chunks `c`, a newline and `de`
arrive after the snapshot. -/
theorem snapshot_diff_exact_witness :
    ∃ snapshot : Int × Int,
      captureOutputSnapshot openLineRegistry 9 = some snapshot ∧
      getOutputSinceSnapshot
          (runRegistry openLineRegistry
            (["c".toList, "\n".toList, "de".toList].map (fun c => RegistryEvent.chunk 9 c)))
          9 snapshot
        = some (["c".toList, "\n".toList, "de".toList].flatten) :=
  snapshot_diff_exact openLineRegistry 9 { newSession 9 0 with outputLines := ["ab".toList] }
    ["c".toList, "\n".toList, "de".toList] (by decide)

/-! ## Reads of completed sessions -/

/-- C29 (as stated, refuted): after process 5 has exited and its pid was given to a new
process, the pid 5 is in the completed map with the line `old` and exit code 0, and also
in the active map. Cursor-mode reads of pid 5 with length 1 are answered from the active
session: the first returns `x` from line 0 and the second returns `y` from line 1, both
with isComplete = false and no exit code; the completed record is never returned. -/
theorem completed_read_reused_pid_counterexample :
    (runRegistry emptyRegistry reusedPidEvents).completedSessions.lookup 5
        = some { pid := 5, outputLines := ["old".toList], exitCode := some 0, startTime := 0,
                 endTime := 1 } ∧
      ((runRegistry emptyRegistry reusedPidEvents).sessions.lookup 5).isSome = true ∧
      (readOutputPaginated (runRegistry emptyRegistry reusedPidEvents) 5 0 1).1
        = some { lines := ["x".toList], totalLines := 2, readFrom := 0, readCount := 1,
                 remaining := 1, isComplete := false, exitCode := none, runtimeMs := none } ∧
      (readOutputPaginated
          (readOutputPaginated (runRegistry emptyRegistry reusedPidEvents) 5 0 1).2 5 0 1).1
        = some { lines := ["y".toList], totalLines := 2, readFrom := 1, readCount := 1,
                 remaining := 0, isComplete := false, exitCode := none, runtimeMs := none } := by
  decide

/-- C29 (amended): for a pid that is in the completed map and not in the active one, a
cursor-mode read starts at line 0 and changes nothing in the registry, so repeated
cursor-mode reads with the same length >= 0 return the same first min(length, totalLines)
lines, each with isComplete = true, the stored exit code and runtimeMs = endTime -
startTime; a read of a pid that is in the active map, whether or not it is in the
completed map too, is answered from the active session and reports isComplete = false and
no exit code. -/
theorem completed_read_has_no_cursor (m : Registry) (pid offset length : Int) :
    (∀ c : CompletedSession, m.sessions.lookup pid = none →
        m.completedSessions.lookup pid = some c → 0 ≤ length →
        ∃ r : PaginatedOutputResult,
          readOutputPaginated m pid 0 length = (some r, m) ∧
          (readOutputPaginated (readOutputPaginated m pid 0 length).2 pid 0 length).1 = some r ∧
          r.lines = c.outputLines.take length.toNat ∧
          (r.lines.length : Int) = min length c.outputLines.length ∧
          r.readFrom = 0 ∧ r.isComplete = true ∧ r.exitCode = some c.exitCode ∧
          r.runtimeMs = some (c.endTime - c.startTime)) ∧
      (∀ s : TerminalSession, m.sessions.lookup pid = some s →
        ∃ r : PaginatedOutputResult,
          (readOutputPaginated m pid offset length).1 = some r ∧
          r = (readActive s offset length).1 ∧
          r.isComplete = false ∧ r.exitCode = none) := by
  constructor
  · intro c hs hc hlen
    have hread := readOutputPaginated_completed m pid c 0 length hs hc
    have hlines : (readCompleted c 0 length).lines = c.outputLines.take length.toNat := by
      have := readFromLineBuffer_forward_lines c.outputLines 0 length 0 true
        (some c.exitCode) (some (c.endTime - c.startTime)) (le_refl 0) (le_refl 0) hlen
      simpa [readCompleted] using this
    refine ⟨readCompleted c 0 length, hread, ?_, hlines, ?_, ?_, rfl, rfl, rfl⟩
    · rw [hread]
      simp only [hread]
    · rw [hlines]
      simp only [List.length_take]
      omega
    · simp [readCompleted, readFromLineBuffer]
  · intro s hs
    exact ⟨(readActive s offset length).1,
      (readOutputPaginated_active m pid s offset length hs).1, rfl, rfl, rfl⟩

/-- C29 (witness): two cursor-mode reads of length 2 of the completed session 3 give its
first two lines both times. -/
theorem completed_read_has_no_cursor_witness :
    ∃ r : PaginatedOutputResult,
      readOutputPaginated completedRegistry 3 0 2 = (some r, completedRegistry) ∧
      (readOutputPaginated (readOutputPaginated completedRegistry 3 0 2).2 3 0 2).1 = some r ∧
      r.lines = threeLines.take 2 := by
  obtain ⟨r, h1, h2, h3, _⟩ := (completed_read_has_no_cursor completedRegistry 3 0 2).1
    { pid := 3, outputLines := threeLines, exitCode := some 0, startTime := 10, endTime := 50 }
    (by decide) (by decide) (by decide)
  exact ⟨r, h1, h2, h3⟩

/-! ## Shell resolution -/

theorem getShellSpawnArgs_login (basename toLowerCase : Str → Str) (shellPath command : Str)
    (h : (jsIncludes (toLowerCase (basename shellPath)) "bash".toList
        || jsIncludes (toLowerCase (basename shellPath)) "zsh".toList) = true
      ∨ ((jsIncludes (toLowerCase (basename shellPath)) "bash".toList
          || jsIncludes (toLowerCase (basename shellPath)) "zsh".toList) = false
        ∧ toLowerCase (basename shellPath)
          ∉ ["pwsh".toList, "pwsh.exe".toList, "powershell".toList, "powershell.exe".toList,
             "cmd".toList, "cmd.exe".toList]
        ∧ jsIncludes (toLowerCase (basename shellPath)) "fish".toList = true)) :
    getShellSpawnArgs basename toLowerCase shellPath command
      = { executable := shellPath, args := ["-l".toList, "-c".toList, command],
          useShellOption := none } := by
  rcases h with h | ⟨h0, hother, hfish⟩
  · simp only [getShellSpawnArgs, h, if_true]
  · simp only [List.mem_cons, List.mem_singleton, List.not_mem_nil, or_false, not_or] at hother
    obtain ⟨h1, h2, h3, h4, h5, h6⟩ := hother
    simp only [getShellSpawnArgs, h0, hfish, h1, h2, h3, h4, h5, h6, Bool.false_eq_true,
      or_self, if_false, if_true]

theorem getShellSpawnArgs_pwsh (basename toLowerCase : Str → Str) (shellPath command : Str)
    (h0 : (jsIncludes (toLowerCase (basename shellPath)) "bash".toList
        || jsIncludes (toLowerCase (basename shellPath)) "zsh".toList) = false)
    (h : toLowerCase (basename shellPath) = "pwsh".toList
      ∨ toLowerCase (basename shellPath) = "pwsh.exe".toList) :
    getShellSpawnArgs basename toLowerCase shellPath command
      = { executable := shellPath, args := ["-Login".toList, "-Command".toList, command],
          useShellOption := none } := by
  simp only [getShellSpawnArgs, h0, Bool.false_eq_true, if_false, h, if_true]

theorem getShellSpawnArgs_powershell (basename toLowerCase : Str → Str)
    (shellPath command : Str)
    (h0 : (jsIncludes (toLowerCase (basename shellPath)) "bash".toList
        || jsIncludes (toLowerCase (basename shellPath)) "zsh".toList) = false)
    (h1 : ¬ (toLowerCase (basename shellPath) = "pwsh".toList
      ∨ toLowerCase (basename shellPath) = "pwsh.exe".toList))
    (h : toLowerCase (basename shellPath) = "powershell".toList
      ∨ toLowerCase (basename shellPath) = "powershell.exe".toList) :
    getShellSpawnArgs basename toLowerCase shellPath command
      = { executable := shellPath, args := ["-Command".toList, command],
          useShellOption := none } := by
  simp only [getShellSpawnArgs, h0, Bool.false_eq_true, if_false, h1, h, if_true]

theorem getShellSpawnArgs_cmd (basename toLowerCase : Str → Str) (shellPath command : Str)
    (h0 : (jsIncludes (toLowerCase (basename shellPath)) "bash".toList
        || jsIncludes (toLowerCase (basename shellPath)) "zsh".toList) = false)
    (h1 : ¬ (toLowerCase (basename shellPath) = "pwsh".toList
      ∨ toLowerCase (basename shellPath) = "pwsh.exe".toList))
    (h2 : ¬ (toLowerCase (basename shellPath) = "powershell".toList
      ∨ toLowerCase (basename shellPath) = "powershell.exe".toList))
    (h : toLowerCase (basename shellPath) = "cmd".toList
      ∨ toLowerCase (basename shellPath) = "cmd.exe".toList) :
    getShellSpawnArgs basename toLowerCase shellPath command
      = { executable := shellPath,
          args := ["/c".toList, "chcp 65001 >nul && ".toList ++ command],
          useShellOption := none } := by
  simp only [getShellSpawnArgs, h0, Bool.false_eq_true, if_false, h1, h2, h, if_true]

/-- C23: for every shell path whose lower-cased basename is bash, zsh or fish,
getShellSpawnArgs returns the shell path as executable with args -l, -c, command; for
pwsh or pwsh.exe the args -Login, -Command, command; for powershell or powershell.exe the
args -Command, command; for cmd or cmd.exe the args /c and 'chcp 65001 >nul && ' followed
by the command; in each case the shell option is off and the command is unmodified. -/
theorem shell_policy_table (basename toLowerCase : Str → Str) (shellPath command : Str) :
    (toLowerCase (basename shellPath) ∈ ["bash".toList, "zsh".toList, "fish".toList] →
        getShellSpawnArgs basename toLowerCase shellPath command
          = { executable := shellPath, args := ["-l".toList, "-c".toList, command],
              useShellOption := none }) ∧
      (toLowerCase (basename shellPath) ∈ ["pwsh".toList, "pwsh.exe".toList] →
        getShellSpawnArgs basename toLowerCase shellPath command
          = { executable := shellPath,
              args := ["-Login".toList, "-Command".toList, command],
              useShellOption := none }) ∧
      (toLowerCase (basename shellPath) ∈ ["powershell".toList, "powershell.exe".toList] →
        getShellSpawnArgs basename toLowerCase shellPath command
          = { executable := shellPath, args := ["-Command".toList, command],
              useShellOption := none }) ∧
      (toLowerCase (basename shellPath) ∈ ["cmd".toList, "cmd.exe".toList] →
        getShellSpawnArgs basename toLowerCase shellPath command
          = { executable := shellPath,
              args := ["/c".toList, "chcp 65001 >nul && ".toList ++ command],
              useShellOption := none }) := by
  refine ⟨?_, ?_, ?_, ?_⟩ <;> intro h <;>
    simp only [List.mem_cons, List.mem_singleton, List.not_mem_nil, or_false] at h
  · apply getShellSpawnArgs_login
    rcases h with h | h | h <;> rw [h] <;> decide
  · apply getShellSpawnArgs_pwsh
    · rcases h with h | h <;> rw [h] <;> decide
    · exact h
  · apply getShellSpawnArgs_powershell
    · rcases h with h | h <;> rw [h] <;> decide
    · rcases h with h | h <;> rw [h] <;> decide
    · exact h
  · apply getShellSpawnArgs_cmd
    · rcases h with h | h <;> rw [h] <;> decide
    · rcases h with h | h <;> rw [h] <;> decide
    · rcases h with h | h <;> rw [h] <;> decide
    · exact h

/-- C23 (witness): the shell path /usr/bin/BASH, whose lower-cased basename is bash. -/
theorem shell_policy_table_witness :
    asciiLowerCase (posixBasename "/usr/bin/BASH".toList) = "bash".toList ∧
      getShellSpawnArgs posixBasename asciiLowerCase "/usr/bin/BASH".toList "ls -a".toList
        = { executable := "/usr/bin/BASH".toList,
            args := ["-l".toList, "-c".toList, "ls -a".toList], useShellOption := none } :=
  ⟨by decide,
    (shell_policy_table posixBasename asciiLowerCase "/usr/bin/BASH".toList
      "ls -a".toList).1 (by decide)⟩

/-- C24 (as stated, refuted): the lower-cased basename of /bin/rbash is rbash, which is
none of bash, zsh, fish, pwsh, powershell, cmd with or without .exe; getShellSpawnArgs
does not take the generic branch but the one of bash, because rbash contains bash. -/
theorem shell_fall_through_counterexample :
    asciiLowerCase (posixBasename "/bin/rbash".toList) = "rbash".toList ∧
      "rbash".toList ∉ ["bash".toList, "zsh".toList, "fish".toList, "pwsh".toList,
        "powershell".toList, "cmd".toList, "bash.exe".toList, "zsh.exe".toList,
        "fish.exe".toList, "pwsh.exe".toList, "powershell.exe".toList, "cmd.exe".toList] ∧
      getShellSpawnArgs posixBasename asciiLowerCase "/bin/rbash".toList "ls".toList
        = { executable := "/bin/rbash".toList, args := ["-l".toList, "-c".toList, "ls".toList],
            useShellOption := none } ∧
      getShellSpawnArgs posixBasename asciiLowerCase "/bin/rbash".toList "ls".toList
        ≠ { executable := "ls".toList, args := [], useShellOption := some "/bin/rbash".toList } := by
  decide

/-- C24 (amended): getShellSpawnArgs returns a configuration for every shell path and
command, and for every shell path whose lower-cased basename does not contain bash, zsh
or fish and is not one of pwsh, powershell, cmd (with or without a .exe suffix) it takes
the generic branch: the command itself as executable, no args, and the shell path as the
shell option. -/
theorem shell_fall_through (basename toLowerCase : Str → Str) (shellPath command : Str)
    (hbash : jsIncludes (toLowerCase (basename shellPath)) "bash".toList = false)
    (hzsh : jsIncludes (toLowerCase (basename shellPath)) "zsh".toList = false)
    (hfish : jsIncludes (toLowerCase (basename shellPath)) "fish".toList = false)
    (hother : toLowerCase (basename shellPath)
      ∉ ["pwsh".toList, "pwsh.exe".toList, "powershell".toList, "powershell.exe".toList,
         "cmd".toList, "cmd.exe".toList]) :
    getShellSpawnArgs basename toLowerCase shellPath command
      = { executable := command, args := [], useShellOption := some shellPath } := by
  simp only [List.mem_cons, List.mem_singleton, List.not_mem_nil, or_false, not_or] at hother
  obtain ⟨h1, h2, h3, h4, h5, h6⟩ := hother
  simp only [getShellSpawnArgs, hbash, hzsh, hfish, h1, h2, h3, h4, h5, h6, Bool.or_self,
    Bool.false_eq_true, or_self, if_false]

/-- C24 (witness): the shell /bin/sh falls through to the generic branch. -/
theorem shell_fall_through_witness :
    getShellSpawnArgs posixBasename asciiLowerCase "/bin/sh".toList "ls".toList
      = { executable := "ls".toList, args := [], useShellOption := some "/bin/sh".toList } :=
  shell_fall_through posixBasename asciiLowerCase "/bin/sh".toList "ls".toList
    (by decide) (by decide) (by decide) (by decide)

/-! ## Termination -/

/-- C26: forceTerminate(pid) returns false and sends nothing when the pid has no active
session; otherwise it sends the graceful interrupt during the call, returns true and sets
a timer of 1000 ms whose callback sends the forced kill if and only if the pid is in the
active map when it fires. Neither the call nor the timer callback changes the registry. -/
theorem terminate_escalates (isWindows : Bool) (m : Registry) (pid : Int) :
    (m.sessions.lookup pid = none →
        (forceTerminate isWindows m pid).1
          = { result := false, sent := [], timer := none }) ∧
      (∀ session : TerminalSession, m.sessions.lookup pid = some session →
        (forceTerminate isWindows m pid).1.result = true ∧
        (forceTerminate isWindows m pid).1.sent
          = [if isWindows then (pid, TerminateSignal.taskkill)
              else (session.pid, TerminateSignal.SIGINT)] ∧
        (forceTerminate isWindows m pid).1.timer = some (1000, pid) ∧
        ∀ later : Registry,
          ((later.sessions.lookup pid).isSome = true →
            (forceTerminateTimer isWindows session later pid).1
              = [if isWindows then (pid, TerminateSignal.taskkillForce)
                  else (session.pid, TerminateSignal.SIGKILL)]) ∧
          ((later.sessions.lookup pid).isSome = false →
            (forceTerminateTimer isWindows session later pid).1 = []) ∧
          (forceTerminateTimer isWindows session later pid).2 = later) ∧
      (forceTerminate isWindows m pid).2 = m := by
  refine ⟨?_, ?_, ?_⟩
  · intro h
    simp only [forceTerminate, h]
  · intro session hs
    simp only [forceTerminate, hs, GRACE_PERIOD_MS, true_and]
    intro later
    refine ⟨?_, ?_, ?_⟩
    · intro h
      simp only [forceTerminateTimer, h, if_true]
    · intro h
      simp only [forceTerminateTimer, h, Bool.false_eq_true, if_false]
    · unfold forceTerminateTimer
      split <;> rfl
  · unfold forceTerminate
    split <;> rfl

/-- C26 (witness): the session 7 is terminated; one second later it is still registered
and gets the forced kill. -/
theorem terminate_escalates_witness :
    (forceTerminate false threeLineRegistry 7).1
        = { result := true, sent := [(7, TerminateSignal.SIGINT)], timer := some (1000, 7) } ∧
      (forceTerminateTimer false (threeLineSession 0) threeLineRegistry 7).1
        = [(7, TerminateSignal.SIGKILL)] := by
  have h := (terminate_escalates false threeLineRegistry 7).2.1 (threeLineSession 0)
    (by decide)
  exact ⟨by decide, (h.2.2.2 threeLineRegistry).1 (by decide)⟩

/-! ## The quick-prompt pattern -/

theorem matchesPromptAt_single (c : Char) (rest : Str) :
    matchesPromptAt [c] rest = true ↔ ∃ r, rest = c :: r ∧ ∀ x ∈ r, isJsWhitespace x = true := by
  cases rest with
  | nil => simp [matchesPromptAt, List.isPrefixOf]
  | cons d r =>
    simp only [matchesPromptAt, List.isPrefixOf, Bool.and_true, List.length_singleton,
      List.drop_succ_cons, List.drop_zero, Bool.and_eq_true, beq_iff_eq, List.all_eq_true,
      List.cons.injEq]
    constructor
    · rintro ⟨h1, h2⟩
      exact ⟨r, ⟨h1.symm, rfl⟩, h2⟩
    · rintro ⟨r2, ⟨h1, h2⟩, h3⟩
      subst h2
      exact ⟨h1.symm, h3⟩

theorem matchesPromptAt_triple (rest : Str) (h : matchesPromptAt ">>>".toList rest = true) :
    ∃ r, rest = '>' :: '>' :: '>' :: r ∧ ∀ x ∈ r, isJsWhitespace x = true := by
  have hlit : ">>>".toList = ['>', '>', '>'] := rfl
  rw [hlit] at h
  match rest, h with
  | a :: b :: c :: r, h =>
    simp only [matchesPromptAt, List.isPrefixOf, Bool.and_true, List.length_cons,
      List.length_nil, List.drop_succ_cons, List.drop_zero, Bool.and_eq_true, beq_iff_eq,
      List.all_eq_true] at h
    obtain ⟨⟨h1, h2, h3⟩, h4⟩ := h
    exact ⟨r, by rw [← h1, ← h2, ← h3], h4⟩
  | [], h => simp [matchesPromptAt, List.isPrefixOf] at h
  | [a], h => simp [matchesPromptAt, List.isPrefixOf] at h
  | [a, b], h => simp [matchesPromptAt, List.isPrefixOf] at h

theorem endsWithPrompt_of_suffix (text rest : Str) (c : Char) (r : Str)
    (hsuf : rest <:+ text) (hrest : rest = c :: r) (hc : c ∈ promptChars)
    (hr : ∀ x ∈ r, isJsWhitespace x = true) : endsWithPrompt text := by
  obtain ⟨pre, hpre⟩ := hsuf
  exact ⟨pre, c, r, by rw [← hpre, hrest], hc, hr⟩

theorem matchesPromptAt_of_promptChar (c : Char) (r : Str) (hc : c ∈ promptChars)
    (hr : ∀ x ∈ r, isJsWhitespace x = true) :
    (matchesPromptAt ">".toList (c :: r) || matchesPromptAt "$".toList (c :: r)
      || matchesPromptAt "#".toList (c :: r)) = true := by
  have h1 : ">".toList = ['>'] := rfl
  have h2 : "$".toList = ['$'] := rfl
  have h3 : "#".toList = ['#'] := rfl
  simp only [promptChars, List.mem_cons, List.mem_singleton, List.not_mem_nil, or_false] at hc
  simp only [Bool.or_eq_true, h1, h2, h3, matchesPromptAt_single]
  rcases hc with h | h | h
  · exact Or.inl (Or.inl ⟨r, by rw [h], hr⟩)
  · exact Or.inl (Or.inr ⟨r, by rw [h], hr⟩)
  · exact Or.inr ⟨r, by rw [h], hr⟩

theorem quickPromptSingle_iff (text : Str) :
    quickPromptSingle text = true ↔ endsWithPrompt text := by
  have h1 : ">".toList = ['>'] := rfl
  have h2 : "$".toList = ['$'] := rfl
  have h3 : "#".toList = ['#'] := rfl
  constructor
  · intro h
    simp only [quickPromptSingle, List.any_eq_true, List.mem_tails, Bool.or_eq_true, h1, h2,
      h3, matchesPromptAt_single] at h
    obtain ⟨rest, hsuf, hm⟩ := h
    rcases hm with (⟨r, hr1, hr2⟩ | ⟨r, hr1, hr2⟩) | ⟨r, hr1, hr2⟩
    · exact endsWithPrompt_of_suffix text rest _ r hsuf hr1 (by decide) hr2
    · exact endsWithPrompt_of_suffix text rest _ r hsuf hr1 (by decide) hr2
    · exact endsWithPrompt_of_suffix text rest _ r hsuf hr1 (by decide) hr2
  · rintro ⟨pre, c, r, htext, hc, hr⟩
    simp only [quickPromptSingle, List.any_eq_true, List.mem_tails]
    exact ⟨c :: r, ⟨pre, htext.symm⟩, matchesPromptAt_of_promptChar c r hc hr⟩

theorem quickPromptPatterns_iff (text : Str) :
    quickPromptPatterns text = true ↔ endsWithPrompt text := by
  have h1 : ">".toList = ['>'] := rfl
  have h2 : "$".toList = ['$'] := rfl
  have h3 : "#".toList = ['#'] := rfl
  constructor
  · intro h
    simp only [quickPromptPatterns, List.any_eq_true, List.mem_tails, Bool.or_eq_true] at h
    obtain ⟨rest, hsuf, hm⟩ := h
    rcases hm with ((htriple | hm) | hm) | hm
    · obtain ⟨r, hr1, hr2⟩ := matchesPromptAt_triple rest htriple
      obtain ⟨pre, hpre⟩ := hsuf
      refine ⟨pre ++ ['>', '>'], '>', r, ?_, by decide, hr2⟩
      rw [← hpre, hr1]
      simp
    · rw [h1, matchesPromptAt_single] at hm
      obtain ⟨r, hr1, hr2⟩ := hm
      exact endsWithPrompt_of_suffix text rest _ r hsuf hr1 (by decide) hr2
    · rw [h2, matchesPromptAt_single] at hm
      obtain ⟨r, hr1, hr2⟩ := hm
      exact endsWithPrompt_of_suffix text rest _ r hsuf hr1 (by decide) hr2
    · rw [h3, matchesPromptAt_single] at hm
      obtain ⟨r, hr1, hr2⟩ := hm
      exact endsWithPrompt_of_suffix text rest _ r hsuf hr1 (by decide) hr2
  · rintro ⟨pre, c, r, htext, hc, hr⟩
    simp only [quickPromptPatterns, List.any_eq_true, List.mem_tails]
    refine ⟨c :: r, ⟨pre, htext.symm⟩, ?_⟩
    have := matchesPromptAt_of_promptChar c r hc hr
    simp only [Bool.or_eq_true] at this ⊢
    rcases this with (h | h) | h
    · exact Or.inl (Or.inl (Or.inr h))
    · exact Or.inl (Or.inr h)
    · exact Or.inr h

theorem promptChar_not_whitespace (c : Char) (hc : c ∈ promptChars) :
    isJsWhitespace c = false := by
  simp only [promptChars, List.mem_cons, List.mem_singleton, List.not_mem_nil, or_false] at hc
  rcases hc with h | h | h <;> rw [h] <;> decide

/-- Ending with a prompt character and whitespace is the same as having a prompt
character last once the trailing whitespace is removed. -/
theorem endsWithPrompt_iff_strip (text : Str) :
    endsWithPrompt text ↔
      ∃ c, c ∈ promptChars ∧ (stripTrailingWhitespace text).getLast? = some c := by
  constructor
  · rintro ⟨pre, c, r, htext, hc, hr⟩
    refine ⟨c, hc, ?_⟩
    have hrev : text.reverse = r.reverse ++ c :: pre.reverse := by
      rw [htext]
      simp
    have hdrop : text.reverse.dropWhile isJsWhitespace = c :: pre.reverse := by
      rw [hrev, List.dropWhile_append_of_pos (fun a ha => hr a (List.mem_reverse.mp ha)),
        List.dropWhile_cons_of_neg (by simp [promptChar_not_whitespace c hc])]
    simp [stripTrailingWhitespace, hdrop]
  · rintro ⟨c, hc, hlast⟩
    simp only [stripTrailingWhitespace, List.getLast?_reverse] at hlast
    obtain ⟨q, hq⟩ := List.head?_eq_some_iff.mp hlast
    have hsplit := List.takeWhile_append_dropWhile isJsWhitespace text.reverse
    rw [hq] at hsplit
    refine ⟨q.reverse, c, (text.reverse.takeWhile isJsWhitespace).reverse, ?_, hc, ?_⟩
    · have := congrArg List.reverse hsplit
      simp only [List.reverse_append, List.reverse_cons, List.reverse_reverse,
        List.append_assoc, List.singleton_append] at this
      exact this.symm
    · intro x hx
      exact List.mem_takeWhile_imp (List.mem_reverse.mp hx)

/-- C28: the quick-prompt test succeeds exactly when the chunk, after removing all its
trailing whitespace (the characters of `\s`: spaces, tabs, newlines and the other
JavaScript white space and line ends), ends with '>', '$' or '#'; the '>>>' alternative
adds no matches; and a chunk whose last non-whitespace character is anything else, such
as 'Enter name: ', does not trigger it. -/
theorem quick_prompt_semantics (text : Str) :
    (quickPromptPatterns text = true ↔
        ∃ c, c ∈ ['>', '$', '#'] ∧ (stripTrailingWhitespace text).getLast? = some c) ∧
      quickPromptPatterns text = quickPromptSingle text ∧
      (∀ c, (stripTrailingWhitespace text).getLast? = some c → c ∉ ['>', '$', '#'] →
        quickPromptPatterns text = false) ∧
      ((stripTrailingWhitespace text).getLast? = none → quickPromptPatterns text = false) ∧
      (isJsWhitespace ' ' = true ∧ isJsWhitespace '\t' = true ∧ isJsWhitespace '\n' = true) ∧
      quickPromptPatterns "Enter name: ".toList = false := by
  have hiff : quickPromptPatterns text = true ↔
      ∃ c, c ∈ ['>', '$', '#'] ∧ (stripTrailingWhitespace text).getLast? = some c :=
    (quickPromptPatterns_iff text).trans (endsWithPrompt_iff_strip text)
  refine ⟨hiff, ?_, ?_, ?_, by decide, by decide⟩
  · rw [Bool.eq_iff_iff]
    exact (quickPromptPatterns_iff text).trans (quickPromptSingle_iff text).symm
  · intro c hlast hc
    rw [← Bool.not_eq_true]
    intro h
    obtain ⟨d, hd, hlast2⟩ := hiff.mp h
    rw [hlast] at hlast2
    exact hc (by rw [Option.some.inj hlast2]; exact hd)
  · intro hlast
    rw [← Bool.not_eq_true]
    intro h
    obtain ⟨d, _, hlast2⟩ := hiff.mp h
    rw [hlast] at hlast2
    exact absurd hlast2 (by simp)

/-- C28 (witness): the chunk `>>> ` ends with '>' once its trailing space is removed; the
chunk `Enter name: ` ends with ':'. -/
theorem quick_prompt_semantics_witness :
    quickPromptPatterns ">>> ".toList = true ∧
      quickPromptPatterns "Enter name: ".toList = false :=
  ⟨(quick_prompt_semantics ">>> ".toList).1.mpr ⟨'>', by decide, by decide⟩,
    (quick_prompt_semantics "Enter name: ".toList).2.2.1 ':' (by decide) (by decide)⟩

/-! ## The wait of `interact_with_process` -/

theorem maxAttemptsFor_ceil (timeout_ms : Int) :
    timeout_ms ≤ 50 * maxAttemptsFor timeout_ms ∧
      50 * (maxAttemptsFor timeout_ms - 1) < timeout_ms := by
  simp only [maxAttemptsFor, POLL_INTERVAL_MS]
  omega

/-- An unresolved callback run either resolves the wait or counts one more attempt that
is still below the bound. -/
theorem pollTick_step (analyzeProcessState : Str → Int → ProcessState)
    (pid maxAttempts : Int) (st : PollState) (newOutput : Option Str)
    (h : st.resolved = false) :
    (pollTick analyzeProcessState pid maxAttempts st newOutput).resolved = true ∨
      ((pollTick analyzeProcessState pid maxAttempts st newOutput).resolved = false ∧
        (pollTick analyzeProcessState pid maxAttempts st newOutput).attempts
          = st.attempts + 1 ∧
        st.attempts + 1 < maxAttempts) := by
  have hcount : ∀ s : PollState, s.resolved = false → s.attempts = st.attempts →
      (countAttempt maxAttempts s).resolved = true ∨
        ((countAttempt maxAttempts s).resolved = false ∧
          (countAttempt maxAttempts s).attempts = st.attempts + 1 ∧
          st.attempts + 1 < maxAttempts) := by
    intro s hs ha
    unfold countAttempt
    split
    · exact Or.inl rfl
    · next hlt =>
      right
      exact ⟨hs, by simp [ha], by omega⟩
  unfold pollTick
  simp only [h, Bool.false_eq_true, if_false]
  split
  · exact hcount st h rfl
  · split
    · split
      · exact Or.inl rfl
      · split
        · exact Or.inl rfl
        · exact hcount _ rfl rfl
    · exact hcount st h rfl

/-- A callback run that sees no state counts the attempt and resolves with the reason
`timeout` exactly when the bound is reached. -/
theorem pollTick_noState (analyzeProcessState : Str → Int → ProcessState)
    (pid maxAttempts : Int) (st : PollState) (newOutput : Option Str)
    (h : st.resolved = false)
    (hq : ∀ out, newOutput = some out →
      (analyzeProcessState out pid).isWaitingForInput = false ∧
        (analyzeProcessState out pid).isFinished = false) :
    (pollTick analyzeProcessState pid maxAttempts st newOutput).attempts = st.attempts + 1 ∧
      (st.attempts + 1 < maxAttempts →
        (pollTick analyzeProcessState pid maxAttempts st newOutput).resolved = false) ∧
      (maxAttempts ≤ st.attempts + 1 →
        (pollTick analyzeProcessState pid maxAttempts st newOutput).resolved = true ∧
        (pollTick analyzeProcessState pid maxAttempts st newOutput).exitReason
          = "timeout".toList) := by
  have hcount : ∀ s : PollState, s.resolved = false → s.attempts = st.attempts →
      (countAttempt maxAttempts s).attempts = st.attempts + 1 ∧
        (st.attempts + 1 < maxAttempts → (countAttempt maxAttempts s).resolved = false) ∧
        (maxAttempts ≤ st.attempts + 1 →
          (countAttempt maxAttempts s).resolved = true ∧
          (countAttempt maxAttempts s).exitReason = "timeout".toList) := by
    intro s hs ha
    unfold countAttempt
    split
    · next hge => exact ⟨by simp [ha], fun hlt => by omega, fun _ => ⟨rfl, rfl⟩⟩
    · next hlt => exact ⟨by simp [ha], fun _ => hs, fun hge => by omega⟩
  unfold pollTick
  simp only [h, Bool.false_eq_true, if_false]
  cases newOutput with
  | none => exact hcount st h rfl
  | some out =>
    have hq2 := hq out rfl
    simp only
    split
    · simp only [hq2.1, hq2.2, Bool.false_eq_true, if_false]
      exact hcount _ rfl rfl
    · exact hcount st h rfl

theorem runWait_inactive (analyzeProcessState : Str → Int → ProcessState)
    (pid timeout_ms : Int) (outputs : List (Option Str)) (st : WaitState)
    (h : st.intervalActive = false) :
    runWait analyzeProcessState pid timeout_ms st outputs = st := by
  induction outputs with
  | nil => rfl
  | cons o os ih =>
    have hstep : waitTick analyzeProcessState pid timeout_ms st o = st := by
      simp [waitTick, h]
    simp only [runWait, List.foldl_cons, hstep] at ih ⊢
    exact ih

theorem waitTick_consistent (analyzeProcessState : Str → Int → ProcessState)
    (pid timeout_ms : Int) (st : WaitState) (newOutput : Option Str)
    (h : waitConsistent st) :
    waitConsistent (waitTick analyzeProcessState pid timeout_ms st newOutput) := by
  obtain ⟨h1, h2⟩ := h
  cases hr : st.poll.resolved with
  | true =>
    rw [hr] at h1 h2
    have hstep : waitTick analyzeProcessState pid timeout_ms st newOutput = st := by
      simp [waitTick, h1]
    rw [hstep]
    exact ⟨by rw [h1, hr], by rw [h2, hr]⟩
  | false =>
    rw [hr] at h1 h2
    simp only [Bool.not_false] at h1
    simp only [Bool.false_eq_true, if_false] at h2
    cases hn : (pollTick analyzeProcessState pid (maxAttemptsFor timeout_ms) st.poll
        newOutput).resolved with
    | true => simp [waitTick, h1, hn, hr, waitConsistent, h2]
    | false => simp [waitTick, h1, hn, hr, waitConsistent, h2]

theorem runWait_consistent (analyzeProcessState : Str → Int → ProcessState)
    (pid timeout_ms : Int) (outputs : List (Option Str)) (st : WaitState)
    (h : waitConsistent st) :
    waitConsistent (runWait analyzeProcessState pid timeout_ms st outputs) := by
  induction outputs generalizing st with
  | nil => exact h
  | cons o os ih => exact ih _ (waitTick_consistent analyzeProcessState pid timeout_ms st o h)

/-- The wait whose ticks see no state: it stays unresolved below the bound and resolves
with the reason `timeout` at the tick that reaches it. -/
theorem runWait_noState (analyzeProcessState : Str → Int → ProcessState)
    (pid timeout_ms : Int) (outputs : List (Option Str)) (st : WaitState)
    (hres : st.poll.resolved = false) (hact : st.intervalActive = true)
    (hq : noStateSeen analyzeProcessState pid outputs) :
    ((outputs.length : Int) < max 1 (maxAttemptsFor timeout_ms - st.poll.attempts) →
        (runWait analyzeProcessState pid timeout_ms st outputs).poll.resolved = false ∧
        (runWait analyzeProcessState pid timeout_ms st outputs).intervalActive = true ∧
        (runWait analyzeProcessState pid timeout_ms st outputs).ticks
          = st.ticks + outputs.length) ∧
      (max 1 (maxAttemptsFor timeout_ms - st.poll.attempts) ≤ (outputs.length : Int) →
        (runWait analyzeProcessState pid timeout_ms st outputs).poll.resolved = true ∧
        (runWait analyzeProcessState pid timeout_ms st outputs).poll.exitReason
          = "timeout".toList ∧
        ((runWait analyzeProcessState pid timeout_ms st outputs).ticks : Int)
          = st.ticks + max 1 (maxAttemptsFor timeout_ms - st.poll.attempts)) := by
  induction outputs generalizing st with
  | nil =>
    constructor
    · intro _
      exact ⟨hres, hact, rfl⟩
    · intro h
      simp only [List.length_nil, Nat.cast_zero] at h
      omega
  | cons o os ih =>
    have hqo : ∀ out, o = some out →
        (analyzeProcessState out pid).isWaitingForInput = false ∧
          (analyzeProcessState out pid).isFinished = false :=
      fun out ho => hq o (List.mem_cons_self _ _) out ho
    have hqos : noStateSeen analyzeProcessState pid os :=
      fun x hx out ho => hq x (List.mem_cons_of_mem _ hx) out ho
    have htick := pollTick_noState analyzeProcessState pid (maxAttemptsFor timeout_ms) st.poll
      o hres hqo
    have hrun : runWait analyzeProcessState pid timeout_ms st (o :: os)
        = runWait analyzeProcessState pid timeout_ms
            (waitTick analyzeProcessState pid timeout_ms st o) os := rfl
    rw [hrun]
    simp only [List.length_cons, Nat.cast_add, Nat.cast_one]
    by_cases hlt : st.poll.attempts + 1 < maxAttemptsFor timeout_ms
    · have hnr := htick.2.1 hlt
      have hstep : waitTick analyzeProcessState pid timeout_ms st o
          = { st with
              poll := pollTick analyzeProcessState pid (maxAttemptsFor timeout_ms) st.poll o,
              ticks := st.ticks + 1 } := by
        simp [waitTick, hact, hnr]
      have h2 := ih (waitTick analyzeProcessState pid timeout_ms st o)
        (by rw [hstep]; exact hnr) (by rw [hstep]; exact hact) hqos
      have hatt : (waitTick analyzeProcessState pid timeout_ms st o).poll.attempts
          = st.poll.attempts + 1 := by
        rw [hstep]
        exact htick.1
      have htk : (waitTick analyzeProcessState pid timeout_ms st o).ticks = st.ticks + 1 := by
        rw [hstep]
      rw [hatt, htk] at h2
      constructor
      · intro h
        obtain ⟨a, b, c⟩ := h2.1 (by omega)
        exact ⟨a, b, by rw [c]; omega⟩
      · intro h
        obtain ⟨a, b, c⟩ := h2.2 (by omega)
        refine ⟨a, b, ?_⟩
        rw [c]
        push_cast
        omega
    · have hge : maxAttemptsFor timeout_ms ≤ st.poll.attempts + 1 := by omega
      have hr := htick.2.2 hge
      have hstep : waitTick analyzeProcessState pid timeout_ms st o
          = { poll := pollTick analyzeProcessState pid (maxAttemptsFor timeout_ms) st.poll o,
              intervalActive := false, resolveCalls := st.resolveCalls + 1,
              ticks := st.ticks + 1 } := by
        simp [waitTick, hact, hr.1, hres]
      rw [runWait_inactive _ _ _ _ _ (by rw [hstep]), hstep]
      constructor
      · intro h
        omega
      · intro _
        refine ⟨hr.1, hr.2, ?_⟩
        push_cast
        omega

/-- Whatever the ticks see, the wait is resolved once the number of ticks reaches the
bound, and no callback runs after that. -/
theorem runWait_bound (analyzeProcessState : Str → Int → ProcessState)
    (pid timeout_ms : Int) (outputs : List (Option Str)) (st : WaitState)
    (hres : st.poll.resolved = false) (hact : st.intervalActive = true)
    (hlen : max 1 (maxAttemptsFor timeout_ms - st.poll.attempts) ≤ (outputs.length : Int)) :
    (runWait analyzeProcessState pid timeout_ms st outputs).poll.resolved = true ∧
      ((runWait analyzeProcessState pid timeout_ms st outputs).ticks : Int)
        ≤ st.ticks + max 1 (maxAttemptsFor timeout_ms - st.poll.attempts) := by
  induction outputs generalizing st with
  | nil =>
    simp only [List.length_nil, Nat.cast_zero] at hlen
    omega
  | cons o os ih =>
    have hrun : runWait analyzeProcessState pid timeout_ms st (o :: os)
        = runWait analyzeProcessState pid timeout_ms
            (waitTick analyzeProcessState pid timeout_ms st o) os := rfl
    rw [hrun]
    simp only [List.length_cons, Nat.cast_add, Nat.cast_one] at hlen
    rcases pollTick_step analyzeProcessState pid (maxAttemptsFor timeout_ms) st.poll o hres
      with hr | ⟨hnr, hatt, hlt⟩
    · have hstep : waitTick analyzeProcessState pid timeout_ms st o
          = { poll := pollTick analyzeProcessState pid (maxAttemptsFor timeout_ms) st.poll o,
              intervalActive := false, resolveCalls := st.resolveCalls + 1,
              ticks := st.ticks + 1 } := by
        simp [waitTick, hact, hr, hres]
      rw [runWait_inactive _ _ _ _ _ (by rw [hstep]), hstep]
      refine ⟨hr, ?_⟩
      push_cast
      omega
    · have hstep : waitTick analyzeProcessState pid timeout_ms st o
          = { st with
              poll := pollTick analyzeProcessState pid (maxAttemptsFor timeout_ms) st.poll o,
              ticks := st.ticks + 1 } := by
        simp [waitTick, hact, hnr]
      have hatt2 : (waitTick analyzeProcessState pid timeout_ms st o).poll.attempts
          = st.poll.attempts + 1 := by
        rw [hstep]
        exact hatt
      have htk : (waitTick analyzeProcessState pid timeout_ms st o).ticks = st.ticks + 1 := by
        rw [hstep]
      have h2 := ih (waitTick analyzeProcessState pid timeout_ms st o)
        (by rw [hstep]; exact hnr) (by rw [hstep]; exact hact) (by rw [hatt2]; omega)
      rw [hatt2, htk] at h2
      refine ⟨h2.1, ?_⟩
      have := h2.2
      push_cast at this
      omega

/-- C27: for every integer timeout_ms, the bound of the polling loop is
ceil(timeout_ms / 50), the period of the interval timer being the constant 50 ms; if no
tick observes a waiting-for-input or finished state, the wait is unresolved before tick
max(1, ceil(timeout_ms / 50)) and resolves at that tick with the exit reason 'timeout';
in every case the wait is resolved by that tick, `resolve` is called exactly once, and
the interval timer is cleared exactly when the wait is resolved. -/
theorem interact_wait_bounded (analyzeProcessState : Str → Int → ProcessState)
    (pid timeout_ms : Int) (outputs : List (Option Str)) :
    (POLL_INTERVAL_MS = 50 ∧ timeout_ms ≤ 50 * maxAttemptsFor timeout_ms ∧
        50 * (maxAttemptsFor timeout_ms - 1) < timeout_ms) ∧
      (noStateSeen analyzeProcessState pid outputs →
        ((outputs.length : Int) < max 1 (maxAttemptsFor timeout_ms) →
          (runWait analyzeProcessState pid timeout_ms startWait outputs).poll.resolved
            = false) ∧
        (max 1 (maxAttemptsFor timeout_ms) ≤ (outputs.length : Int) →
          (runWait analyzeProcessState pid timeout_ms startWait outputs).poll.resolved
            = true ∧
          (runWait analyzeProcessState pid timeout_ms startWait outputs).poll.exitReason
            = "timeout".toList ∧
          ((runWait analyzeProcessState pid timeout_ms startWait outputs).ticks : Int)
            = max 1 (maxAttemptsFor timeout_ms))) ∧
      (max 1 (maxAttemptsFor timeout_ms) ≤ (outputs.length : Int) →
        (runWait analyzeProcessState pid timeout_ms startWait outputs).poll.resolved = true ∧
        (runWait analyzeProcessState pid timeout_ms startWait outputs).resolveCalls = 1 ∧
        ((runWait analyzeProcessState pid timeout_ms startWait outputs).ticks : Int)
          ≤ max 1 (maxAttemptsFor timeout_ms)) ∧
      (runWait analyzeProcessState pid timeout_ms startWait outputs).resolveCalls ≤ 1 ∧
      ((runWait analyzeProcessState pid timeout_ms startWait outputs).intervalActive
        = !(runWait analyzeProcessState pid timeout_ms startWait outputs).poll.resolved) := by
  have hcons := runWait_consistent analyzeProcessState pid timeout_ms outputs startWait
    ⟨rfl, rfl⟩
  have hzero : startWait.poll.attempts = 0 := rfl
  have hticks : startWait.ticks = 0 := rfl
  refine ⟨⟨rfl, maxAttemptsFor_ceil timeout_ms⟩, ?_, ?_, ?_, hcons.1⟩
  · intro hq
    have h := runWait_noState analyzeProcessState pid timeout_ms outputs startWait rfl rfl hq
    rw [hzero, hticks, sub_zero] at h
    refine ⟨fun hlt => (h.1 hlt).1, fun hge => ?_⟩
    obtain ⟨a, b, c⟩ := h.2 hge
    refine ⟨a, b, ?_⟩
    rw [c]
    simp
  · intro hge
    have h := runWait_bound analyzeProcessState pid timeout_ms outputs startWait rfl rfl
      (by rw [hzero, sub_zero]; exact hge)
    rw [hzero, hticks, sub_zero] at h
    refine ⟨h.1, ?_, ?_⟩
    · rw [hcons.2, h.1]
      rfl
    · have := h.2
      simpa using this
  · rw [hcons.2]
    split <;> omega

/-- C27 (witness): a timeout of 120 ms gives the bound 3; four ticks of a process that
keeps running resolve the wait at tick 3 with the reason `timeout`. -/
theorem interact_wait_bounded_witness :
    (runWait stillRunning 7 120 startWait [none, some "x".toList, none, none]).poll.resolved
        = true ∧
      (runWait stillRunning 7 120 startWait [none, some "x".toList, none, none]).poll.exitReason
        = "timeout".toList ∧
      ((runWait stillRunning 7 120 startWait [none, some "x".toList, none, none]).ticks : Int)
        = max 1 (maxAttemptsFor 120) :=
  ((interact_wait_bounded stillRunning 7 120 [none, some "x".toList, none, none]).2.1
    (fun _ _ _ _ => ⟨rfl, rfl⟩)).2 (by decide)

/-! ## The responses of `interact_with_process` to a failed and to an accepted input -/

theorem sendFailedMessage_head (pid : Int) : (sendFailedMessage pid).head? = some 'E' := rfl

/-- Every response built after the wait begins with the check mark. -/
theorem interactResponse_head (formatProcessStateMessage : ProcessState → Int → Str)
    (pid : Int) (cleanOutput : Str) (processState : ProcessState)
    (earlyExit verbose_timing : Bool) (startTime endTime : Int) (exitReason : Str) :
    (interactResponse formatProcessStateMessage pid cleanOutput processState earlyExit
      verbose_timing startTime endTime exitReason).head? = some '✅' := by
  have h : ∀ rest : Str,
      ("✅ Input executed in process ".toList ++ rest).head? = some '✅' := fun _ => rfl
  simp only [interactResponse]
  split_ifs <;> simp only [List.append_assoc] <;> exact h _

/-- The text that `interact_with_process` returns at once, if it does, after an accepted
input begins with the check mark. -/
theorem interactWithProcessBegin_head (m : Registry) (pid : Int) (input : Str)
    (wait_for_prompt verbose_timing : Bool) (startTime endTime : Int) (text : Str)
    (hsent : (sendInputToProcess m pid input).1 = true)
    (h : (interactWithProcessBegin m pid input wait_for_prompt verbose_timing startTime
      endTime).1 = some text) :
    text.head? = some '✅' := by
  simp only [interactWithProcessBegin, hsent, Bool.true_eq_false, if_false] at h
  cases wait_for_prompt with
  | true => simp at h
  | false =>
    simp only [if_true, Option.some.injEq] at h
    rw [← h]
    simp only [List.append_assoc]
    have h2 : ∀ rest : Str, ("✅ Input sent to process ".toList ++ rest).head? = some '✅' :=
      fun _ => rfl
    exact h2 _

/-- A failed send ends the tool at once with the failure text. -/
theorem interactWithProcess_failed (analyzeProcessState : Str → Int → ProcessState)
    (cleanProcessOutput : Str → Str → Str)
    (formatProcessStateMessage : ProcessState → Int → Str)
    (m : Registry) (pid : Int) (input : Str) (timeout_ms : Int)
    (wait_for_prompt verbose_timing : Bool) (startTime endTime : Int)
    (ticks : List (Option Str)) (h : (sendInputToProcess m pid input).1 = false) :
    (interactWithProcessBegin m pid input wait_for_prompt verbose_timing startTime
        endTime).1 = some (sendFailedMessage pid) ∧
      interactWithProcess analyzeProcessState cleanProcessOutput formatProcessStateMessage m
        pid input timeout_ms wait_for_prompt verbose_timing startTime endTime ticks
        = some (sendFailedMessage pid) := by
  have hb : (interactWithProcessBegin m pid input wait_for_prompt verbose_timing startTime
      endTime).1 = some (sendFailedMessage pid) := by
    simp only [interactWithProcessBegin, h, if_true]
  refine ⟨hb, ?_⟩
  simp only [interactWithProcess, hb]

/-- C20 (amended): interact_with_process gives one and the same response, 'Error: Failed
to send input to process <pid>. The process may have exited or doesn't accept input.',
for a pid present in no active session (hence for a pid in neither registry) and for a
pid with an active session whose input stream is missing or destroyed. This response
differs from every response to an input that was accepted, with or without the wait for
the prompt: such a response begins with a check mark, whatever the timeout, the outputs
seen by the polling ticks, the process state detected and the functions of the module
process-detection; and after an accepted input a response is given as soon as the caller
does not wait or the ticks reach max(1, ceil(timeout_ms / 50)). -/
theorem interact_send_failure_response (analyzeProcessState : Str → Int → ProcessState)
    (cleanProcessOutput : Str → Str → Str)
    (formatProcessStateMessage : ProcessState → Int → Str)
    (m : Registry) (pid : Int) (input : Str) (timeout_ms : Int)
    (wait_for_prompt verbose_timing : Bool) (startTime endTime : Int)
    (ticks : List (Option Str)) :
    (m.sessions.lookup pid = none →
        (interactWithProcessBegin m pid input wait_for_prompt verbose_timing startTime
          endTime).1 = some (sendFailedMessage pid) ∧
        interactWithProcess analyzeProcessState cleanProcessOutput formatProcessStateMessage
          m pid input timeout_ms wait_for_prompt verbose_timing startTime endTime ticks
          = some (sendFailedMessage pid)) ∧
      (∀ session : TerminalSession, m.sessions.lookup pid = some session →
        (session.process.stdin = none ∨
          ∃ stdin, session.process.stdin = some stdin ∧ stdin.destroyed = true) →
        (interactWithProcessBegin m pid input wait_for_prompt verbose_timing startTime
          endTime).1 = some (sendFailedMessage pid) ∧
        interactWithProcess analyzeProcessState cleanProcessOutput formatProcessStateMessage
          m pid input timeout_ms wait_for_prompt verbose_timing startTime endTime ticks
          = some (sendFailedMessage pid)) ∧
      ((sendInputToProcess m pid input).1 = true →
        (interactWithProcessBegin m pid input wait_for_prompt verbose_timing startTime
          endTime).1 ≠ some (sendFailedMessage pid) ∧
        (∀ text : Str,
          interactWithProcess analyzeProcessState cleanProcessOutput
            formatProcessStateMessage m pid input timeout_ms wait_for_prompt verbose_timing
            startTime endTime ticks = some text →
          text.head? = some '✅' ∧ ∀ other : Int, text ≠ sendFailedMessage other) ∧
        ((wait_for_prompt = false ∨
            max 1 (maxAttemptsFor timeout_ms) ≤ (ticks.length : Int)) →
          (interactWithProcess analyzeProcessState cleanProcessOutput
            formatProcessStateMessage m pid input timeout_ms wait_for_prompt verbose_timing
            startTime endTime ticks).isSome = true)) := by
  have hdiffer : ∀ text : Str, text.head? = some '✅' →
      ∀ other : Int, text ≠ sendFailedMessage other := by
    intro text htext other heq
    rw [heq, sendFailedMessage_head] at htext
    exact absurd htext (by decide)
  refine ⟨?_, ?_, ?_⟩
  · intro h
    apply interactWithProcess_failed
    simp only [sendInputToProcess, h]
  · intro session hs hclosed
    apply interactWithProcess_failed
    rcases hclosed with hnone | ⟨stdin, hsome, hd⟩
    · simp only [sendInputToProcess, hs, hnone]
    · simp [sendInputToProcess, hs, hsome, hd]
  · intro hsent
    refine ⟨?_, ?_, ?_⟩
    · intro heq
      have hhead := interactWithProcessBegin_head m pid input wait_for_prompt verbose_timing
        startTime endTime _ hsent heq
      exact hdiffer _ hhead pid rfl
    · intro text htext
      have hhead : text.head? = some '✅' := by
        cases hb : (interactWithProcessBegin m pid input wait_for_prompt verbose_timing
            startTime endTime).1 with
        | some t =>
          simp only [interactWithProcess, hb, Option.some.injEq] at htext
          rw [← htext]
          exact interactWithProcessBegin_head m pid input wait_for_prompt verbose_timing
            startTime endTime t hsent hb
        | none =>
          simp only [interactWithProcess, hb] at htext
          split at htext
          · simp only [Option.some.injEq] at htext
            rw [← htext]
            exact interactResponse_head _ _ _ _ _ _ _ _ _
          · exact absurd htext (by simp)
      exact ⟨hhead, hdiffer text hhead⟩
    · intro hready
      cases hb : (interactWithProcessBegin m pid input wait_for_prompt verbose_timing
          startTime endTime).1 with
      | some t => simp only [interactWithProcess, hb, Option.isSome_some]
      | none =>
        rcases hready with hw | hlen
        · simp [interactWithProcessBegin, hsent, hw] at hb
        · have hres := (runWait_bound analyzeProcessState pid timeout_ms ticks startWait
            rfl rfl (by simpa [startWait, initialPollState] using hlen)).1
          simp only [interactWithProcess, hb, hres, if_true, Option.isSome_some]

/-- C20 (witness): with the wait for the prompt asked for, a timeout of 120 ms and three
ticks, the pid 42 whose active session has a destroyed input stream gets the failure
text, and the pid 9 whose session accepts the input gets a response. -/
theorem interact_send_failure_response_witness :
    interactWithProcess stillRunning (fun out _ => out) (fun _ _ => []) closedStdinRegistry
          42 "ls".toList 120 true false 0 0 [none, none, none]
        = some (sendFailedMessage 42) ∧
      (sendInputToProcess openLineRegistry 9 "ls".toList).1 = true ∧
      (interactWithProcess stillRunning (fun out _ => out) (fun _ _ => []) openLineRegistry
          9 "ls".toList 120 true false 0 0 [none, none, none]).isSome = true :=
  ⟨((interact_send_failure_response stillRunning (fun out _ => out) (fun _ _ => [])
      closedStdinRegistry 42 "ls".toList 120 true false 0 0 [none, none, none]).2.1
    { newSession 42 0 with
      process := { stdin := some { destroyed := true, writeThrows := false, written := [] } } }
    (by decide)
    (Or.inr ⟨{ destroyed := true, writeThrows := false, written := [] }, by decide,
      by decide⟩)).2,
   by decide,
   ((interact_send_failure_response stillRunning (fun out _ => out) (fun _ _ => [])
      openLineRegistry 9 "ls".toList 120 true false 0 0 [none, none, none]).2.2
    (by decide)).2.2 (Or.inr (by decide))⟩

/-! ## The response of `interact_with_process` -/

set_option maxRecDepth 1000000 in
/-- C25 (the code at the failing input): a cleaned output of 1001 lines, 1000 empty lines
and then a prompt, for a process that waits for input. The truncation keeps the 1000
empty lines and prepares the notice, but the kept text is blank, so the response is
'(No output produced)' with the state annotation: no output block and no truncation
notice. -/
theorem truncation_notice_lost :
    (splitNewline blankLinesThenPrompt).length = 1001 ∧
      (truncateOutput blankLinesThenPrompt).2
        = "\n\n⚠️ Output truncated: showing 1000 of 1001 lines.".toList ∧
      interactResponse (fun _ _ => "waiting".toList) 7 blankLinesThenPrompt waitingAtPrompt
          true false 0 0 "early_exit_periodic_check".toList
        = "✅ Input executed in process 7.\n📭 (No output produced)\n🔄 waiting".toList := by
  decide

/-! ## The file bridge -/

/-- C30 (the code at the failing input): the file content is the lines a and b with a
final newline, and the line b is replaced by X. The match is the line range [1, 2); the
content written is the lines a and X without the final newline, so the empty last line
of the file is lost; in the same way the empty first line of a file is lost when its
second line is replaced. -/
theorem update_section_drops_empty_line :
    splitNewline "a\nb\n".toList = ["a".toList, "b".toList, []] ∧
      findContentPosition "a\nb\n".toList "b".toList none
        = some { start := 1, endLine := 2, foundContent := "b".toList } ∧
      updateFileSection "a\nb\n".toList "b".toList none "X".toList = some "a\nX".toList ∧
      splitNewline "a\nX".toList = ["a".toList, "X".toList] ∧
      splitNewline "a\nX".toList
        ≠ (splitNewline "a\nb\n".toList).take 1 ++ splitNewline "X".toList
            ++ (splitNewline "a\nb\n".toList).drop 2 ∧
      updateFileSection "\na".toList "a".toList none "X".toList = some "X".toList := by
  decide

end TerminalManager
